import Mathlib

/-!
# UnrealOpenTelemetry: scope stacks, scoped-span handles and the pinned-span registry

A shallow embedding of `Source/OpenTelemetry/Private/OtelModule.cpp` and
`Source/OpenTelemetry/Public/Otel.h`.

* Objects made by `MakeShared<FOtelScopedSpanImpl>` live in `World.Heap`; a
  `TSharedPtr<FOtelScopedSpanImpl>` is the position of its object in that list
  (`none` is the null pointer), so pointer equality is equality of positions.
  Positions are never reused.
* A `std::shared_ptr<otel::trace::Span>` is `Option Nat`: the identity of the SDK
  span object, `none` for `nullptr`.
* The SDK is external.  What it returns is an argument of the embedded function
  (`NewSpan`, `span_id`), and what is called on it is appended to `World.SdkLog`.
* `check(...)` is fatal: the embedded function returns `none`.  `ensure(...)` is
  not: a failed one is counted in `World.Ensures` and execution goes on.  A pointer
  that is not the position of an object (it cannot arise from the operations
  themselves) fails the null tests `check(Impl)` and `ensure(Scopes.Last())`, and
  dereferencing one is fatal.
* `TMap` is an association list with at most one pair per key.
* The build is the one with `PLATFORM_APPLE` and `NO_LOGGING` off: with
  `PLATFORM_APPLE` on, the bodies of `EmitLog`, `ShutdownModule` and `GetMeter` are
  compiled out and `CreateHistogram` returns `nullptr`.
* A `double` is its IEEE 754 bit pattern; `uint64` values are natural numbers and
  `int64` values integers. The one computation on them is the conversion of `uint64`
  bucket boundaries to `double` (`Double.ofUInt64`).
* The mutex of `FOtelUnlockedData` is not modelled: every embedded function is one
  atomic step.
-/

namespace Otel

/-! ## Data model -/

/-- An `FName`, as its comparison index. -/
abbrev FName := Nat

/-- The name `NAME_None`. -/
def NAME_None : FName := 0

/-- The struct `FOtelSpan` (Otel.h): the owning tracer's name and the shared pointer
to the SDK span. -/
structure FOtelSpan where
  TracerName : FName
  OtelSpan : Option Nat
deriving DecidableEq, Repr

/-- The default constructor `FOtelSpan::FOtelSpan()`: `NAME_None` and `nullptr`. -/
def FOtelSpan.ctor : FOtelSpan :=
  { TracerName := NAME_None, OtelSpan := none }

/-- The struct `FOtelScopedSpanImpl`: a span and the hand-kept reference count. -/
structure FOtelScopedSpanImpl where
  Span : FOtelSpan
  RefCount : Int
deriving DecidableEq, Repr

/-- The constructor `FOtelScopedSpanImpl::FOtelScopedSpanImpl(const FOtelSpan&)`:
the count starts at 0. -/
def FOtelScopedSpanImpl.ctor (InSpan : FOtelSpan) : FOtelScopedSpanImpl :=
  { Span := InSpan, RefCount := 0 }

/-- The struct `FOtelScopedSpan`: its one member `TSharedPtr<FOtelScopedSpanImpl> Scope`. -/
structure FOtelScopedSpan where
  Scope : Option Nat
deriving DecidableEq, Repr

/-- The struct `FOtelTracer`: its name and the shared pointer to the SDK tracer. -/
structure FOtelTracer where
  TracerName : FName
  OtelTracer : Option Nat
deriving DecidableEq, Repr

/-- The enum `EOtelStatus` (Otel.h). -/
inductive EOtelStatus where
  | Ok
  | Error
deriving DecidableEq, Repr

/-- An `FAnalyticsEventAttribute`, as its name and its value, both strings. -/
abbrev FAnalyticsEventAttribute := String × String

/-- The class `EventAttributesOtelConverter` (OtelModule.cpp 84-133): the attributes, the
call-site file (`none` is `nullptr`) and the line number. -/
structure EventAttributesOtelConverter where
  Attributes : List FAnalyticsEventAttribute
  File : Option String
  LineNumber : Int
deriving DecidableEq, Repr

/-- The one-argument constructor of `EventAttributesOtelConverter`: no file, line -1. -/
def EventAttributesOtelConverter.ctor (InAttributes : List FAnalyticsEventAttribute) :
    EventAttributesOtelConverter :=
  { Attributes := InAttributes, File := none, LineNumber := -1 }

/-- What `Span::GetContext()` of the SDK gives: span id, trace id and trace flags, each
as a number; the all-zero span id is the invalid one. -/
structure SpanContext where
  span_id : Nat
  trace_id : Nat
  trace_flags : Nat
deriving DecidableEq, Repr

/-- The two severities of `otel::logs::Severity` that `EmitLog` uses. -/
inductive Severity where
  | kInfo
  | kError
deriving DecidableEq, Repr

/-- An `otel::common::AttributeValue`, in the two forms the converter makes: a string
or a 32-bit integer. -/
inductive AttributeValue where
  | Str (s : String)
  | Int32 (n : Int)
deriving DecidableEq, Repr

/-- A log record as `EmitLog` fills it before `EmitLogRecord`: the tracer name the
logger was obtained for, severity, body, the attributes set on it in order, and the
span context set on it (`none` when `SetSpanId`, `SetTraceId` and `SetTraceFlags`
were not called). -/
structure LogRecord where
  TracerName : FName
  Severity : Severity
  Body : String
  Attributes : List (String × AttributeValue)
  Context : Option SpanContext
deriving DecidableEq, Repr

/-- A call made on the SDK tracer or on a span object: `Tracer::StartSpan` with the span
object it returned and the parent given in `StartSpanOptions::parent`, `Span::End`,
`Span::AddEvent` with the event name and the attribute converter, and
`Span::SetStatus`. -/
inductive SdkCall where
  | StartSpan (span : Nat) (parent : Option Nat)
  | End (span : Nat)
  | AddEvent (span : Nat) (Name : String) (Attributes : EventAttributesOtelConverter)
  | SetStatus (span : Nat) (Status : EOtelStatus)
deriving DecidableEq, Repr

/-- The members of `FOtelModule` that the scope stack, the registry and `EmitLog` use:
`FTracerToScopeStack` (`TMap<FName, TArray<TSharedPtr<FOtelScopedSpanImpl>>>`),
`PinnedSpans` (`TMap<uint64, FOtelScopedSpan>`) and whether `LoggerProvider` is set.
The entries of a scope stack are the positions of their impl objects. -/
structure FOtelModule where
  TracerToScopeStack : List (FName × List Nat)
  PinnedSpans : List (Nat × FOtelScopedSpan)
  LoggerProvider : Bool := false
deriving DecidableEq, Repr

/-- The whole state: the module that `FOtelModule::TryGet()` returns (`none` when the
module is not loaded), the impl objects, the calls made on the SDK tracer and spans so
far (oldest first), the number of failed `ensure`s, and the log records emitted so
far (oldest first). -/
structure World where
  Module : Option FOtelModule
  Heap : List FOtelScopedSpanImpl
  SdkLog : List SdkCall
  Ensures : Nat
  LogRecords : List LogRecord := []
deriving DecidableEq, Repr

/-! ## Containers -/

/-- Lookup `TMap::Find`: the value stored under a key, if any. -/
def TMap.Find {K V : Type} [DecidableEq K] (m : List (K × V)) (k : K) : Option V :=
  match m with
  | [] => none
  | (k1, v) :: rest => if k1 = k then some v else TMap.Find rest k

/-- Insertion `TMap::Add`: replaces the value of an existing key in place, otherwise appends
the pair. -/
def TMap.Add {K V : Type} [DecidableEq K] (m : List (K × V)) (k : K) (v : V) : List (K × V) :=
  match m with
  | [] => [(k, v)]
  | (k1, v1) :: rest => if k1 = k then (k, v) :: rest else (k1, v1) :: TMap.Add rest k v

/-- Removal `TMap::Remove`: drops every pair with the key. -/
def TMap.Remove {K V : Type} [DecidableEq K] (m : List (K × V)) (k : K) : List (K × V) :=
  match m with
  | [] => []
  | (k1, v1) :: rest => if k1 = k then TMap.Remove rest k else (k1, v1) :: TMap.Remove rest k

/-- Search `TArray::IndexOfByPredicate`: the first index whose element satisfies the
predicate; `none` is `INDEX_NONE`. -/
def IndexOfByPredicate (P : Nat → Bool) : List Nat → Option Nat
  | [] => none
  | x :: xs => if P x then some 0 else (IndexOfByPredicate P xs).map (· + 1)

/-! ## The module singleton -/

/-- A module as it is right after construction: both maps empty. -/
def FOtelModule.fresh : FOtelModule :=
  { TracerToScopeStack := [], PinnedSpans := [] }

/-- Accessor `FOtelModule::Get()`: the loaded module; `LoadModuleChecked` loads a fresh one
when none is loaded. -/
def World.Get (w : World) : FOtelModule :=
  match w.Module with
  | some M => M
  | none => FOtelModule.fresh

/-- The scope stack of a tracer name as `FindOrAdd` sees it: the stored array, or the
empty array that `FindOrAdd` would insert. -/
def World.Scopes (w : World) (TracerName : FName) : List Nat :=
  match TMap.Find w.Get.TracerToScopeStack TracerName with
  | some Scopes => Scopes
  | none => []

/-- Store an array as the scope stack of a tracer name in the module. -/
def World.setScopes (w : World) (TracerName : FName) (Scopes : List Nat) : World :=
  { w with Module := some { w.Get with
      TracerToScopeStack := TMap.Add w.Get.TracerToScopeStack TracerName Scopes } }

/-- Store a map as the `PinnedSpans` member of the module. -/
def World.setPinned (w : World) (Pinned : List (Nat × FOtelScopedSpan)) : World :=
  { w with Module := some { w.Get with PinnedSpans := Pinned } }

/-- Write the reference count of the impl object at position `p`. -/
def World.setRefCount (w : World) (p : Nat) (impl : FOtelScopedSpanImpl) (rc : Int) : World :=
  { w with Heap := w.Heap.set p { impl with RefCount := rc } }

/-- The SDK span held by the impl object at position `q`, if the object exists and its
span is not inert. -/
def spanAt (Heap : List FOtelScopedSpanImpl) (q : Nat) : Option Nat :=
  match Heap[q]? with
  | some impl => impl.Span.OtelSpan
  | none => none

/-! ## FOtelScopedSpan -/

/-- The loop of `FOtelScopedSpan::FOtelScopedSpan(const FOtelSpan&)`, on the stack
listed from its top down: `check(Scopes[i])`, then the first entry whose span object
is the given one. The outer `none` is the failed `check`, `some none` is a loop that
ran to its end. -/
def FOtelScopedSpan.findScope (Heap : List FOtelScopedSpanImpl) (OtelSpan : Nat) :
    List Nat → Option (Option Nat)
  | [] => some none
  | q :: below =>
    match Heap[q]? with
    | none => none
    | some impl =>
      if impl.Span.OtelSpan = some OtelSpan then some (some q)
      else FOtelScopedSpan.findScope Heap OtelSpan below

/-- Constructor `FOtelScopedSpan::FOtelScopedSpan(const FOtelSpan& Span)` (OtelModule.cpp 282-306):
for a span that is not inert, with the module loaded and a stack under the span's
tracer name, attach to the topmost entry holding the same span object and raise
its count. -/
def FOtelScopedSpan.fromSpan (Span : FOtelSpan) (w : World) : Option (FOtelScopedSpan × World) :=
  match Span.OtelSpan with
  | none => some ({ Scope := none }, w)
  | some s =>
    match w.Module with
    | none => some ({ Scope := none }, w)
    | some M =>
      match TMap.Find M.TracerToScopeStack Span.TracerName with
      | none => some ({ Scope := none }, w)
      | some Scopes =>
        match FOtelScopedSpan.findScope w.Heap s Scopes.reverse with
        | none => none
        | some none => some ({ Scope := none }, w)
        | some (some q) =>
          match w.Heap[q]? with
          | none => none
          | some impl => some ({ Scope := some q }, w.setRefCount q impl (impl.RefCount + 1))

/-- The default constructor `FOtelScopedSpan() = default`: a null `Scope`. -/
def FOtelScopedSpan.ctor : FOtelScopedSpan :=
  { Scope := none }

/-- The copy constructor `FOtelScopedSpan(const FOtelScopedSpan&)` (308-315): share
the pointer and, when it is not null and its span is not inert, raise the count. -/
def FOtelScopedSpan.copy (ScopedSpan : FOtelScopedSpan) (w : World) :
    Option (FOtelScopedSpan × World) :=
  match ScopedSpan.Scope with
  | none => some ({ Scope := none }, w)
  | some p =>
    match w.Heap[p]? with
    | none => none
    | some impl =>
      match impl.Span.OtelSpan with
      | some _ => some ({ Scope := some p }, w.setRefCount p impl (impl.RefCount + 1))
      | none => some ({ Scope := some p }, w)

/-- The copy assignment `operator=(const FOtelScopedSpan&)` (317-325): the left side
takes the pointer of the right side, whatever it held, and the count of the right
side's entry is raised as in the copy constructor. The result is the new left side. -/
def FOtelScopedSpan.assign (_self : FOtelScopedSpan) (ScopedSpan : FOtelScopedSpan) (w : World) :
    Option (FOtelScopedSpan × World) :=
  match ScopedSpan.Scope with
  | none => some ({ Scope := none }, w)
  | some p =>
    match w.Heap[p]? with
    | none => none
    | some impl =>
      match impl.Span.OtelSpan with
      | some _ => some ({ Scope := some p }, w.setRefCount p impl (impl.RefCount + 1))
      | none => some ({ Scope := some p }, w)

/-- The move constructor `FOtelScopedSpan(FOtelScopedSpan&&)` (327-330):
`Scope = MoveTemp(ScopedSpan.Scope)`. The result is the new handle and what is left
of the moved-from one; no count is touched. -/
def FOtelScopedSpan.move (ScopedSpan : FOtelScopedSpan) : FOtelScopedSpan × FOtelScopedSpan :=
  ({ Scope := ScopedSpan.Scope }, { Scope := none })

/-- The loop `for (int i = Scopes.Num() - 1; i >= Index; --i)` of the destructor, on
the entries from the top of the stack down to `Index`: `check(Impl)`, then `End()`
on the span, or a failed `ensure` when the span is inert. -/
def FOtelScopedSpan.endScopes : List Nat → World → Option World
  | [], w => some w
  | q :: below, w =>
    match w.Heap[q]? with
    | none => none
    | some impl =>
      match impl.Span.OtelSpan with
      | some s => FOtelScopedSpan.endScopes below { w with SdkLog := w.SdkLog ++ [SdkCall.End s] }
      | none => FOtelScopedSpan.endScopes below { w with Ensures := w.Ensures + 1 }

/-- The destructor `FOtelScopedSpan::~FOtelScopedSpan()` (332-370). -/
def FOtelScopedSpan.dtor (self : FOtelScopedSpan) (w : World) : Option World :=
  match self.Scope with
  | none => some w
  | some p =>
    match w.Heap[p]? with
    | none => none
    | some impl =>
      let w1 := w.setRefCount p impl (impl.RefCount - 1)
      if impl.RefCount - 1 ≤ 0 then
        match w1.Module with
        | none => some w1
        | some M =>
          match TMap.Find M.TracerToScopeStack impl.Span.TracerName with
          | none => some { w1 with Ensures := w1.Ensures + 1 }
          | some Scopes =>
            match IndexOfByPredicate (fun Impl => decide (Impl = p)) Scopes with
            | none => some w1
            | some Index =>
              match FOtelScopedSpan.endScopes (Scopes.drop Index).reverse w1 with
              | none => none
              | some w2 => some (w2.setScopes impl.Span.TracerName (Scopes.take Index))
      else some w1

/-- Accessor `FOtelScopedSpan::Inner()` (372-379): the span of the entry, or a default
(inert) span for a null `Scope`. -/
def FOtelScopedSpan.Inner (self : FOtelScopedSpan) (w : World) : Option FOtelSpan :=
  match self.Scope with
  | none => some FOtelSpan.ctor
  | some p =>
    match w.Heap[p]? with
    | none => none
    | some impl => some impl.Span

/-! ## FOtelTracer -/

/-- Function `FOtelTracer::StartSpanOpts` (395-426). `NewSpan` is the span object that
`OtelTracer->StartSpan` returns. The span name (`check(SpanName)`: not null), the
attributes, file, line and timestamp only travel to the SDK and are left out. With
no SDK tracer the result is a default (inert) span and the SDK is not called. -/
def FOtelTracer.StartSpanOpts (self : FOtelTracer) (OptionalParentSpan : Option FOtelSpan)
    (NewSpan : Nat) (w : World) : FOtelSpan × World :=
  match self.OtelTracer with
  | some _ =>
    let parent : Option Nat :=
      match OptionalParentSpan with
      | some ParentSpan => ParentSpan.OtelSpan
      | none => none
    ({ TracerName := self.TracerName, OtelSpan := some NewSpan },
      { w with SdkLog := w.SdkLog ++ [SdkCall.StartSpan NewSpan parent] })
  | none => (FOtelSpan.ctor, w)

/-- The parent choice of `StartSpanScopedOpts` (441-448): the span of `Scopes.Last()`
when the stack is not empty (a failed `ensure` when that pointer is not an object),
else a default span. -/
def FOtelTracer.ParentSpan (Scopes : List Nat) (w : World) : FOtelSpan × World :=
  match Scopes.getLast? with
  | none => (FOtelSpan.ctor, w)
  | some q =>
    match w.Heap[q]? with
    | some impl => (impl.Span, w)
    | none => (FOtelSpan.ctor, { w with Ensures := w.Ensures + 1 })

/-- Function `FOtelTracer::StartSpanScopedOpts` (433-457): find or add the tracer's stack, take
the parent from its top, start the span, push a new impl object made from it, build
the handle from the span and return it (by move). -/
def FOtelTracer.StartSpanScopedOpts (self : FOtelTracer) (NewSpan : Nat) (w : World) :
    Option (FOtelScopedSpan × World) :=
  let Scopes := w.Scopes self.TracerName
  let pw := FOtelTracer.ParentSpan Scopes w
  let sw := self.StartSpanOpts (some pw.1) NewSpan pw.2
  let Scope := sw.2.Heap.length
  let w2 : World := { sw.2 with Heap := sw.2.Heap ++ [FOtelScopedSpanImpl.ctor sw.1] }
  let w3 := w2.setScopes self.TracerName (Scopes ++ [Scope])
  match FOtelScopedSpan.fromSpan sw.1 w3 with
  | none => none
  | some (ScopedSpan, w4) => some ((FOtelScopedSpan.move ScopedSpan).1, w4)

/-- Function `FOtelTracer::StartSpanScoped` (428-431): `StartSpanScopedOpts` with no attributes
and no timestamp. -/
def FOtelTracer.StartSpanScoped (self : FOtelTracer) (NewSpan : Nat) (w : World) :
    Option (FOtelScopedSpan × World) :=
  self.StartSpanScopedOpts NewSpan w

/-! ## The pinned-span registry -/

/-- The call `PinnedSpans.Add(SpanId, ScopedSpan)`: the new element is copy-constructed from the
value; when the key is already there the element it replaces is destroyed. -/
def FOtelModule.PinnedSpansAdd (SpanId : Nat) (Value : FOtelScopedSpan) (w : World) :
    Option World :=
  match FOtelScopedSpan.copy Value w with
  | none => none
  | some (Stored, w1) =>
    match TMap.Find w1.Get.PinnedSpans SpanId with
    | some Old =>
      match Old.dtor w1 with
      | none => none
      | some w2 => some (w2.setPinned (TMap.Add w2.Get.PinnedSpans SpanId Stored))
    | none => some (w1.setPinned (TMap.Add w1.Get.PinnedSpans SpanId Stored))

/-- Function `FOtelModule::Pin(FOtelScopedSpan ScopedSpan)` (1280-1294), called as `Pin(Arg)` on
the module of `FOtelModule::Get()`: the by-value parameter is copy-constructed from
the argument and destroyed when the call returns. `span_id` gives the 8 bytes of
`GetContext().span_id()` of a span object as a `uint64`. -/
def FOtelModule.Pin (span_id : Nat → Nat) (Arg : FOtelScopedSpan) (w : World) :
    Option (Nat × World) :=
  match FOtelScopedSpan.copy Arg w with
  | none => none
  | some (ScopedSpan, w1) =>
    match ScopedSpan.Inner w1 with
    | none => none
    | some Span =>
      match Span.OtelSpan with
      | none =>
        match ScopedSpan.dtor w1 with
        | none => none
        | some w2 => some (0, w2)
      | some s =>
        match FOtelModule.PinnedSpansAdd (span_id s) ScopedSpan w1 with
        | none => none
        | some w2 =>
          match ScopedSpan.dtor w2 with
          | none => none
          | some w3 => some (span_id s, w3)

/-- Function `FOtelModule::GetPinnedSpan` (1296-1299): `PinnedSpans.Find(SpanId)`; the state is
not touched. -/
def FOtelModule.GetPinnedSpan (SpanId : Nat) (w : World) : Option FOtelScopedSpan :=
  TMap.Find w.Get.PinnedSpans SpanId

/-- Function `FOtelModule::Unpin` (1301-1306): a default handle, then
`RemoveAndCopyValue`: when the key is found the stored value is assigned to the
handle (`FOtelScopedSpan` has no move assignment, so this is the copy assignment),
the stored pair is removed and its value destroyed; the handle is returned
(by move). -/
def FOtelModule.Unpin (SpanId : Nat) (w : World) : Option (FOtelScopedSpan × World) :=
  let ScopedSpan := FOtelScopedSpan.ctor
  match TMap.Find w.Get.PinnedSpans SpanId with
  | none => some ((FOtelScopedSpan.move ScopedSpan).1, w)
  | some Stored =>
    match FOtelScopedSpan.assign ScopedSpan Stored w with
    | none => none
    | some (Out, w1) =>
      match Stored.dtor w1 with
      | none => none
      | some w2 =>
        some ((FOtelScopedSpan.move Out).1, w2.setPinned (TMap.Remove w2.Get.PinnedSpans SpanId))

/-! ## Scenarios and state invariants -/

/-- A run of `StartSpanScoped` calls on one tracer, one call per SDK span object of the
list, in order; the result lists the returned handles in the order of the calls. -/
def startAll (T : FOtelTracer) : List Nat → World → Option (List FOtelScopedSpan × World)
  | [], w => some ([], w)
  | s :: rest, w =>
    match T.StartSpanScoped s w with
    | none => none
    | some (h, w1) =>
      match startAll T rest w1 with
      | none => none
      | some (hs, w2) => some (h :: hs, w2)

/-- The handles of a list destroyed one after the other, first to last. -/
def releaseAll : List FOtelScopedSpan → World → Option World
  | [], w => some w
  | h :: hs, w =>
    match h.dtor w with
    | none => none
    | some w1 => releaseAll hs w1

/-- The `StartSpan` calls of a run of nested spans: each span has the one before it as
its parent, the first has the given parent. -/
def startCalls : Option Nat → List Nat → List SdkCall
  | _, [] => []
  | parent, s :: rest => SdkCall.StartSpan s parent :: startCalls (some s) rest

/-- The span object a call on the SDK is about. -/
def SdkCall.span : SdkCall → Nat
  | SdkCall.StartSpan s _ => s
  | SdkCall.End s => s
  | SdkCall.AddEvent s _ _ => s
  | SdkCall.SetStatus s _ => s

/-- Whether a call on the SDK is a `StartSpan`. -/
def SdkCall.isStart : SdkCall → Bool
  | SdkCall.StartSpan _ _ => true
  | _ => false

/-- Every entry of every scope stack is the position of an impl object. -/
def World.StacksValid (w : World) : Prop :=
  ∀ kv ∈ w.Get.TracerToScopeStack, ∀ q ∈ kv.2, q < w.Heap.length

/-- The `Scope` of a handle is null or the position of an impl object. -/
def FOtelScopedSpan.Valid (h : FOtelScopedSpan) (w : World) : Prop :=
  ∀ p ∈ h.Scope, p < w.Heap.length

/-- Every handle stored in the registry is valid. -/
def World.PinnedValid (w : World) : Prop :=
  ∀ kv ∈ w.Get.PinnedSpans, FOtelScopedSpan.Valid kv.2 w

instance (w : World) : Decidable w.StacksValid := by
  unfold World.StacksValid
  infer_instance

instance (h : FOtelScopedSpan) (w : World) : Decidable (h.Valid w) := by
  unfold FOtelScopedSpan.Valid
  infer_instance

instance (w : World) : Decidable w.PinnedValid := by
  unfold World.PinnedValid
  infer_instance

/-! ## Concrete states -/

/-- The state before the module is loaded: no impl object, no call on the SDK. -/
def exEmpty : World :=
  { Module := none, Heap := [], SdkLog := [], Ensures := 0 }

/-- A state with one tracer (name 7) whose stack holds three entries, for the spans
100, 101 and 102, each with one handle. -/
def exThree : World :=
  { Module := some { TracerToScopeStack := [(7, [0, 1, 2])], PinnedSpans := [] },
    Heap := [⟨⟨7, some 100⟩, 1⟩, ⟨⟨7, some 101⟩, 1⟩, ⟨⟨7, some 102⟩, 1⟩],
    SdkLog := [SdkCall.StartSpan 100 none, SdkCall.StartSpan 101 (some 100),
      SdkCall.StartSpan 102 (some 101)],
    Ensures := 0 }

/-- The state `exThree` after the handle of the entry at position 1 was pinned under
the id 1101: the registry holds a handle on it and its count is 2. -/
def exPinned : World :=
  { Module := some { TracerToScopeStack := [(7, [0, 1, 2])],
                     PinnedSpans := [(1101, { Scope := some 1 })] },
    Heap := [⟨⟨7, some 100⟩, 1⟩, ⟨⟨7, some 101⟩, 2⟩, ⟨⟨7, some 102⟩, 1⟩],
    SdkLog := [SdkCall.StartSpan 100 none, SdkCall.StartSpan 101 (some 100),
      SdkCall.StartSpan 102 (some 101)],
    Ensures := 0 }

/-- The state `exThree` after the last handle of the entry at position 1 was
released: the spans 102 and 101 are ended, the stack is cut to its first entry, and
the entry at position 2 still has its handle. -/
def exStale : World :=
  { Module := some { TracerToScopeStack := [(7, [0])], PinnedSpans := [] },
    Heap := [⟨⟨7, some 100⟩, 1⟩, ⟨⟨7, some 101⟩, 0⟩, ⟨⟨7, some 102⟩, 1⟩],
    SdkLog := [SdkCall.StartSpan 100 none, SdkCall.StartSpan 101 (some 100),
      SdkCall.StartSpan 102 (some 101), SdkCall.End 102, SdkCall.End 101],
    Ensures := 0 }

/-! ## The attribute converter, span operations and EmitLog -/

/-- The functions of the engine and of the SDK that the embedded code calls and whose
results it only passes on: `FName::ToString`, `ToString(ELogVerbosity::Type)` and
`Span::GetContext`. -/
structure External where
  NameToString : FName → String
  VerbosityToString : Nat → String
  GetContext : Nat → SpanContext

/-- The loop over the attributes in `ForEachKeyValue` (103-111): the callback gets each
name and value in order and the loop stops at the first `false`. The callback may
have a state of its own, which is threaded through. -/
def EventAttributesOtelConverter.ForEachAttribute {σ : Type}
    (Callback : String → AttributeValue → σ → Bool × σ) :
    List FAnalyticsEventAttribute → σ → Bool × σ
  | [], st => (true, st)
  | Attribute :: rest, st =>
    let r := Callback Attribute.1 (AttributeValue.Str Attribute.2) st
    if r.1 = false then (false, r.2)
    else EventAttributesOtelConverter.ForEachAttribute Callback rest r.2

/-- Function `EventAttributesOtelConverter::ForEachKeyValue` (101-122): the attributes,
then, when a file is set, `check(LineNumber > 0)` and the two pairs `code.filepath`
and `code.lineno`, whose callback results are not looked at. -/
def EventAttributesOtelConverter.ForEachKeyValue {σ : Type} (self : EventAttributesOtelConverter)
    (Callback : String → AttributeValue → σ → Bool × σ) (st : σ) : Option (Bool × σ) :=
  let r := EventAttributesOtelConverter.ForEachAttribute Callback self.Attributes st
  if r.1 = false then some (false, r.2)
  else
    match self.File with
    | none => some (true, r.2)
    | some File =>
      if 0 < self.LineNumber then
        let r1 := Callback "code.filepath" (AttributeValue.Str File) r.2
        let r2 := Callback "code.lineno" (AttributeValue.Int32 self.LineNumber) r1.2
        some (true, r2.2)
      else none

/-- Function `FOtelSpan::SetStatus` (203-216): on a span that is not inert, `SetStatus`
of the SDK span; the `check` on the enum index always holds. -/
def FOtelSpan.SetStatus (self : FOtelSpan) (Status : EOtelStatus) (w : World) : World :=
  match self.OtelSpan with
  | some s => { w with SdkLog := w.SdkLog ++ [SdkCall.SetStatus s Status] }
  | none => w

/-- Function `FOtelSpan::AddEvent` (241-252), with a name that is not null: on a span that
is not inert, `AddEvent` of the SDK span with the converter of the attributes. -/
def FOtelSpan.AddEvent (self : FOtelSpan) (Name : String)
    (Attributes : List FAnalyticsEventAttribute) (w : World) : World :=
  match self.OtelSpan with
  | some s =>
    { w with SdkLog := w.SdkLog ++
        [SdkCall.AddEvent s Name (EventAttributesOtelConverter.ctor Attributes)] }
  | none => w

/-- The default-constructed `SpanId`, `TraceId` and `TraceFlags` of `EmitLog`: all zero. -/
def SpanContext.invalid : SpanContext :=
  { span_id := 0, trace_id := 0, trace_flags := 0 }

/-- The first part of `FOtelModule::EmitLog` (1317-1336): find or add the stack of the
tracer name; when it has a top entry, add the event to its span, set the status when
one is given that is not `Ok`, and take the span's context. -/
def FOtelModule.EmitLogSpan (X : External) (Message : String)
    (Attributes : List FAnalyticsEventAttribute) (TracerName : FName)
    (Status : Option EOtelStatus) (w : World) : SpanContext × World :=
  let Scopes := w.Scopes TracerName
  let w0 := w.setScopes TracerName Scopes
  match Scopes.getLast? with
  | none => (SpanContext.invalid, w0)
  | some q =>
    match w0.Heap[q]? with
    | none => (SpanContext.invalid, w0)
    | some impl =>
      let w1 := impl.Span.AddEvent Message Attributes w0
      let w2 :=
        match Status with
        | some st => if st ≠ EOtelStatus.Ok then impl.Span.SetStatus st w1 else w1
        | none => w1
      match impl.Span.OtelSpan with
      | some s => (X.GetContext s, w2)
      | none => (SpanContext.invalid, w2)

/-- Function `FOtelModule::EmitLog` (1308-1366), with a message that is not null: the span
part, then, when a logger provider is set, one log record with the severity of the
status, the message as body, the attributes, and the span context when its span id
is valid (not zero). The file and line arguments are not used by the body. -/
def FOtelModule.EmitLog (X : External) (Message : String)
    (Attributes : List FAnalyticsEventAttribute) (_File : Option String) (_LineNumber : Int)
    (TracerName : FName) (Status : Option EOtelStatus) (w : World) : Option World :=
  let cw := FOtelModule.EmitLogSpan X Message Attributes TracerName Status w
  if cw.2.Get.LoggerProvider then
    let Severity := if Status = some EOtelStatus.Error then Severity.kError else Severity.kInfo
    let Record0 : LogRecord :=
      { TracerName := TracerName, Severity := Severity, Body := Message, Attributes := [],
        Context := none }
    match (EventAttributesOtelConverter.ctor Attributes).ForEachKeyValue
        (fun Name Value (Record : LogRecord) =>
          (true, { Record with Attributes := Record.Attributes ++ [(Name, Value)] }))
        Record0 with
    | none => none
    | some r =>
      let Record1 : LogRecord :=
        if cw.1.span_id ≠ 0 then { r.2 with Context := some cw.1 } else r.2
      some { cw.2 with LogRecords := cw.2.LogRecords ++ [Record1] }
  else some cw.2

/-! ## The log router -/

/-- The value `ELogVerbosity::NoLogging` of the engine enum `ELogVerbosity::Type`
(a `uint8`; the engine header is not part of the repository). The enum counts
upwards from the most severe level: `NoLogging = 0`, `Fatal`, `Error`, `Warning`,
`Display`, `Log`, `Verbose`, `VeryVerbose`. -/
def ELogVerbosity.NoLogging : Nat := 0

/-- The value `ELogVerbosity::Fatal`. -/
def ELogVerbosity.Fatal : Nat := 1

/-- The value `ELogVerbosity::Error`. -/
def ELogVerbosity.Error : Nat := 2

/-- The value `ELogVerbosity::Warning`. -/
def ELogVerbosity.Warning : Nat := 3

/-- The value `ELogVerbosity::Display`. -/
def ELogVerbosity.Display : Nat := 4

/-- The value `ELogVerbosity::Log`. -/
def ELogVerbosity.Log : Nat := 5

/-- The value `ELogVerbosity::Verbose`. -/
def ELogVerbosity.Verbose : Nat := 6

/-- The value `ELogVerbosity::VeryVerbose`. -/
def ELogVerbosity.VeryVerbose : Nat := 7

/-- The struct `FOtelOutputDevice::FTracerRouting` (Otel.h 96-100). -/
structure FTracerRouting where
  CategoryVerbosity : List (FName × Nat)
  AllCategoryVerbosity : Nat
deriving DecidableEq, Repr

/-- The default-constructed `FTracerRouting`: no category, `NoLogging` for all. -/
def FTracerRouting.ctor : FTracerRouting :=
  { CategoryVerbosity := [], AllCategoryVerbosity := ELogVerbosity.NoLogging }

/-- The map `FLogRoutingData` (`TMap<FName, FTracerRouting>`). -/
abbrev FLogRoutingData := List (FName × FTracerRouting)

/-- Function `FOtelOutputDevice::SetCategoryEnabled` (946-975). -/
def FOtelOutputDevice.SetCategoryEnabled (LogCategory : FName) (TracerName : FName)
    (LogVerbosity : Nat) (TracerLogging : FLogRoutingData) : FLogRoutingData :=
  let Found : FTracerRouting :=
    match TMap.Find TracerLogging TracerName with
    | some R => R
    | none => FTracerRouting.ctor
  let Routing : FTracerRouting :=
    if LogCategory = NAME_None then
      { Found with AllCategoryVerbosity := LogVerbosity }
    else if LogVerbosity ≠ ELogVerbosity.NoLogging then
      { Found with CategoryVerbosity := TMap.Add Found.CategoryVerbosity LogCategory LogVerbosity }
    else
      { Found with CategoryVerbosity := TMap.Remove Found.CategoryVerbosity LogCategory }
  if Routing.CategoryVerbosity = [] ∧ Routing.AllCategoryVerbosity = ELogVerbosity.NoLogging then
    TMap.Remove TracerLogging TracerName
  else TMap.Add TracerLogging TracerName Routing

/-- The test `bIsAllowed` of `Serialize` (990-995) for one tracer's routing. -/
def FOtelOutputDevice.IsAllowed (Routing : FTracerRouting) (Verbosity : Nat) (Category : FName) :
    Bool :=
  let CategoryVerbosity : Nat :=
    match TMap.Find Routing.CategoryVerbosity Category with
    | some v => v
    | none => ELogVerbosity.NoLogging
  (decide (Routing.AllCategoryVerbosity ≠ ELogVerbosity.NoLogging) &&
      decide (Verbosity ≤ Routing.AllCategoryVerbosity)) ||
    (decide (CategoryVerbosity ≠ ELogVerbosity.NoLogging) &&
      decide (Verbosity ≤ CategoryVerbosity))

/-- The arguments of one `EmitLog` call. -/
structure EmitLogCall where
  Message : String
  Attributes : List FAnalyticsEventAttribute
  File : Option String
  LineNumber : Int
  TracerName : FName
  Status : Option EOtelStatus
deriving DecidableEq, Repr

/-- The `EmitLog` call that `Serialize` makes for an allowed tracer (999-1013): the
message is category, verbosity and text joined by a colon and a blank; no status
for a verbosity above `Warning`, else the status `Error`. -/
def FOtelOutputDevice.MakeCall (X : External) (V : String) (Verbosity : Nat) (Category : FName)
    (TracerName : FName) : EmitLogCall :=
  { Message := X.NameToString Category ++ ": " ++ X.VerbosityToString Verbosity ++ ": " ++ V,
    Attributes := [],
    File := some "OtelModule.cpp",
    LineNumber := if ELogVerbosity.Warning < Verbosity then 1008 else 1012,
    TracerName := TracerName,
    Status := if ELogVerbosity.Warning < Verbosity then none else some EOtelStatus.Error }

/-- The `EmitLog` calls of one `Serialize` (977-1016), in the order of the table: none
for a null or empty text or the verbosity `NoLogging`, else one for each pair of the
table whose routing allows the line. -/
def FOtelOutputDevice.SerializeCalls (X : External) (TracerLogging : FLogRoutingData)
    (V : Option String) (Verbosity : Nat) (Category : FName) : List EmitLogCall :=
  match V with
  | none => []
  | some V =>
    if V = "" ∨ Verbosity = ELogVerbosity.NoLogging then []
    else
      (TracerLogging.filter (fun Pair =>
          FOtelOutputDevice.IsAllowed Pair.2 Verbosity Category)).map
        (fun Pair => FOtelOutputDevice.MakeCall X V Verbosity Category Pair.1)

/-- A list of `EmitLog` calls made one after the other. -/
def FOtelModule.EmitLogs (X : External) : List EmitLogCall → World → Option World
  | [], w => some w
  | c :: rest, w =>
    match FOtelModule.EmitLog X c.Message c.Attributes c.File c.LineNumber c.TracerName
        c.Status w with
    | none => none
    | some w1 => FOtelModule.EmitLogs X rest w1

/-- Function `FOtelOutputDevice::Serialize` (977-1016): its `EmitLog` calls, made in
order. -/
def FOtelOutputDevice.Serialize (X : External) (TracerLogging : FLogRoutingData)
    (V : Option String) (Verbosity : Nat) (Category : FName) (w : World) : Option World :=
  FOtelModule.EmitLogs X (FOtelOutputDevice.SerializeCalls X TracerLogging V Verbosity Category) w

/-- Function `FOtelModule::SetEnableEventsForLogChannel` (1258-1271) on the `OutputDevice`
member (`none` is a null pointer): the device is created when it is not there and
`GLog` is; then the routing is set under the category's name, `NAME_None` for a null
category. -/
def FOtelModule.SetEnableEventsForLogChannel (GLog : Bool) (LogCategory : Option FName)
    (TracerName : FName) (LogVerbosity : Nat) (OutputDevice : Option FLogRoutingData) :
    Option FLogRoutingData :=
  let Device : Option FLogRoutingData :=
    match OutputDevice with
    | none => if GLog then some [] else none
    | some d => some d
  match Device with
  | some d =>
    let CategoryName : FName :=
      match LogCategory with
      | some c => c
      | none => NAME_None
    some (FOtelOutputDevice.SetCategoryEnabled CategoryName TracerName LogVerbosity d)
  | none => none

/-- The struct `FOtelScopedLogHook` (Otel.h 274-284). -/
structure FOtelScopedLogHook where
  Category : Option FName
  TracerName : FName
deriving DecidableEq, Repr

/-- The constructor of `FOtelScopedLogHook` (927-934): the hook and the routing set at
the given verbosity. -/
def FOtelScopedLogHook.ctor (GLog : Bool) (InCategory : Option FName) (InTracerName : FName)
    (LogVerbosity : Nat) (OutputDevice : Option FLogRoutingData) :
    FOtelScopedLogHook × Option FLogRoutingData :=
  ({ Category := InCategory, TracerName := InTracerName },
    FOtelModule.SetEnableEventsForLogChannel GLog InCategory InTracerName LogVerbosity
      OutputDevice)

/-- The destructor of `FOtelScopedLogHook` (936-941): the routing set at `NoLogging`. -/
def FOtelScopedLogHook.dtor (self : FOtelScopedLogHook) (GLog : Bool)
    (OutputDevice : Option FLogRoutingData) : Option FLogRoutingData :=
  FOtelModule.SetEnableEventsForLogChannel GLog self.Category self.TracerName
    ELogVerbosity.NoLogging OutputDevice

/-- The matching rule in the words of the routing contract: tracer `T` has a rule, and
either its all-categories threshold is not `NoLogging` and the verbosity is at most
it, or it has a threshold for the category and the verbosity is at most that. -/
def FOtelOutputDevice.RuleMatches (TracerLogging : FLogRoutingData) (T : FName)
    (Verbosity : Nat) (Category : FName) : Prop :=
  match TMap.Find TracerLogging T with
  | none => False
  | some R =>
    (R.AllCategoryVerbosity ≠ ELogVerbosity.NoLogging ∧ Verbosity ≤ R.AllCategoryVerbosity) ∨
      (match TMap.Find R.CategoryVerbosity Category with
      | some threshold => Verbosity ≤ threshold
      | none => False)

/-- The span object on top of the stack of a tracer name, if the stack has a top entry
and its span is not inert. -/
def World.TopSpan (w : World) (TracerName : FName) : Option Nat :=
  match (w.Scopes TracerName).getLast? with
  | none => none
  | some q => spanAt w.Heap q

/-- The calls on the SDK span that one `EmitLog` call makes in a state: none when the
tracer has no span on top of its stack, else `AddEvent` on that span, followed by
`SetStatus` when the call has the status `Error`. -/
def EmitLogCall.SpanCalls (c : EmitLogCall) (w : World) : List SdkCall :=
  match w.TopSpan c.TracerName with
  | none => []
  | some s =>
    SdkCall.AddEvent s c.Message (EventAttributesOtelConverter.ctor c.Attributes) ::
      (if c.Status = some EOtelStatus.Error then [SdkCall.SetStatus s EOtelStatus.Error] else [])

/-- A sequence of `SetCategoryEnabled` calls, each given as category, tracer name and
verbosity, made first to last. -/
def FOtelOutputDevice.SetAll :
    List (FName × FName × Nat) → FLogRoutingData → FLogRoutingData
  | [], TracerLogging => TracerLogging
  | op :: rest, TracerLogging =>
    FOtelOutputDevice.SetAll rest
      (FOtelOutputDevice.SetCategoryEnabled op.1 op.2.1 op.2.2 TracerLogging)

/-- No entry of the routing table is an empty rule, and no stored category threshold is
`NoLogging`. -/
def FOtelOutputDevice.NoEmptyRule (TracerLogging : FLogRoutingData) : Prop :=
  ∀ Pair ∈ TracerLogging,
    (Pair.2.AllCategoryVerbosity ≠ ELogVerbosity.NoLogging ∨ Pair.2.CategoryVerbosity ≠ []) ∧
    ∀ cv ∈ Pair.2.CategoryVerbosity, cv.2 ≠ ELogVerbosity.NoLogging

/-- The engine and SDK functions used in the concrete runs: names and verbosities
printed as numbers, the span object `s` with span id `s + 1000` and trace id 1. -/
def exExternal : External :=
  { NameToString := fun n => toString n,
    VerbosityToString := fun v => toString v,
    GetContext := fun s => ⟨s + 1000, 1, 1⟩ }

/-- A routing table: tracer 7 takes every category up to `Warning`, tracer 8 takes the
category 20 up to `Log`. -/
def exRouting : FLogRoutingData :=
  [(7, ⟨[], ELogVerbosity.Warning⟩), (8, ⟨[(20, ELogVerbosity.Log)], ELogVerbosity.NoLogging⟩)]

instance (TracerLogging : FLogRoutingData) (T : FName) (Verbosity : Nat) (Category : FName) :
    Decidable (FOtelOutputDevice.RuleMatches TracerLogging T Verbosity Category) := by
  unfold FOtelOutputDevice.RuleMatches
  cases TMap.Find TracerLogging T with
  | none => exact instDecidableFalse
  | some R =>
    dsimp only
    cases TMap.Find R.CategoryVerbosity Category with
    | none => dsimp only; infer_instance
    | some threshold => dsimp only; infer_instance

/-- A routing table in which tracer 7 takes every category up to `Log`. -/
def exRoutingLog : FLogRoutingData :=
  [(7, ⟨[], ELogVerbosity.Log⟩)]

/-- A sequence of calls: category 20 of tracer 7 at `Warning`, all categories of tracer 8
at `Log`, then category 20 of tracer 7 switched off again. -/
def exCalls : List (FName × FName × Nat) :=
  [(20, 7, ELogVerbosity.Warning), (NAME_None, 8, ELogVerbosity.Log),
    (20, 7, ELogVerbosity.NoLogging)]

/-! ## Metric instruments -/

/-- The enum `EOtelInstrumentType` (Otel.h 197-201). -/
inductive EOtelInstrumentType where
  | Int64
  | Double
deriving DecidableEq, Repr

/-- A C++ `double`, as its 64 bits (IEEE 754 binary64): bit 63 is the sign, bits 52 to 62
the exponent, bits 0 to 51 the mantissa. -/
structure Double where
  bits : Nat
deriving DecidableEq, Repr

/-- The sign bit of a `double`. -/
def Double.sign (d : Double) : Nat := d.bits / 2 ^ 63 % 2

/-- The exponent field of a `double`. -/
def Double.exponent (d : Double) : Nat := d.bits / 2 ^ 52 % 2 ^ 11

/-- The mantissa field of a `double`. -/
def Double.mantissa (d : Double) : Nat := d.bits % 2 ^ 52

/-- Whether a `double` is a NaN: exponent all ones and a mantissa that is not zero. -/
def Double.isNaN (d : Double) : Bool :=
  decide (d.exponent = 2047) && decide (d.mantissa ≠ 0)

/-- Whether a `double` is one of the two zeros. -/
def Double.isZero (d : Double) : Bool :=
  decide (d.exponent = 0) && decide (d.mantissa = 0)

/-- The comparison `Value >= 0.0`: false for a NaN, else true for a clear sign bit and
for the negative zero. -/
def Double.geZero (d : Double) : Bool :=
  !d.isNaN && (decide (d.sign = 0) || d.isZero)

/-- The comparison `Value < 0.0`: false for a NaN, else true for a set sign bit unless
the value is the negative zero. -/
def Double.ltZero (d : Double) : Bool :=
  !d.isNaN && decide (d.sign = 1) && !d.isZero

/-- The position of the highest set bit of a number below `2 ^ fuel` that is not zero:
the `e` with `2 ^ e <= n < 2 ^ (e + 1)`. -/
def highBit : Nat → Nat → Nat
  | 0, _ => 0
  | fuel + 1, n => if 2 ≤ n then highBit fuel (n / 2) + 1 else 0

/-- The conversion of a `uint64` to a `double`, which C++ makes implicitly where a
`uint64` is stored as a `double` (the boundaries of an aggregation, OtelModule.cpp
759): the value itself when a `double` can hold it, which is so for every value up
to `2 ^ 53`, else the nearest `double`, a tie going to the even significand (the
IEEE 754 default rounding). With the highest bit at `e > 52` the low `e - 52` bits
are rounded away. -/
def Double.ofUInt64 (n : Nat) : Double :=
  if n = 0 then ⟨0⟩
  else
    let e := highBit 64 n
    if e ≤ 52 then ⟨(e + 1023) * 2 ^ 52 + (n - 2 ^ e) * 2 ^ (52 - e)⟩
    else
      let q := n / 2 ^ (e - 52)
      let r := n % 2 ^ (e - 52)
      let half := 2 ^ (e - 52 - 1)
      let rounded := if half < r ∨ (r = half ∧ q % 2 = 1) then q + 1 else q
      ⟨(e + 1023) * 2 ^ 52 + (rounded - 2 ^ 52)⟩

/-- The value of a `double` when it is a natural number: zero for the two zeros, the
significand `2 ^ 52 + mantissa` scaled by the exponent for a positive normal number
whose value is whole; `none` for every other `double`. -/
def Double.natValue (d : Double) : Option Nat :=
  if d.isZero then some 0
  else if d.sign = 1 ∨ d.exponent = 2047 ∨ d.exponent = 0 then none
  else if 1075 ≤ d.exponent then some ((2 ^ 52 + d.mantissa) * 2 ^ (d.exponent - 1075))
  else if (2 ^ 52 + d.mantissa) % 2 ^ (1075 - d.exponent) = 0 then
    some ((2 ^ 52 + d.mantissa) / 2 ^ (1075 - d.exponent))
  else none

/-- A number handed to the SDK: a `uint64`, an `int64` or a `double`. -/
inductive Number where
  | UInt64 (v : Nat)
  | Int64 (v : Int)
  | Double (v : Double)
deriving DecidableEq, Repr

/-- One call of `Add`, `Record` or `Observe` on an SDK instrument or observer result:
the value and the attribute converter. -/
structure Measurement where
  Value : Number
  Attributes : EventAttributesOtelConverter
deriving DecidableEq, Repr

/-- What the calls on one instrument have produced so far: the calls on its SDK
instrument (oldest first), the number of `UE_LOG` warnings, the number of failed
`ensure(Value >= 0.0)` and the number of failed `ensureMsgf` type tests. -/
structure Sink where
  Sdk : List Measurement
  Warnings : Nat
  Ensures : Nat
  EnsureMsgs : Nat
deriving DecidableEq, Repr

/-- A sink with nothing in it. -/
def Sink.empty : Sink :=
  { Sdk := [], Warnings := 0, Ensures := 0, EnsureMsgs := 0 }

/-- A call on the SDK instrument with the converter of the attributes. -/
def Sink.forward (k : Sink) (Value : Number) (Attributes : List FAnalyticsEventAttribute) : Sink :=
  { k with Sdk := k.Sdk ++ [⟨Value, EventAttributesOtelConverter.ctor Attributes⟩] }

/-- One `UE_LOG(LogOtel, Warning, ...)`. -/
def Sink.warn (k : Sink) : Sink :=
  { k with Warnings := k.Warnings + 1 }

/-- The statement `ensure(Value >= 0.0)`. -/
def Sink.ensureGeZero (k : Sink) (Value : Double) : Sink :=
  if Value.geZero then k else { k with Ensures := k.Ensures + 1 }

/-- The statement `ensureMsgf(Type == Wanted, ...)` of a no-op instrument whose member
`Type` is `InType`. -/
def Sink.ensureType (k : Sink) (InType Wanted : EOtelInstrumentType) : Sink :=
  if InType = Wanted then k else { k with EnsureMsgs := k.EnsureMsgs + 1 }

/-- The implementations of `FOtelCounter` (462-516): `FOtelCounterUInt64`,
`FOtelCounterDouble`, and `FOtelCounterNoop` with its type. -/
inductive FOtelCounter where
  | UInt64
  | Double
  | Noop (InType : EOtelInstrumentType)
deriving DecidableEq, Repr

/-- The overload `Add(uint64 Value, Attributes)` of the three counters. -/
def FOtelCounter.AddUInt64 (self : FOtelCounter) (Value : Nat)
    (Attributes : List FAnalyticsEventAttribute) (k : Sink) : Sink :=
  match self with
  | FOtelCounter.UInt64 => k.forward (Number.UInt64 Value) Attributes
  | FOtelCounter.Double => k.warn
  | FOtelCounter.Noop InType => k.ensureType InType EOtelInstrumentType.Int64

/-- The overload `Add(double Value, Attributes)` of the three counters. -/
def FOtelCounter.AddDouble (self : FOtelCounter) (Value : Otel.Double)
    (Attributes : List FAnalyticsEventAttribute) (k : Sink) : Sink :=
  match self with
  | FOtelCounter.UInt64 => k.warn
  | FOtelCounter.Double =>
    if Value.geZero then k.forward (Number.Double Value) Attributes
    else { k with Ensures := k.Ensures + 1 }
  | FOtelCounter.Noop InType => (k.ensureGeZero Value).ensureType InType EOtelInstrumentType.Double

/-- The members `LastObserved` and `LastAttributes` of `TOtelGauge<T>` (518-577);
`none` is the `LastObserved` that was never made. -/
structure TOtelGauge (T : Type) where
  LastObserved : Option T
  LastAttributes : List FAnalyticsEventAttribute
deriving DecidableEq, Repr

/-- Function `TOtelGauge::ObserveInternal` (521-529). -/
def TOtelGauge.ObserveInternal {T : Type} (_self : TOtelGauge T) (Value : T)
    (Attributes : List FAnalyticsEventAttribute) : TOtelGauge T :=
  { LastObserved := some Value, LastAttributes := Attributes }

/-- The implementations of `FOtelGauge` (518-597): `TOtelGauge<int64_t>`,
`TOtelGauge<double>`, and `FOtelGaugeNoop` with its type. -/
inductive FOtelGauge where
  | Int64 (g : TOtelGauge Int)
  | Double (g : TOtelGauge Double)
  | Noop (InType : EOtelInstrumentType)
deriving DecidableEq, Repr

/-- The overload `Observe(int64 Value, Attributes)` of the three gauges. -/
def FOtelGauge.ObserveInt64 (self : FOtelGauge) (Value : Int)
    (Attributes : List FAnalyticsEventAttribute) (k : Sink) : FOtelGauge × Sink :=
  match self with
  | FOtelGauge.Int64 g => (FOtelGauge.Int64 (g.ObserveInternal Value Attributes), k)
  | FOtelGauge.Double g => (FOtelGauge.Double g, k.warn)
  | FOtelGauge.Noop InType => (FOtelGauge.Noop InType, k.ensureType InType EOtelInstrumentType.Int64)

/-- The overload `Observe(double Value, Attributes)` of the three gauges. -/
def FOtelGauge.ObserveDouble (self : FOtelGauge) (Value : Otel.Double)
    (Attributes : List FAnalyticsEventAttribute) (k : Sink) : FOtelGauge × Sink :=
  match self with
  | FOtelGauge.Int64 g => (FOtelGauge.Int64 g, k.warn)
  | FOtelGauge.Double g => (FOtelGauge.Double (g.ObserveInternal Value Attributes), k)
  | FOtelGauge.Noop InType => (FOtelGauge.Noop InType, k.ensureType InType EOtelInstrumentType.Double)

/-- Function `TOtelGauge::OtelCallback` (562-572), which the SDK calls at each collection:
when a value was observed, one `Observe` on the observer result with the value and
the converter of the last attributes. The no-op gauge registers no callback. -/
def FOtelGauge.OtelCallback (self : FOtelGauge) (k : Sink) : Sink :=
  match self with
  | FOtelGauge.Int64 g =>
    match g.LastObserved with
    | some Value => k.forward (Number.Int64 Value) g.LastAttributes
    | none => k
  | FOtelGauge.Double g =>
    match g.LastObserved with
    | some Value => k.forward (Number.Double Value) g.LastAttributes
    | none => k
  | FOtelGauge.Noop _ => k

/-- The implementations of `FOtelHistogram` (599-653): `FOtelHistogramUInt64`,
`FOtelHistogramDouble`, and `FOtelHistogramNoop` with its type. -/
inductive FOtelHistogram where
  | UInt64
  | Double
  | Noop (InType : EOtelInstrumentType)
deriving DecidableEq, Repr

/-- The overload `Record(uint64 Value, Attributes)` of the three histograms. -/
def FOtelHistogram.RecordUInt64 (self : FOtelHistogram) (Value : Nat)
    (Attributes : List FAnalyticsEventAttribute) (k : Sink) : Sink :=
  match self with
  | FOtelHistogram.UInt64 => k.forward (Number.UInt64 Value) Attributes
  | FOtelHistogram.Double => k.warn
  | FOtelHistogram.Noop InType => k.ensureType InType EOtelInstrumentType.Int64

/-- The overload `Record(double Value, Attributes)` of the three histograms. -/
def FOtelHistogram.RecordDouble (self : FOtelHistogram) (Value : Otel.Double)
    (Attributes : List FAnalyticsEventAttribute) (k : Sink) : Sink :=
  match self with
  | FOtelHistogram.UInt64 => k.warn
  | FOtelHistogram.Double =>
    if Value.geZero then k.forward (Number.Double Value) Attributes
    else { k with Ensures := k.Ensures + 1 }
  | FOtelHistogram.Noop InType => (k.ensureGeZero Value).ensureType InType EOtelInstrumentType.Double

/-- The struct `FOtelHistogramBuckets` (Otel.h 203-210). -/
structure FOtelHistogramBuckets where
  UInt64Buckets : List Nat
  DoubleBuckets : List Double
deriving DecidableEq, Repr

/-- Function `FOtelHistogramBuckets::From(TArrayView<const uint64>)` (655-661). -/
def FOtelHistogramBuckets.FromUInt64 (InBuckets : List Nat) : FOtelHistogramBuckets :=
  { UInt64Buckets := InBuckets, DoubleBuckets := [] }

/-- Function `FOtelHistogramBuckets::From(TArrayView<const double>)` (663-668). -/
def FOtelHistogramBuckets.FromDouble (InBuckets : List Double) : FOtelHistogramBuckets :=
  { UInt64Buckets := [], DoubleBuckets := InBuckets }

/-- The struct `FOtelMeter` (Otel.h 212-228), with what its functions read of the module
it refers to: the name, the shared pointer to the SDK meter, whether
`Module.MeterProvider` is set, and `Module.Config.Metric.Version` and `SchemaUrl`. -/
structure FOtelMeter where
  Name : String
  OtelMeter : Option Nat
  MeterProvider : Bool
  Version : String
  SchemaUrl : String
deriving DecidableEq, Repr

/-- A call that a create function makes on the SDK meter or on the meter provider. The
unit is the display string of the `EUnit`, empty for `Unspecified`; the boundaries of
a view are those of its `HistogramAggregationConfig`, a vector of `double`. -/
inductive MeterCall where
  | CreateUInt64Counter (Name Unit : String)
  | CreateDoubleCounter (Name Unit : String)
  | CreateInt64ObservableGauge (Name Unit : String)
  | CreateDoubleObservableGauge (Name Unit : String)
  | AddView (InstrumentName Unit MeterName Version Schema : String)
      (Boundaries : List Otel.Double)
  | CreateUInt64Histogram (Name Unit : String)
  | CreateDoubleHistogram (Name Unit : String)
deriving DecidableEq, Repr

/-- Function `FOtelMeter::CreateCounter` (677-706): the counter and the calls made on the
SDK meter. -/
def FOtelMeter.CreateCounter (self : FOtelMeter) (MeterType : EOtelInstrumentType)
    (CounterName : String) (UnitTypeStr : String) : FOtelCounter × List MeterCall :=
  match self.OtelMeter with
  | some _ =>
    if MeterType = EOtelInstrumentType.Int64 then
      (FOtelCounter.UInt64, [MeterCall.CreateUInt64Counter CounterName UnitTypeStr])
    else
      (FOtelCounter.Double, [MeterCall.CreateDoubleCounter CounterName UnitTypeStr])
  | none => (FOtelCounter.Noop MeterType, [])

/-- Function `FOtelMeter::CreateGauge` (708-737): the gauge, with nothing observed yet, and
the calls made on the SDK meter. `SetGauge` finds no gauge set before. -/
def FOtelMeter.CreateGauge (self : FOtelMeter) (MeterType : EOtelInstrumentType)
    (GaugeName : String) (UnitTypeStr : String) : FOtelGauge × List MeterCall :=
  match self.OtelMeter with
  | some _ =>
    if MeterType = EOtelInstrumentType.Int64 then
      (FOtelGauge.Int64 { LastObserved := none, LastAttributes := [] },
        [MeterCall.CreateInt64ObservableGauge GaugeName UnitTypeStr])
    else
      (FOtelGauge.Double { LastObserved := none, LastAttributes := [] },
        [MeterCall.CreateDoubleObservableGauge GaugeName UnitTypeStr])
  | none => (FOtelGauge.Noop MeterType, [])

/-- The boundaries of the aggregation that `CreateHistogram` sets up (752-770): the
outer `none` is a failed `check` on the buckets of the other type, `some none` is no
aggregation. `boundaries_` is a vector of `double`: the `uint64` buckets are
converted as they are inserted. -/
def FOtelMeter.HistogramAggregation (MeterType : EOtelInstrumentType)
    (Buckets : FOtelHistogramBuckets) : Option (Option (List Otel.Double)) :=
  if MeterType = EOtelInstrumentType.Int64 then
    if Buckets.DoubleBuckets = [] then
      if 0 < Buckets.UInt64Buckets.length then
        some (some (Buckets.UInt64Buckets.map Double.ofUInt64))
      else some none
    else none
  else
    if Buckets.UInt64Buckets = [] then
      if 0 < Buckets.DoubleBuckets.length then
        some (some Buckets.DoubleBuckets)
      else some none
    else none

/-- Function `FOtelMeter::CreateHistogram` (739-816): `check(HistogramName)`; with an SDK
meter the aggregation, the view added on the meter provider when there is an
aggregation (a null meter provider is fatal there), then the SDK histogram; with no
SDK meter the no-op histogram of the given type. -/
def FOtelMeter.CreateHistogram (self : FOtelMeter) (MeterType : EOtelInstrumentType)
    (HistogramName : Option String) (Buckets : FOtelHistogramBuckets) (UnitTypeStr : String) :
    Option (FOtelHistogram × List MeterCall) :=
  match HistogramName with
  | none => none
  | some Name =>
    match self.OtelMeter with
    | some _ =>
      match FOtelMeter.HistogramAggregation MeterType Buckets with
      | none => none
      | some Aggregation =>
        let Views : Option (List MeterCall) :=
          match Aggregation with
          | some Boundaries =>
            if self.MeterProvider then
              some [MeterCall.AddView Name UnitTypeStr self.Name self.Version self.SchemaUrl
                Boundaries]
            else none
          | none => some []
        match Views with
        | none => none
        | some calls =>
          if MeterType = EOtelInstrumentType.Int64 then
            some (FOtelHistogram.UInt64, calls ++ [MeterCall.CreateUInt64Histogram Name UnitTypeStr])
          else
            some (FOtelHistogram.Double, calls ++ [MeterCall.CreateDoubleHistogram Name UnitTypeStr])
    | none => some (FOtelHistogram.Noop MeterType, [])

/-- One `Observe` call on a gauge: the `int64` overload or the `double` overload, with
its attributes. -/
inductive Observation where
  | Int64 (Value : Int) (Attributes : List FAnalyticsEventAttribute)
  | Double (Value : Otel.Double) (Attributes : List FAnalyticsEventAttribute)
deriving DecidableEq, Repr

/-- One `Observe` call made on a gauge. -/
def FOtelGauge.Observe (self : FOtelGauge) (o : Observation) (k : Sink) : FOtelGauge × Sink :=
  match o with
  | Observation.Int64 Value Attributes => self.ObserveInt64 Value Attributes k
  | Observation.Double Value Attributes => self.ObserveDouble Value Attributes k

/-- A sequence of `Observe` calls made on a gauge, first to last. -/
def FOtelGauge.ObserveAll (self : FOtelGauge) : List Observation → Sink → FOtelGauge × Sink
  | [], k => (self, k)
  | o :: rest, k => FOtelGauge.ObserveAll (self.Observe o k).1 rest (self.Observe o k).2

/-- The measurement of an `Observe` call whose overload is the one of the declared type
of a gauge, `none` for a call of the other overload. -/
def Observation.ofType (T : EOtelInstrumentType) : Observation → Option Measurement
  | Observation.Int64 Value Attributes =>
    if T = EOtelInstrumentType.Int64 then
      some ⟨Number.Int64 Value, EventAttributesOtelConverter.ctor Attributes⟩
    else none
  | Observation.Double Value Attributes =>
    if T = EOtelInstrumentType.Double then
      some ⟨Number.Double Value, EventAttributesOtelConverter.ctor Attributes⟩
    else none

/-- The declared type of an active gauge, `none` for the no-op gauge. -/
def FOtelGauge.Declared : FOtelGauge → Option EOtelInstrumentType
  | FOtelGauge.Int64 _ => some EOtelInstrumentType.Int64
  | FOtelGauge.Double _ => some EOtelInstrumentType.Double
  | FOtelGauge.Noop _ => none

/-- The last observed value of a gauge with its last attributes, as a measurement;
`none` when nothing was observed or the gauge is the no-op gauge. -/
def FOtelGauge.Last : FOtelGauge → Option Measurement
  | FOtelGauge.Int64 g =>
    match g.LastObserved with
    | some Value => some ⟨Number.Int64 Value, EventAttributesOtelConverter.ctor g.LastAttributes⟩
    | none => none
  | FOtelGauge.Double g =>
    match g.LastObserved with
    | some Value => some ⟨Number.Double Value, EventAttributesOtelConverter.ctor g.LastAttributes⟩
    | none => none
  | FOtelGauge.Noop _ => none

/-! ## Concrete values -/

/-- The `double` -1.0: bits 0xBFF0000000000000. -/
def exMinusOne : Otel.Double := ⟨13830554455654793216⟩

/-- The `double` 2.0: bits 0x4000000000000000. -/
def exTwo : Otel.Double := ⟨4611686018427387904⟩

/-- One attribute, `map` with value `a`. -/
def exAttributes : List FAnalyticsEventAttribute := [("map", "a")]

/-- A meter with no SDK meter, as `GetMeter` makes it when no meter provider is set. -/
def exNoMeter : FOtelMeter :=
  { Name := "frame_stats", OtelMeter := none, MeterProvider := false, Version := "",
    SchemaUrl := "" }

/-- A meter with an SDK meter. -/
def exMeter : FOtelMeter :=
  { Name := "frame_stats", OtelMeter := some 1, MeterProvider := true, Version := "1",
    SchemaUrl := "" }

/-- Three `Observe` calls: the `int64` 4, the `double` 2.0, the `int64` 9. -/
def exObservations : List Observation :=
  [Observation.Int64 4 exAttributes, Observation.Double exTwo [], Observation.Int64 9 []]

/-! ## Shutdown of the module -/

/-- The inner loop of `FOtelModule::ShutdownModule` (1215-1226) on one stack, listed from
its top down: `End()` on the span of every entry that is an object and whose span is
not inert; the other entries are passed over. -/
def FOtelModule.endStack : List Nat → World → World
  | [], w => w
  | q :: below, w =>
    match w.Heap[q]? with
    | some impl =>
      match impl.Span.OtelSpan with
      | some s => FOtelModule.endStack below { w with SdkLog := w.SdkLog ++ [SdkCall.End s] }
      | none => FOtelModule.endStack below w
    | none => FOtelModule.endStack below w

/-- The outer loop of `FOtelModule::ShutdownModule` (1213-1227): the pairs of the map in
order, each stack from `Num() - 1` down to 0. -/
def FOtelModule.endStacks : List (FName × List Nat) → World → World
  | [], w => w
  | Pair :: rest, w => FOtelModule.endStacks rest (FOtelModule.endStack Pair.2.reverse w)

/-- Function `FOtelModule::ShutdownModule` (1201-1246), called on the loaded module: the
logger provider is set to null, the spans of all stacks are ended and the map of the
stacks is reset. Deleting the frame stats, the flush of the SDK tracer, the reset of
the global providers and the removal of the output device touch nothing of the
state here; `PinnedSpans` is not touched by the function. -/
def FOtelModule.ShutdownModule (w : World) : World :=
  let w1 : World := { w with Module := some { w.Get with LoggerProvider := false } }
  let w2 := FOtelModule.endStacks w1.Get.TracerToScopeStack w1
  { w2 with Module := some { w2.Get with TracerToScopeStack := [] } }

/-- The span that a call ends: the span of an `End()` call, `none` for any other call. -/
def SdkCall.ended : SdkCall → Option Nat
  | SdkCall.End s => some s
  | _ => none

/-- The spans that `End()` was called on so far, oldest call first. -/
def World.Ended (w : World) : List Nat :=
  w.SdkLog.filterMap SdkCall.ended

/-- The number of handles of a list that refer to the impl object at position `p`. -/
def liveCount (Handles : List FOtelScopedSpan) (p : Nat) : Nat :=
  (Handles.filter (fun h => decide (h.Scope = some p))).length

/-! ## GetMeter -/

/-- The members of `FOtelMetricConfig` (Otel.h 240-251) that `GetMeter` and
`CreateHistogram` read. -/
structure FOtelMetricConfig where
  DefaultMeterName : String
  Version : String
  SchemaUrl : String
deriving DecidableEq, Repr

/-- Function `FOtelModule::GetMeter` (1368-1380). `MeterProvider` is the member of the
module, `none` for a null pointer, else the function `GetMeter` of the SDK provider.
`MeterName` is `none` for a null pointer; `FString Name(InName)` of a null pointer is
the empty string. The second result is the name the SDK meter was obtained under,
`none` when the SDK was not asked. -/
def FOtelModule.GetMeter (Config : FOtelMetricConfig) (MeterProvider : Option (String → Nat))
    (MeterName : Option String) : FOtelMeter × Option String :=
  let Name : String :=
    match MeterName with
    | some n => n
    | none => ""
  match MeterProvider with
  | some GetMeter =>
    let FinalMeterName : String :=
      match MeterName with
      | none => Config.DefaultMeterName
      | some n => n
    ({ Name := Name, OtelMeter := some (GetMeter FinalMeterName), MeterProvider := true,
       Version := Config.Version, SchemaUrl := Config.SchemaUrl }, some FinalMeterName)
  | none =>
    ({ Name := Name, OtelMeter := none, MeterProvider := false,
       Version := Config.Version, SchemaUrl := Config.SchemaUrl }, none)

/-- The meter name that the meter selector of an `AddView` call names. -/
def MeterCall.ViewMeterName : MeterCall → Option String
  | MeterCall.AddView _ _ MeterName _ _ _ => some MeterName
  | _ => none

/-- A metric configuration with the default meter name `default_meter`. -/
def exConfig : FOtelMetricConfig :=
  { DefaultMeterName := "default_meter", Version := "1", SchemaUrl := "" }

/-! ## Callbacks on the attribute converter -/

/-- A callback for `ForEachKeyValue` that takes down the pairs it is given, in order,
and answers each with `accept`. -/
def recordPairs (accept : String → AttributeValue → Bool) (Name : String)
    (Value : AttributeValue) (seen : List (String × AttributeValue)) :
    Bool × List (String × AttributeValue) :=
  (accept Name Value, seen ++ [(Name, Value)])

/-- The pair that the converter makes of an attribute: its name and its value as a
string value. -/
def attributePair (Attribute : FAnalyticsEventAttribute) : String × AttributeValue :=
  (Attribute.1, AttributeValue.Str Attribute.2)

/-! ## More concrete states -/

/-- The state `exThree` with a logger provider set. -/
def exLogging : World :=
  { Module := some { TracerToScopeStack := [(7, [0, 1, 2])], PinnedSpans := [],
                     LoggerProvider := true },
    Heap := [⟨⟨7, some 100⟩, 1⟩, ⟨⟨7, some 101⟩, 1⟩, ⟨⟨7, some 102⟩, 1⟩],
    SdkLog := [SdkCall.StartSpan 100 none, SdkCall.StartSpan 101 (some 100),
      SdkCall.StartSpan 102 (some 101)],
    Ensures := 0 }

/-- The tracer 7 with an SDK tracer. -/
def exTracer : FOtelTracer :=
  { TracerName := 7, OtelTracer := some 1 }

/-! ## Sequences of operations on handles -/

/-- The entries of all scope stacks, in the order of the map. -/
def World.Entries (w : World) : List Nat :=
  w.Get.TracerToScopeStack.flatMap (fun Pair => Pair.2)

/-- The state invariant behind "ended at most once": the entries of the stacks are
positions of impl objects and no position is on a stack twice; no SDK span object is
held by two impl objects; no span was ended twice; the span of an entry that is
still on a stack was not ended; and every ended span is the span of an impl
object. -/
structure World.Sound (w : World) : Prop where
  valid : ∀ q ∈ w.Entries, q < w.Heap.length
  entries : w.Entries.Nodup
  spans : ∀ i j s, spanAt w.Heap i = some s → spanAt w.Heap j = some s → i = j
  ended : w.Ended.Nodup
  live : ∀ q ∈ w.Entries, ∀ s, spanAt w.Heap q = some s → s ∉ w.Ended
  known : ∀ s ∈ w.Ended, ∃ q, spanAt w.Heap q = some s

/-- One operation of a program on its handle variables, which are numbered in the order
of their construction: start a scoped span on a tracer (`NewSpan` is the span object
the SDK returns), copy-construct or move-construct a new handle from a variable,
assign one variable to another, destroy a variable, pin a variable, unpin an id,
shut the module down. -/
inductive ScopeOp where
  | Start (Tracer : FOtelTracer) (NewSpan : Nat)
  | Copy (i : Nat)
  | Move (i : Nat)
  | Assign (i j : Nat)
  | Release (i : Nat)
  | Pin (i : Nat)
  | Unpin (SpanId : Nat)
  | Shutdown
deriving DecidableEq, Repr

/-- The handle variable number `i`; a number that is not in use stands for a
default-constructed handle. -/
def handleAt (Handles : List FOtelScopedSpan) (i : Nat) : FOtelScopedSpan :=
  match Handles[i]? with
  | some h => h
  | none => FOtelScopedSpan.ctor

/-- One operation on the handle variables and the state. A new handle becomes the next
variable; a moved-from variable is left with a null `Scope`; a destroyed variable is
gone, its number then stands for a null handle. -/
def ScopeOp.step (span_id : Nat → Nat) (op : ScopeOp) (Handles : List FOtelScopedSpan)
    (w : World) : Option (List FOtelScopedSpan × World) :=
  match op with
  | ScopeOp.Start Tracer NewSpan =>
    match Tracer.StartSpanScoped NewSpan w with
    | none => none
    | some (h, w1) => some (Handles ++ [h], w1)
  | ScopeOp.Copy i =>
    match (handleAt Handles i).copy w with
    | none => none
    | some (h, w1) => some (Handles ++ [h], w1)
  | ScopeOp.Move i =>
    some ((Handles.set i (FOtelScopedSpan.move (handleAt Handles i)).2) ++
      [(FOtelScopedSpan.move (handleAt Handles i)).1], w)
  | ScopeOp.Assign i j =>
    match (handleAt Handles i).assign (handleAt Handles j) w with
    | none => none
    | some (h, w1) => some (Handles.set i h, w1)
  | ScopeOp.Release i =>
    match (handleAt Handles i).dtor w with
    | none => none
    | some w1 => some (Handles.set i FOtelScopedSpan.ctor, w1)
  | ScopeOp.Pin i =>
    match FOtelModule.Pin span_id (handleAt Handles i) w with
    | none => none
    | some (_, w1) => some (Handles, w1)
  | ScopeOp.Unpin SpanId =>
    match FOtelModule.Unpin SpanId w with
    | none => none
    | some (h, w1) => some (Handles ++ [h], w1)
  | ScopeOp.Shutdown => some (Handles, FOtelModule.ShutdownModule w)

/-- A sequence of operations, made first to last. -/
def runOps (span_id : Nat → Nat) :
    List ScopeOp → List FOtelScopedSpan → World → Option (List FOtelScopedSpan × World)
  | [], Handles, w => some (Handles, w)
  | op :: rest, Handles, w =>
    match op.step span_id Handles w with
    | none => none
    | some (Handles1, w1) => runOps span_id rest Handles1 w1

/-- The span objects that the SDK returns to the `Start` operations of a sequence, in
order; a tracer with no SDK tracer does not ask the SDK. -/
def startedSpans : List ScopeOp → List Nat
  | [] => []
  | ScopeOp.Start Tracer NewSpan :: rest =>
    match Tracer.OtelTracer with
    | some _ => NewSpan :: startedSpans rest
    | none => startedSpans rest
  | _ :: rest => startedSpans rest

/-- A program: two nested spans on tracer 7, the outer handle pinned and released, the
inner handle copied and both copies released, then the id unpinned and the returned
handle released, then a shutdown. -/
def exProgram : List ScopeOp :=
  [ScopeOp.Start exTracer 100, ScopeOp.Start exTracer 101, ScopeOp.Pin 0, ScopeOp.Release 0,
    ScopeOp.Copy 1, ScopeOp.Release 1, ScopeOp.Release 2, ScopeOp.Unpin 1100,
    ScopeOp.Release 3, ScopeOp.Shutdown]

/-! ## Lemmas on the containers and the loops -/

theorem TMap.Find_Add_self {K V : Type} [DecidableEq K] (m : List (K × V)) (k : K) (v : V) :
    TMap.Find (TMap.Add m k v) k = some v := by
  induction m with
  | nil => simp [TMap.Add, TMap.Find]
  | cons kv rest ih =>
    obtain ⟨k1, v1⟩ := kv
    by_cases h : k1 = k
    · simp [TMap.Add, TMap.Find, h]
    · simp [TMap.Add, TMap.Find, h, ih]

theorem TMap.Find_Add_ne {K V : Type} [DecidableEq K] (m : List (K × V)) (k k2 : K) (v : V)
    (hne : k2 ≠ k) : TMap.Find (TMap.Add m k v) k2 = TMap.Find m k2 := by
  induction m with
  | nil => simp [TMap.Add, TMap.Find, Ne.symm hne]
  | cons kv rest ih =>
    obtain ⟨k1, v1⟩ := kv
    by_cases h : k1 = k
    · subst h
      simp [TMap.Add, TMap.Find, Ne.symm hne]
    · by_cases h2 : k1 = k2
      · subst h2
        simp [TMap.Add, TMap.Find, h]
      · simp [TMap.Add, TMap.Find, h, h2, ih]

theorem TMap.Find_Remove_self {K V : Type} [DecidableEq K] (m : List (K × V)) (k : K) :
    TMap.Find (TMap.Remove m k) k = none := by
  induction m with
  | nil => simp [TMap.Remove, TMap.Find]
  | cons kv rest ih =>
    obtain ⟨k1, v1⟩ := kv
    by_cases h : k1 = k
    · simp [TMap.Remove, h, ih]
    · simp [TMap.Remove, TMap.Find, h, ih]

theorem TMap.Find_Remove_ne {K V : Type} [DecidableEq K] (m : List (K × V)) (k k2 : K)
    (hne : k2 ≠ k) : TMap.Find (TMap.Remove m k) k2 = TMap.Find m k2 := by
  induction m with
  | nil => simp [TMap.Remove, TMap.Find]
  | cons kv rest ih =>
    obtain ⟨k1, v1⟩ := kv
    by_cases h : k1 = k
    · subst h
      simp [TMap.Remove, TMap.Find, Ne.symm hne, ih]
    · by_cases h2 : k1 = k2
      · subst h2
        simp [TMap.Remove, TMap.Find, h]
      · simp [TMap.Remove, TMap.Find, h, h2, ih]

theorem TMap.Remove_of_Find_none {K V : Type} [DecidableEq K] (m : List (K × V)) (k : K)
    (h : TMap.Find m k = none) : TMap.Remove m k = m := by
  induction m with
  | nil => simp [TMap.Remove]
  | cons kv rest ih =>
    obtain ⟨k1, v1⟩ := kv
    by_cases h1 : k1 = k
    · simp [TMap.Find, h1] at h
    · simp [TMap.Find, h1] at h
      simp [TMap.Remove, h1, ih h]

theorem IndexOfByPredicate_first (p : Nat) (Scopes : List Nat) (k : Nat)
    (hk : Scopes[k]? = some p) (hfirst : p ∉ Scopes.take k) :
    IndexOfByPredicate (fun Impl => decide (Impl = p)) Scopes = some k := by
  induction Scopes generalizing k with
  | nil => simp at hk
  | cons x xs ih =>
    cases k with
    | zero =>
      simp at hk
      simp [IndexOfByPredicate, hk]
    | succ j =>
      simp at hk
      simp [List.take] at hfirst
      have hx : x ≠ p := fun e => hfirst.1 e.symm
      simp [IndexOfByPredicate, hx, ih j hk hfirst.2]

theorem IndexOfByPredicate_absent (p : Nat) (Scopes : List Nat) (h : p ∉ Scopes) :
    IndexOfByPredicate (fun Impl => decide (Impl = p)) Scopes = none := by
  induction Scopes with
  | nil => simp [IndexOfByPredicate]
  | cons x xs ih =>
    simp at h
    have hx : x ≠ p := fun e => h.1 e.symm
    simp [IndexOfByPredicate, hx, ih h.2]

theorem spanAt_setRefCount (w : World) (p : Nat) (impl : FOtelScopedSpanImpl) (rc : Int)
    (h : w.Heap[p]? = some impl) (q : Nat) :
    spanAt (w.setRefCount p impl rc).Heap q = spanAt w.Heap q := by
  unfold spanAt World.setRefCount
  by_cases hq : p = q
  · subst hq
    have hlt : p < w.Heap.length := by
      by_contra hc
      simp [List.getElem?_eq_none (Nat.le_of_not_lt hc)] at h
    simp [List.getElem?_set_self hlt, h]
  · simp [List.getElem?_set_ne hq]

theorem endScopes_spec (l : List Nat) (w : World) (hv : ∀ q ∈ l, q < w.Heap.length) :
    ∃ w1, FOtelScopedSpan.endScopes l w = some w1 ∧
      w1.SdkLog = w.SdkLog ++ (l.filterMap (spanAt w.Heap)).map SdkCall.End ∧
      w1.Heap = w.Heap ∧ w1.Module = w.Module := by
  induction l generalizing w with
  | nil => exact ⟨w, by simp [FOtelScopedSpan.endScopes]⟩
  | cons q below ih =>
    have hq : q < w.Heap.length := hv q (by simp)
    have hb : ∀ r ∈ below, r < w.Heap.length := fun r hr => hv r (by simp [hr])
    have hget : w.Heap[q]? = some w.Heap[q] := List.getElem?_eq_getElem hq
    cases hs : (w.Heap[q]).Span.OtelSpan with
    | none =>
      obtain ⟨w1, h1, h2, h3, h4⟩ := ih { w with Ensures := w.Ensures + 1 } hb
      refine ⟨w1, ?_, ?_, h3, h4⟩
      · simp [FOtelScopedSpan.endScopes, hget, hs, h1]
      · have hn : spanAt w.Heap q = none := by simp [spanAt, hget, hs]
        simp [h2, hn]
    | some s =>
      obtain ⟨w1, h1, h2, h3, h4⟩ := ih { w with SdkLog := w.SdkLog ++ [SdkCall.End s] } hb
      refine ⟨w1, ?_, ?_, h3, h4⟩
      · simp [FOtelScopedSpan.endScopes, hget, hs, h1]
      · have hn : spanAt w.Heap q = some s := by simp [spanAt, hget, hs]
        simp [h2, hn]

/-! ## Lemmas on the destructor -/

theorem filterMap_spanAt_setRefCount (w : World) (p : Nat) (impl : FOtelScopedSpanImpl) (rc : Int)
    (h : w.Heap[p]? = some impl) (l : List Nat) :
    l.filterMap (spanAt (w.setRefCount p impl rc).Heap) = l.filterMap (spanAt w.Heap) := by
  have e : spanAt (w.setRefCount p impl rc).Heap = spanAt w.Heap :=
    funext (spanAt_setRefCount w p impl rc h)
  rw [e]

theorem Scopes_setScopes_self (w : World) (name : FName) (S : List Nat) :
    (w.setScopes name S).Scopes name = S := by
  simp [World.Scopes, World.setScopes, World.Get, TMap.Find_Add_self]

theorem Scopes_setScopes_ne (w : World) (name other : FName) (S : List Nat) (hne : other ≠ name) :
    (w.setScopes name S).Scopes other = w.Scopes other := by
  simp [World.Scopes, World.setScopes, World.Get, TMap.Find_Add_ne _ _ _ _ hne]

theorem dtor_on_stack (self : FOtelScopedSpan) (w : World) (M : FOtelModule)
    (p : Nat) (impl : FOtelScopedSpanImpl) (Scopes : List Nat) (k : Nat)
    (hM : w.Module = some M) (hp : self.Scope = some p) (hI : w.Heap[p]? = some impl)
    (hrc : impl.RefCount ≤ 1)
    (hS : TMap.Find M.TracerToScopeStack impl.Span.TracerName = some Scopes)
    (hk : Scopes[k]? = some p) (hfirst : p ∉ Scopes.take k)
    (hv : ∀ q ∈ Scopes.drop k, q < w.Heap.length) :
    ∃ w1, self.dtor w = some w1 ∧
      w1.SdkLog = w.SdkLog ++
        ((Scopes.drop k).reverse.filterMap (spanAt w.Heap)).map SdkCall.End ∧
      w1.Scopes impl.Span.TracerName = Scopes.take k ∧
      (∀ q ∈ Scopes.take k, w1.Heap[q]? = w.Heap[q]?) ∧
      (∀ name, name ≠ impl.Span.TracerName → w1.Scopes name = w.Scopes name) ∧
      w1.Heap = (w.setRefCount p impl (impl.RefCount - 1)).Heap ∧
      w1.Get.PinnedSpans = w.Get.PinnedSpans := by
  have hidx := IndexOfByPredicate_first p Scopes k hk hfirst
  have hlen : (w.setRefCount p impl (impl.RefCount - 1)).Heap.length = w.Heap.length := by
    simp [World.setRefCount]
  obtain ⟨w2, h1, h2, h3, h4⟩ := endScopes_spec (Scopes.drop k).reverse
    (w.setRefCount p impl (impl.RefCount - 1))
    (by intro q hq; rw [hlen]; exact hv q (by simpa using hq))
  have hM1 : (w.setRefCount p impl (impl.RefCount - 1)).Module = some M := by
    simp [World.setRefCount, hM]
  refine ⟨w2.setScopes impl.Span.TracerName (Scopes.take k), ?_, ?_, ?_, ?_, ?_, ?_, ?_⟩
  · simp only [FOtelScopedSpan.dtor, hp, hI]
    rw [if_pos (by omega)]
    simp only [hM1, hS, hidx, h1]
  · rw [filterMap_spanAt_setRefCount w p impl _ hI] at h2
    simpa [World.setScopes, World.setRefCount] using h2
  · exact Scopes_setScopes_self _ _ _
  · intro q hq
    have hne : p ≠ q := fun e => hfirst (e ▸ hq)
    simp [World.setScopes, h3, World.setRefCount, List.getElem?_set_ne hne]
  · intro name hne
    rw [Scopes_setScopes_ne _ _ _ _ hne]
    simp [World.Scopes, World.Get, h4, hM1, hM]
  · simp [World.setScopes, h3]
  · simp [World.setScopes, World.Get, h4, hM1, hM]

theorem getElem?_lt {α : Type} (l : List α) (p : Nat) (a : α) (h : l[p]? = some a) :
    p < l.length := by
  by_contra hc
  simp [List.getElem?_eq_none (Nat.le_of_not_lt hc)] at h

theorem dtor_shared (self : FOtelScopedSpan) (w : World) (p : Nat)
    (impl : FOtelScopedSpanImpl) (hp : self.Scope = some p) (hI : w.Heap[p]? = some impl)
    (hrc : 1 < impl.RefCount) :
    self.dtor w = some (w.setRefCount p impl (impl.RefCount - 1)) := by
  simp only [FOtelScopedSpan.dtor, hp, hI]
  rw [if_neg (by omega)]

theorem dtor_not_on_stack (self : FOtelScopedSpan) (w : World) (p : Nat)
    (impl : FOtelScopedSpanImpl) (hp : self.Scope = some p) (hI : w.Heap[p]? = some impl)
    (hstale : ∀ M Scopes, w.Module = some M →
      TMap.Find M.TracerToScopeStack impl.Span.TracerName = some Scopes → p ∉ Scopes) :
    ∃ w1, self.dtor w = some w1 ∧ w1.SdkLog = w.SdkLog ∧ w1.Module = w.Module ∧
      w1.Heap = (w.setRefCount p impl (impl.RefCount - 1)).Heap := by
  simp only [FOtelScopedSpan.dtor, hp, hI]
  by_cases hrc : impl.RefCount - 1 ≤ 0
  · rw [if_pos hrc]
    cases hM : w.Module with
    | none =>
      have hM1 : (w.setRefCount p impl (impl.RefCount - 1)).Module = none := by
        simp [World.setRefCount, hM]
      simp only [hM1]
      exact ⟨_, rfl, rfl, hM1, rfl⟩
    | some M =>
      have hM1 : (w.setRefCount p impl (impl.RefCount - 1)).Module = some M := by
        simp [World.setRefCount, hM]
      cases hS : TMap.Find M.TracerToScopeStack impl.Span.TracerName with
      | none =>
        simp only [hM1, hS]
        exact ⟨_, rfl, rfl, rfl, rfl⟩
      | some Scopes =>
        have hidx := IndexOfByPredicate_absent p Scopes (hstale M Scopes hM hS)
        simp only [hM1, hS, hidx]
        exact ⟨_, rfl, rfl, hM1, rfl⟩
  · rw [if_neg hrc]
    exact ⟨_, rfl, rfl, rfl, rfl⟩

/-! ## Releasing a handle -/

/-- C1: releasing the last handle (count 1) of the entry that sits at index `k` of its
tracer's stack `Scopes` succeeds; the calls it makes on the SDK are exactly `End` on
the spans of the entries at indices `n-1, n-2, ..., k`, in that order (so nothing
below `k` is ended); afterwards the stack is `Scopes.take k`, the impl objects of
those first `k` entries are as before, and every other tracer's stack is as
before. -/
theorem C1_release_ends_from_top_down_to_entry (self : FOtelScopedSpan) (w : World) (M : FOtelModule)
    (p : Nat) (impl : FOtelScopedSpanImpl) (Scopes : List Nat) (k : Nat)
    (hM : w.Module = some M) (hp : self.Scope = some p) (hI : w.Heap[p]? = some impl)
    (hrc : impl.RefCount = 1)
    (hS : TMap.Find M.TracerToScopeStack impl.Span.TracerName = some Scopes)
    (hk : Scopes[k]? = some p) (hfirst : p ∉ Scopes.take k)
    (hv : ∀ q ∈ Scopes.drop k, q < w.Heap.length) :
    ∃ w1, self.dtor w = some w1 ∧
      w1.SdkLog = w.SdkLog ++
        ((Scopes.drop k).reverse.filterMap (spanAt w.Heap)).map SdkCall.End ∧
      w1.Scopes impl.Span.TracerName = Scopes.take k ∧
      (∀ q ∈ Scopes.take k, w1.Heap[q]? = w.Heap[q]?) ∧
      (∀ name, name ≠ impl.Span.TracerName → w1.Scopes name = w.Scopes name) := by
  obtain ⟨w1, h1, h2, h3, h4, h5, _, _⟩ :=
    dtor_on_stack self w M p impl Scopes k hM hp hI (le_of_eq hrc) hS hk hfirst hv
  exact ⟨w1, h1, h2, h3, h4, h5⟩

/-- C1 at a concrete state: a stack of three entries, the handle of the one at
index 1 released. -/
theorem C1_release_ends_from_top_down_to_entry_witness :
    ∃ w1, FOtelScopedSpan.dtor { Scope := some 1 } exThree = some w1 ∧
      w1.SdkLog = exThree.SdkLog ++
        (([0, 1, 2].drop 1).reverse.filterMap (spanAt exThree.Heap)).map SdkCall.End ∧
      w1.Scopes (7 : FName) = [0, 1, 2].take 1 ∧
      (∀ q ∈ [0, 1, 2].take 1, w1.Heap[q]? = exThree.Heap[q]?) ∧
      (∀ name, name ≠ (7 : FName) → w1.Scopes name = exThree.Scopes name) :=
  C1_release_ends_from_top_down_to_entry { Scope := some 1 } exThree
    { TracerToScopeStack := [(7, [0, 1, 2])], PinnedSpans := [] }
    1 ⟨⟨7, some 101⟩, 1⟩ [0, 1, 2] 1 rfl rfl rfl rfl rfl rfl (by decide) (by decide)

/-! ## Starting a scoped span -/

theorem set_concat_length {α : Type} (l : List α) (x y : α) :
    (l ++ [x]).set l.length y = l ++ [y] := by
  induction l with
  | nil => rfl
  | cons a l ih => simp [List.set, ih]

theorem StartSpanScopedOpts_sdk (T : FOtelTracer) (tr : Nat) (hT : T.OtelTracer = some tr)
    (NewSpan : Nat) (w : World) :
    T.StartSpanScopedOpts NewSpan w = some
      ({ Scope := some w.Heap.length },
        { Module := (w.setScopes T.TracerName (w.Scopes T.TracerName ++ [w.Heap.length])).Module,
          Heap := w.Heap ++ [⟨⟨T.TracerName, some NewSpan⟩, 1⟩],
          SdkLog := w.SdkLog ++ [SdkCall.StartSpan NewSpan
            (FOtelTracer.ParentSpan (w.Scopes T.TracerName) w).1.OtelSpan],
          Ensures := (FOtelTracer.ParentSpan (w.Scopes T.TracerName) w).2.Ensures,
          LogRecords := w.LogRecords }) := by
  have hheap : (FOtelTracer.ParentSpan (w.Scopes T.TracerName) w).2.Heap = w.Heap := by
    unfold FOtelTracer.ParentSpan
    split
    · rfl
    · split <;> rfl
  have hlog : (FOtelTracer.ParentSpan (w.Scopes T.TracerName) w).2.SdkLog = w.SdkLog := by
    unfold FOtelTracer.ParentSpan
    split
    · rfl
    · split <;> rfl
  have hmod : (FOtelTracer.ParentSpan (w.Scopes T.TracerName) w).2.Module = w.Module := by
    unfold FOtelTracer.ParentSpan
    split
    · rfl
    · split <;> rfl
  have hrec : (FOtelTracer.ParentSpan (w.Scopes T.TracerName) w).2.LogRecords =
      w.LogRecords := by
    unfold FOtelTracer.ParentSpan
    split
    · rfl
    · split <;> rfl
  simp only [FOtelTracer.StartSpanScopedOpts, FOtelTracer.StartSpanOpts, hT,
    FOtelScopedSpan.fromSpan, World.setScopes, World.Get, hheap, hlog, hmod, hrec,
    TMap.Find_Add_self, List.reverse_append, List.reverse_cons, List.reverse_nil,
    List.nil_append, List.cons_append, FOtelScopedSpan.findScope,
    List.getElem?_concat_length, FOtelScopedSpanImpl.ctor, if_true, World.setRefCount,
    FOtelScopedSpan.move, set_concat_length]
  simp

/-- C2: on a tracer with an SDK tracer, `StartSpanScopedOpts` (and `StartSpanScoped`, which
only forwards to it) succeeds, and with `n` the length of the tracer's stack before
the call: the stack has length `n + 1` afterwards, its first `n` entries are the old
ones and every impl object that existed is as it was, and the last entry is a new
impl object that holds the span just started, has reference count 1 and is the one
the returned handle refers to. -/
theorem C2_start_scoped_pushes_one_entry (T : FOtelTracer) (tr : Nat)
    (hT : T.OtelTracer = some tr) (NewSpan : Nat) (w : World) :
    ∃ h w1, T.StartSpanScopedOpts NewSpan w = some (h, w1) ∧
      T.StartSpanScoped NewSpan w = some (h, w1) ∧
      (w1.Scopes T.TracerName).length = (w.Scopes T.TracerName).length + 1 ∧
      (w1.Scopes T.TracerName).take (w.Scopes T.TracerName).length = w.Scopes T.TracerName ∧
      (∀ q, q < w.Heap.length → w1.Heap[q]? = w.Heap[q]?) ∧
      ∃ e, (w1.Scopes T.TracerName).getLast? = some e ∧ h.Scope = some e ∧
        w1.Heap[e]? = some ⟨⟨T.TracerName, some NewSpan⟩, 1⟩ := by
  have hrun := StartSpanScopedOpts_sdk T tr hT NewSpan w
  have hsc : World.Scopes
      { Module := (w.setScopes T.TracerName (w.Scopes T.TracerName ++ [w.Heap.length])).Module,
        Heap := w.Heap ++ [⟨⟨T.TracerName, some NewSpan⟩, 1⟩],
        SdkLog := w.SdkLog ++ [SdkCall.StartSpan NewSpan
          (FOtelTracer.ParentSpan (w.Scopes T.TracerName) w).1.OtelSpan],
        Ensures := (FOtelTracer.ParentSpan (w.Scopes T.TracerName) w).2.Ensures,
          LogRecords := w.LogRecords }
      T.TracerName = w.Scopes T.TracerName ++ [w.Heap.length] := by
    simp [World.Scopes, World.setScopes, World.Get, TMap.Find_Add_self]
  refine ⟨_, _, hrun, hrun, ?_, ?_, ?_, w.Heap.length, ?_, rfl, ?_⟩
  · rw [hsc]; simp
  · rw [hsc]; simp
  · intro q hq
    simp [List.getElem?_append_left hq]
  · rw [hsc]; simp
  · simp

/-- C2 at a concrete state: a fourth span started on the tracer of `exThree`. -/
theorem C2_start_scoped_pushes_one_entry_witness :
    ∃ h w1, FOtelTracer.StartSpanScopedOpts ⟨7, some 1⟩ 103 exThree = some (h, w1) ∧
      FOtelTracer.StartSpanScoped ⟨7, some 1⟩ 103 exThree = some (h, w1) ∧
      (w1.Scopes 7).length = (exThree.Scopes 7).length + 1 ∧
      (w1.Scopes 7).take (exThree.Scopes 7).length = exThree.Scopes 7 ∧
      (∀ q, q < exThree.Heap.length → w1.Heap[q]? = exThree.Heap[q]?) ∧
      ∃ e, (w1.Scopes 7).getLast? = some e ∧ h.Scope = some e ∧
        w1.Heap[e]? = some ⟨⟨7, some 103⟩, 1⟩ :=
  C2_start_scoped_pushes_one_entry ⟨7, some 1⟩ 1 rfl 103 exThree

/-- C3: on a tracer with an SDK tracer, `StartSpanScoped` starts the new span with
exactly one `StartSpan` call, whose parent is: none when the tracer's own stack is
empty, and otherwise the span held by the top entry of that stack. The parent is the
same in every state with the same impl objects and the same stack for this tracer,
whatever the stacks of other tracers hold. -/
theorem C3_parent_is_top_of_own_stack (T : FOtelTracer) (tr : Nat)
    (hT : T.OtelTracer = some tr) (NewSpan : Nat) (w : World) :
    ∃ h w1 parent, T.StartSpanScoped NewSpan w = some (h, w1) ∧
      w1.SdkLog = w.SdkLog ++ [SdkCall.StartSpan NewSpan parent] ∧
      (w.Scopes T.TracerName = [] → parent = none) ∧
      (∀ top impl, (w.Scopes T.TracerName).getLast? = some top → w.Heap[top]? = some impl →
        parent = impl.Span.OtelSpan) ∧
      (∀ v : World, v.Heap = w.Heap → v.Scopes T.TracerName = w.Scopes T.TracerName →
        ∃ h2 v1, T.StartSpanScoped NewSpan v = some (h2, v1) ∧
          v1.SdkLog = v.SdkLog ++ [SdkCall.StartSpan NewSpan parent]) := by
  refine ⟨_, _, (FOtelTracer.ParentSpan (w.Scopes T.TracerName) w).1.OtelSpan,
    StartSpanScopedOpts_sdk T tr hT NewSpan w, rfl, ?_, ?_, ?_⟩
  · intro he
    simp [FOtelTracer.ParentSpan, he, FOtelSpan.ctor]
  · intro top impl htop himpl
    simp [FOtelTracer.ParentSpan, htop, himpl]
  · intro v hheap hsc
    refine ⟨_, _, StartSpanScopedOpts_sdk T tr hT NewSpan v, ?_⟩
    have hpar : (FOtelTracer.ParentSpan (v.Scopes T.TracerName) v).1 =
        (FOtelTracer.ParentSpan (w.Scopes T.TracerName) w).1 := by
      rw [hsc]
      unfold FOtelTracer.ParentSpan
      rw [hheap]
      split
      · rfl
      · split <;> rfl
    simp [hpar]

/-- C3 at a concrete state: the span started on the tracer of `exThree` gets the top
span 102 as its parent. -/
theorem C3_parent_is_top_of_own_stack_witness :
    ∃ h w1 parent, FOtelTracer.StartSpanScoped ⟨7, some 1⟩ 103 exThree = some (h, w1) ∧
      w1.SdkLog = exThree.SdkLog ++ [SdkCall.StartSpan 103 parent] ∧
      (exThree.Scopes 7 = [] → parent = none) ∧
      (∀ top impl, (exThree.Scopes 7).getLast? = some top → exThree.Heap[top]? = some impl →
        parent = impl.Span.OtelSpan) ∧
      (∀ v : World, v.Heap = exThree.Heap → v.Scopes 7 = exThree.Scopes 7 →
        ∃ h2 v1, FOtelTracer.StartSpanScoped ⟨7, some 1⟩ 103 v = some (h2, v1) ∧
          v1.SdkLog = v.SdkLog ++ [SdkCall.StartSpan 103 parent]) :=
  C3_parent_is_top_of_own_stack ⟨7, some 1⟩ 1 rfl 103 exThree

/-! ## Releases that end nothing, copies and moves -/

/-- C5: releasing a handle whose entry has a reference count above 1 succeeds, makes
no call on the SDK, leaves the module (every tracer's stack and the registry) as it
was, and changes the impl objects only by lowering that entry's count by one. -/
theorem C5_release_with_other_copies_alive (self : FOtelScopedSpan) (w : World) (p : Nat)
    (impl : FOtelScopedSpanImpl) (hp : self.Scope = some p) (hI : w.Heap[p]? = some impl)
    (hrc : 1 < impl.RefCount) :
    ∃ w1, self.dtor w = some w1 ∧ w1.SdkLog = w.SdkLog ∧ w1.Module = w.Module ∧
      w1.Ensures = w.Ensures ∧
      w1.Heap[p]? = some { impl with RefCount := impl.RefCount - 1 } ∧
      (∀ q, q ≠ p → w1.Heap[q]? = w.Heap[q]?) := by
  have hlt : p < w.Heap.length := getElem?_lt _ _ _ hI
  refine ⟨w.setRefCount p impl (impl.RefCount - 1), dtor_shared self w p impl hp hI hrc,
    rfl, rfl, rfl, ?_, ?_⟩
  · simp [World.setRefCount, List.getElem?_set_self hlt]
  · intro q hq
    simp [World.setRefCount, List.getElem?_set_ne (Ne.symm hq)]

/-- C5 at a concrete state: the entry at position 1 of `exPinned` has count 2. -/
theorem C5_release_with_other_copies_alive_witness :
    ∃ w1, FOtelScopedSpan.dtor { Scope := some 1 } exPinned = some w1 ∧
      w1.SdkLog = exPinned.SdkLog ∧ w1.Module = exPinned.Module ∧
      w1.Ensures = exPinned.Ensures ∧
      w1.Heap[1]? = some { (⟨⟨7, some 101⟩, 2⟩ : FOtelScopedSpanImpl) with RefCount := 2 - 1 } ∧
      (∀ q, q ≠ 1 → w1.Heap[q]? = exPinned.Heap[q]?) :=
  C5_release_with_other_copies_alive { Scope := some 1 } exPinned 1 ⟨⟨7, some 101⟩, 2⟩ rfl rfl
    (by decide)

/-- C6: releasing a handle of an entry that is not in its tracer's stack (the module is
not loaded, or the stack map has no array under the entry's tracer name, or the
array does not hold the entry) succeeds, makes no call on the SDK and leaves the
module, hence every stack, as it was. This holds for every count, in particular
for the last handle. -/
theorem C6_release_of_entry_not_on_stack (self : FOtelScopedSpan) (w : World) (p : Nat)
    (impl : FOtelScopedSpanImpl) (hp : self.Scope = some p) (hI : w.Heap[p]? = some impl)
    (hstale : ∀ M Scopes, w.Module = some M →
      TMap.Find M.TracerToScopeStack impl.Span.TracerName = some Scopes → p ∉ Scopes) :
    ∃ w1, self.dtor w = some w1 ∧ w1.SdkLog = w.SdkLog ∧ w1.Module = w.Module := by
  obtain ⟨w1, h1, h2, h3, _⟩ := dtor_not_on_stack self w p impl hp hI hstale
  exact ⟨w1, h1, h2, h3⟩

/-- C6 at a concrete state: in `exStale` the stack of tracer 7 was truncated to its
first entry, and the last handle of the entry at position 2 is released. -/
theorem C6_release_of_entry_not_on_stack_witness :
    ∃ w1, FOtelScopedSpan.dtor { Scope := some 2 } exStale = some w1 ∧
      w1.SdkLog = exStale.SdkLog ∧ w1.Module = exStale.Module :=
  C6_release_of_entry_not_on_stack { Scope := some 2 } exStale 2 ⟨⟨7, some 102⟩, 1⟩ rfl rfl
    (by
      intro M Scopes hM hS
      have e : M = { TracerToScopeStack := [(7, [0])], PinnedSpans := [] } :=
        (Option.some.inj hM).symm
      subst e
      have e2 : Scopes = [0] := (Option.some.inj hS).symm
      subst e2
      decide)

/-- C7: for a live handle `h` (its entry `impl` at position `p` holds a span that is
not inert), copy construction from `h` and copy assignment of `h` to any handle both
give a handle on the same entry and raise the entry's count by exactly one, touching
nothing else; move construction gives a handle on the same entry, takes no state at
all (so no count changes) and leaves the moved-from handle with a null `Scope`; a
default-constructed handle has a null `Scope`, `Inner()` of it is the default span
with no SDK span, and destroying it returns the state as it is. -/
theorem C7_copy_assign_move_default (h lhs : FOtelScopedSpan) (w : World) (p s : Nat)
    (impl : FOtelScopedSpanImpl) (hp : h.Scope = some p) (hI : w.Heap[p]? = some impl)
    (hs : impl.Span.OtelSpan = some s) :
    h.copy w = some ({ Scope := some p }, w.setRefCount p impl (impl.RefCount + 1)) ∧
    lhs.assign h w = some ({ Scope := some p }, w.setRefCount p impl (impl.RefCount + 1)) ∧
    (w.setRefCount p impl (impl.RefCount + 1)).Heap[p]? =
      some { impl with RefCount := impl.RefCount + 1 } ∧
    (∀ q, q ≠ p → (w.setRefCount p impl (impl.RefCount + 1)).Heap[q]? = w.Heap[q]?) ∧
    (w.setRefCount p impl (impl.RefCount + 1)).Module = w.Module ∧
    (w.setRefCount p impl (impl.RefCount + 1)).SdkLog = w.SdkLog ∧
    FOtelScopedSpan.move h = ({ Scope := some p }, { Scope := none }) ∧
    FOtelScopedSpan.ctor.Scope = none ∧
    FOtelScopedSpan.ctor.Inner w = some { TracerName := NAME_None, OtelSpan := none } ∧
    FOtelScopedSpan.ctor.dtor w = some w := by
  have hlt : p < w.Heap.length := getElem?_lt _ _ _ hI
  refine ⟨?_, ?_, ?_, ?_, rfl, rfl, ?_, rfl, rfl, rfl⟩
  · simp [FOtelScopedSpan.copy, hp, hI, hs]
  · simp [FOtelScopedSpan.assign, hp, hI, hs]
  · simp [World.setRefCount, List.getElem?_set_self hlt]
  · intro q hq
    simp [World.setRefCount, List.getElem?_set_ne (Ne.symm hq)]
  · simp [FOtelScopedSpan.move, hp]

/-- C7 at a concrete state: the handle of the entry at position 1 of `exThree`. -/
theorem C7_copy_assign_move_default_witness :
    FOtelScopedSpan.copy { Scope := some 1 } exThree =
      some ({ Scope := some 1 }, exThree.setRefCount 1 ⟨⟨7, some 101⟩, 1⟩ (1 + 1)) ∧
    FOtelScopedSpan.assign { Scope := some 0 } { Scope := some 1 } exThree =
      some ({ Scope := some 1 }, exThree.setRefCount 1 ⟨⟨7, some 101⟩, 1⟩ (1 + 1)) ∧
    (exThree.setRefCount 1 ⟨⟨7, some 101⟩, 1⟩ (1 + 1)).Heap[1]? =
      some { (⟨⟨7, some 101⟩, 1⟩ : FOtelScopedSpanImpl) with RefCount := 1 + 1 } ∧
    (∀ q, q ≠ 1 → (exThree.setRefCount 1 ⟨⟨7, some 101⟩, 1⟩ (1 + 1)).Heap[q]? =
      exThree.Heap[q]?) ∧
    (exThree.setRefCount 1 ⟨⟨7, some 101⟩, 1⟩ (1 + 1)).Module = exThree.Module ∧
    (exThree.setRefCount 1 ⟨⟨7, some 101⟩, 1⟩ (1 + 1)).SdkLog = exThree.SdkLog ∧
    FOtelScopedSpan.move { Scope := some 1 } = ({ Scope := some 1 }, { Scope := none }) ∧
    FOtelScopedSpan.ctor.Scope = none ∧
    FOtelScopedSpan.ctor.Inner exThree = some { TracerName := NAME_None, OtelSpan := none } ∧
    FOtelScopedSpan.ctor.dtor exThree = some exThree :=
  C7_copy_assign_move_default { Scope := some 1 } { Scope := some 0 } exThree 1 101
    ⟨⟨7, some 101⟩, 1⟩ rfl rfl rfl

/-- C10: for every id under which the registry holds nothing, `Unpin` succeeds and
returns a handle with a null `Scope`, and the whole state, the registry included, is
as before; `Inner()` of that handle is the default span, which has no SDK span, and
destroying the handle leaves the state as it is. -/
theorem C10_Unpin_of_absent_id (SpanId : Nat) (w : World)
    (habsent : FOtelModule.GetPinnedSpan SpanId w = none) :
    ∃ h, FOtelModule.Unpin SpanId w = some (h, w) ∧ h.Scope = none ∧
      h.Inner w = some FOtelSpan.ctor ∧ FOtelSpan.ctor.OtelSpan = none ∧
      h.dtor w = some w := by
  unfold FOtelModule.GetPinnedSpan at habsent
  refine ⟨{ Scope := none }, ?_, rfl, rfl, rfl, rfl⟩
  simp [FOtelModule.Unpin, habsent, FOtelScopedSpan.move, FOtelScopedSpan.ctor]

/-- C10 at a concrete state: id 0 in `exPinned`, whose registry has the one key 1101. -/
theorem C10_Unpin_of_absent_id_witness :
    ∃ h, FOtelModule.Unpin 0 exPinned = some (h, exPinned) ∧ h.Scope = none ∧
      h.Inner exPinned = some FOtelSpan.ctor ∧ FOtelSpan.ctor.OtelSpan = none ∧
      h.dtor exPinned = some exPinned :=
  C10_Unpin_of_absent_id 0 exPinned rfl

/-! ## A run of nested spans released in the order of their start -/

theorem set_of_getElem? {α : Type} (l : List α) (p : Nat) (a : α) (h : l[p]? = some a) :
    l.set p a = l := by
  induction l generalizing p with
  | nil => rfl
  | cons x xs ih =>
    cases p with
    | zero =>
      simp at h
      simp [h]
    | succ j =>
      simp at h
      simp [ih j h]

theorem map_span_setRefCount (w : World) (p : Nat) (impl : FOtelScopedSpanImpl) (rc : Int)
    (h : w.Heap[p]? = some impl) :
    (w.setRefCount p impl rc).Heap.map (·.Span) = w.Heap.map (·.Span) := by
  have hm : (w.Heap.map (·.Span))[p]? = some impl.Span := by simp [h]
  simp only [World.setRefCount, List.map_set]
  exact set_of_getElem? _ _ _ hm

theorem getElem?_of_map_span (H : List FOtelScopedSpanImpl) (q : Nat) (sp : FOtelSpan)
    (h : (H.map (·.Span))[q]? = some sp) : ∃ impl, H[q]? = some impl ∧ impl.Span = sp := by
  rw [List.getElem?_map] at h
  cases hq : H[q]? with
  | none => simp [hq] at h
  | some impl => exact ⟨impl, rfl, by simpa [hq] using h⟩

theorem releaseAll_not_on_stack (n : FName) (ps : List Nat) (w : World)
    (hstale : ∀ p ∈ ps, p ∉ w.Scopes n)
    (hvalid : ∀ p ∈ ps, ∃ sp, (w.Heap.map (·.Span))[p]? = some sp ∧ sp.TracerName = n) :
    ∃ w1, releaseAll (ps.map (fun p => ({ Scope := some p } : FOtelScopedSpan))) w = some w1 ∧
      w1.SdkLog = w.SdkLog ∧ w1.Module = w.Module := by
  induction ps generalizing w with
  | nil => exact ⟨w, rfl, rfl, rfl⟩
  | cons p rest ih =>
    obtain ⟨sp, hsp, hn⟩ := hvalid p (by simp)
    obtain ⟨impl, hI, hspan⟩ := getElem?_of_map_span _ _ _ hsp
    have hst : ∀ M Scopes, w.Module = some M →
        TMap.Find M.TracerToScopeStack impl.Span.TracerName = some Scopes → p ∉ Scopes := by
      intro M Scopes hM hS
      have hsc : w.Scopes n = Scopes := by
        rw [hspan, hn] at hS
        simp [World.Scopes, World.Get, hM, hS]
      rw [← hsc]
      exact hstale p (by simp)
    obtain ⟨w1, h1, h2, h3, h4⟩ := dtor_not_on_stack { Scope := some p } w p impl rfl hI hst
    have hsc1 : w1.Scopes n = w.Scopes n := by simp [World.Scopes, World.Get, h3]
    have hmap : w1.Heap.map (·.Span) = w.Heap.map (·.Span) := by
      rw [h4]
      exact map_span_setRefCount w p impl _ hI
    obtain ⟨w2, k1, k2, k3⟩ := ih w1
      (by intro q hq; rw [hsc1]; exact hstale q (by simp [hq]))
      (by intro q hq; rw [hmap]; exact hvalid q (by simp [hq]))
    refine ⟨w2, ?_, by rw [k2, h2], by rw [k3, h3]⟩
    simp only [List.map_cons, releaseAll, h1, k1]

theorem ParentSpan_concat (Scopes : List Nat) (w : World) (q : Nat)
    (impl : FOtelScopedSpanImpl) (h : w.Heap[q]? = some impl) :
    (FOtelTracer.ParentSpan (Scopes ++ [q]) w).1 = impl.Span := by
  simp [FOtelTracer.ParentSpan, h]

theorem StartSpanScopedOpts_sdk_ex (T : FOtelTracer) (tr : Nat) (hT : T.OtelTracer = some tr)
    (NewSpan : Nat) (w : World) :
    ∃ v, T.StartSpanScopedOpts NewSpan w = some ({ Scope := some w.Heap.length }, v) ∧
      v.Heap = w.Heap ++ [⟨⟨T.TracerName, some NewSpan⟩, 1⟩] ∧
      v.SdkLog = w.SdkLog ++ [SdkCall.StartSpan NewSpan
        (FOtelTracer.ParentSpan (w.Scopes T.TracerName) w).1.OtelSpan] ∧
      v.Scopes T.TracerName = w.Scopes T.TracerName ++ [w.Heap.length] ∧
      v.Module ≠ none := by
  refine ⟨_, StartSpanScopedOpts_sdk T tr hT NewSpan w, rfl, rfl, ?_, ?_⟩
  · simp [World.Scopes, World.setScopes, World.Get, TMap.Find_Add_self]
  · simp [World.setScopes]

theorem startAll_spec (T : FOtelTracer) (tr : Nat) (hT : T.OtelTracer = some tr)
    (spans : List Nat) (w : World) :
    ∃ w1, startAll T spans w = some
        ((List.range' w.Heap.length spans.length).map
          (fun p => ({ Scope := some p } : FOtelScopedSpan)), w1) ∧
      w1.Heap = w.Heap ++ spans.map (fun s => ⟨⟨T.TracerName, some s⟩, 1⟩) ∧
      w1.Scopes T.TracerName =
        w.Scopes T.TracerName ++ List.range' w.Heap.length spans.length ∧
      w1.SdkLog = w.SdkLog ++
        startCalls (FOtelTracer.ParentSpan (w.Scopes T.TracerName) w).1.OtelSpan spans ∧
      (spans ≠ [] → w1.Module ≠ none) := by
  induction spans generalizing w with
  | nil => exact ⟨w, by simp [startAll], by simp, by simp, by simp [startCalls], by simp⟩
  | cons s rest ih =>
    obtain ⟨v, hrun, hvH, hvL, hvS, hvM⟩ := StartSpanScopedOpts_sdk_ex T tr hT s w
    have hvlen : v.Heap.length = w.Heap.length + 1 := by simp [hvH]
    have hvtop : v.Heap[w.Heap.length]? = some ⟨⟨T.TracerName, some s⟩, 1⟩ := by
      simp [hvH]
    obtain ⟨w1, h1, h2, h3, h4, h5⟩ := ih v
    refine ⟨w1, ?_, ?_, ?_, ?_, ?_⟩
    · simp only [startAll, FOtelTracer.StartSpanScoped, hrun, h1, List.length_cons,
        List.range'_succ, List.map_cons, hvlen]
    · simp [h2, hvH]
    · simp [h3, hvS, hvlen, List.range'_succ]
    · rw [h4, hvL, hvS, ParentSpan_concat _ _ _ _ hvtop]
      simp [startCalls]
    · intro _
      cases rest with
      | nil =>
        simp [startAll] at h1
        rw [← h1]
        exact hvM
      | cons r rs => exact h5 (by simp)

theorem filterMap_spanAt_range' (T : FName) (spans : List Nat) (H : List FOtelScopedSpanImpl) :
    (List.range' H.length spans.length).filterMap
      (spanAt (H ++ spans.map (fun s => ⟨⟨T, some s⟩, 1⟩))) = spans := by
  induction spans generalizing H with
  | nil => simp
  | cons s rest ih =>
    have h0 : spanAt (H ++ (s :: rest).map (fun s => (⟨⟨T, some s⟩, 1⟩ : FOtelScopedSpanImpl)))
        H.length = some s := by
      have hg : (H ++ (s :: rest).map (fun s => (⟨⟨T, some s⟩, 1⟩ : FOtelScopedSpanImpl)))[H.length]? =
          some ⟨⟨T, some s⟩, 1⟩ := by
        rw [List.getElem?_append_right (le_refl _)]
        simp
      simp only [spanAt, hg]
    have ih1 := ih (H ++ [⟨⟨T, some s⟩, 1⟩])
    simp only [List.length_append, List.length_singleton, List.append_assoc,
      List.singleton_append] at ih1
    simp only [List.map_cons] at h0
    simp only [List.length_cons, List.range'_succ, List.filterMap_cons, List.map_cons]
    rw [ih1, h0]

theorem map_span_startCalls (parent : Option Nat) (spans : List Nat) :
    (startCalls parent spans).map SdkCall.span = spans := by
  induction spans generalizing parent with
  | nil => rfl
  | cons s rest ih => simp [startCalls, SdkCall.span, ih]

theorem filter_isStart_startCalls (parent : Option Nat) (spans : List Nat) :
    (startCalls parent spans).filter SdkCall.isStart = startCalls parent spans := by
  induction spans generalizing parent with
  | nil => rfl
  | cons s rest ih => simp [startCalls, SdkCall.isStart, ih]

theorem filter_isStart_ends (spans : List Nat) :
    (spans.map SdkCall.End).filter SdkCall.isStart = [] := by
  induction spans with
  | nil => rfl
  | cons s rest ih => simp [SdkCall.isStart, ih]

theorem mem_startCalls_of_mem (parent : Option Nat) (spans : List Nat) (s : Nat)
    (h : s ∈ spans) : ∃ p, SdkCall.StartSpan s p ∈ startCalls parent spans := by
  induction spans generalizing parent with
  | nil => simp at h
  | cons x rest ih =>
    rcases List.mem_cons.mp h with e | hr
    · exact ⟨parent, by simp [startCalls, e]⟩
    · obtain ⟨p, hp⟩ := ih (some x) hr
      exact ⟨p, by simp [startCalls, hp]⟩

theorem span_mem_of_mem_startCalls (parent : Option Nat) (spans : List Nat) (c : SdkCall)
    (h : c ∈ startCalls parent spans) : c.span ∈ spans := by
  rw [← map_span_startCalls parent spans]
  exact List.mem_map_of_mem _ h

theorem nested_run_order (spans : List Nat) (hnd : spans.Nodup) :
    (startCalls none spans ++ spans.reverse.map SdkCall.End).Nodup ∧
    (∀ s ∈ spans, ∃ p, SdkCall.StartSpan s p ∈
      startCalls none spans ++ spans.reverse.map SdkCall.End) ∧
    (∀ s p, SdkCall.StartSpan s p ∈ startCalls none spans ++ spans.reverse.map SdkCall.End →
      List.Sublist [SdkCall.StartSpan s p, SdkCall.End s]
        (startCalls none spans ++ spans.reverse.map SdkCall.End)) ∧
    (∀ a pa b pb, List.Sublist [SdkCall.StartSpan a pa, SdkCall.StartSpan b pb]
        (startCalls none spans ++ spans.reverse.map SdkCall.End) →
      List.Sublist [SdkCall.End b, SdkCall.End a]
        (startCalls none spans ++ spans.reverse.map SdkCall.End)) := by
  have hstart : ∀ s p, SdkCall.StartSpan s p ∈
      startCalls none spans ++ spans.reverse.map SdkCall.End →
      SdkCall.StartSpan s p ∈ startCalls none spans := by
    intro s p h
    rcases List.mem_append.mp h with h1 | h2
    · exact h1
    · simp at h2
  refine ⟨?_, ?_, ?_, ?_⟩
  · apply List.Nodup.append
    · apply List.Nodup.of_map SdkCall.span
      rw [map_span_startCalls]
      exact hnd
    · apply List.Nodup.map
      · intro a b h
        exact SdkCall.End.inj h
      · exact List.nodup_reverse.mpr hnd
    · intro c h1 h2
      have hf : c ∈ (startCalls none spans).filter SdkCall.isStart := by
        rw [filter_isStart_startCalls]; exact h1
      have hs : c.isStart = true := (List.mem_filter.mp hf).2
      obtain ⟨s, _, rfl⟩ := List.mem_map.mp h2
      simp [SdkCall.isStart] at hs
  · intro s hs
    obtain ⟨p, hp⟩ := mem_startCalls_of_mem none spans s hs
    exact ⟨p, List.mem_append_left _ hp⟩
  · intro s p h
    have h1 := hstart s p h
    have hs : s ∈ spans := span_mem_of_mem_startCalls none spans _ h1
    have h2 : SdkCall.End s ∈ spans.reverse.map SdkCall.End :=
      List.mem_map_of_mem _ (List.mem_reverse.mpr hs)
    exact List.Sublist.append (List.singleton_sublist.mpr h1) (List.singleton_sublist.mpr h2)
  · intro a pa b pb h
    have h1 := h.filter SdkCall.isStart
    simp only [List.filter_append, filter_isStart_startCalls, filter_isStart_ends,
      List.append_nil] at h1
    have h2 : List.Sublist [SdkCall.StartSpan a pa, SdkCall.StartSpan b pb]
        (startCalls none spans) := by
      simpa [List.filter, SdkCall.isStart] using h1
    have h3 := h2.map SdkCall.span
    rw [map_span_startCalls] at h3
    have h4 := (h3.reverse).map SdkCall.End
    simp only [List.map_cons, List.map_nil, SdkCall.span, List.reverse_cons, List.reverse_nil,
      List.nil_append, List.singleton_append] at h4
    exact h4.trans (List.sublist_append_right _ _)

theorem nested_run (T : FOtelTracer) (tr : Nat) (hT : T.OtelTracer = some tr)
    (spans : List Nat) (w : World) (hempty : w.Scopes T.TracerName = []) :
    ∃ hs w1 w2, startAll T spans w = some (hs, w1) ∧ releaseAll hs w1 = some w2 ∧
      w2.SdkLog = w.SdkLog ++ (startCalls none spans ++ spans.reverse.map SdkCall.End) := by
  cases spans with
  | nil => exact ⟨[], w, w, rfl, rfl, by simp [startCalls]⟩
  | cons s rest =>
    obtain ⟨w1, h1, h2, h3, h4, h5⟩ := startAll_spec T tr hT (s :: rest) w
    have hpar : (FOtelTracer.ParentSpan (w.Scopes T.TracerName) w).1.OtelSpan = none := by
      simp [hempty, FOtelTracer.ParentSpan, FOtelSpan.ctor]
    rw [hpar] at h4
    rw [hempty, List.nil_append] at h3
    simp only [List.length_cons, List.range'_succ, List.map_cons] at h1 h3
    obtain ⟨M1, hM1⟩ := Option.ne_none_iff_exists'.mp (h5 (by simp))
    have hS : TMap.Find M1.TracerToScopeStack T.TracerName =
        some (w.Heap.length :: List.range' (w.Heap.length + 1) rest.length) := by
      have := h3
      simp only [World.Scopes, World.Get, hM1] at this
      cases hf : TMap.Find M1.TracerToScopeStack T.TracerName with
      | none => simp [hf] at this
      | some S => simpa [hf] using this
    have hI : w1.Heap[w.Heap.length]? = some ⟨⟨T.TracerName, some s⟩, 1⟩ := by
      rw [h2, List.getElem?_append_right (le_refl _)]
      simp
    have hlen : w1.Heap.length = w.Heap.length + (rest.length + 1) := by simp [h2]
    obtain ⟨w2, k1, k2, k3, _, _, k6, _⟩ := dtor_on_stack { Scope := some w.Heap.length } w1 M1
      w.Heap.length ⟨⟨T.TracerName, some s⟩, 1⟩
      (w.Heap.length :: List.range' (w.Heap.length + 1) rest.length) 0 hM1 rfl hI (le_refl _)
      hS (by simp) (by simp)
      (by
        intro q hq
        simp only [List.drop_zero, List.mem_cons, List.mem_range'_1] at hq
        omega)
    have hmap : w2.Heap.map (·.Span) = w1.Heap.map (·.Span) := by
      rw [k6]
      exact map_span_setRefCount w1 _ _ _ hI
    obtain ⟨w3, r1, r2, _⟩ := releaseAll_not_on_stack T.TracerName
      (List.range' (w.Heap.length + 1) rest.length) w2
      (by intro p _; simp at k3; simp [k3])
      (by
        intro p hp
        simp only [List.mem_range'_1] at hp
        rw [hmap, h2]
        have hle : w.Heap.length ≤ p := by omega
        have hlt : p - w.Heap.length < (s :: rest).length := by simp; omega
        refine ⟨⟨T.TracerName, some ((s :: rest)[p - w.Heap.length])⟩, ?_, rfl⟩
        rw [List.getElem?_map, List.getElem?_append_right hle, List.getElem?_map,
          List.getElem?_eq_getElem hlt]
        rfl)
    refine ⟨_, w1, w3, h1, ?_, ?_⟩
    · simp only [releaseAll, k1, r1]
    · rw [r2, k2, h4]
      have hr : List.range' w.Heap.length (s :: rest).length =
          w.Heap.length :: List.range' (w.Heap.length + 1) rest.length := by
        simp [List.range'_succ]
      have hf := filterMap_spanAt_range' T.TracerName (s :: rest) w.Heap
      rw [hr, ← h2] at hf
      simp only [List.drop_zero, List.filterMap_reverse, hf, List.append_assoc]

/-- C4: on a tracer with an SDK tracer whose stack is empty, any run of
`StartSpanScoped` calls (the SDK returning distinct span objects) followed by the
release of the returned handles in the order in which they were obtained succeeds;
in the SDK calls `seg` the run adds, no call occurs twice, every span of the run is
started, every started span is ended and its `End` comes after its `StartSpan`, and
whenever a span `b` was started after a span `a`, the `End` of `b` comes before the
`End` of `a`. -/
theorem C4_release_in_start_order_ends_children_first (T : FOtelTracer) (tr : Nat)
    (hT : T.OtelTracer = some tr) (spans : List Nat) (hnd : spans.Nodup) (w : World)
    (hempty : w.Scopes T.TracerName = []) :
    ∃ hs w1 w2 seg, startAll T spans w = some (hs, w1) ∧ releaseAll hs w1 = some w2 ∧
      w2.SdkLog = w.SdkLog ++ seg ∧ seg.Nodup ∧
      (∀ s ∈ spans, ∃ p, SdkCall.StartSpan s p ∈ seg) ∧
      (∀ s p, SdkCall.StartSpan s p ∈ seg →
        List.Sublist [SdkCall.StartSpan s p, SdkCall.End s] seg) ∧
      (∀ a pa b pb, List.Sublist [SdkCall.StartSpan a pa, SdkCall.StartSpan b pb] seg →
        List.Sublist [SdkCall.End b, SdkCall.End a] seg) := by
  obtain ⟨hs, w1, w2, h1, h2, h3⟩ := nested_run T tr hT spans w hempty
  obtain ⟨n1, n2, n3, n4⟩ := nested_run_order spans hnd
  exact ⟨hs, w1, w2, _, h1, h2, h3, n1, n2, n3, n4⟩

/-- C4 at a concrete run: three spans started on a tracer in the state with no module
loaded, then the three handles released first to last. -/
theorem C4_release_in_start_order_ends_children_first_witness :
    ∃ hs w1 w2 seg, startAll ⟨7, some 1⟩ [100, 101, 102] exEmpty = some (hs, w1) ∧
      releaseAll hs w1 = some w2 ∧
      w2.SdkLog = exEmpty.SdkLog ++ seg ∧ seg.Nodup ∧
      (∀ s ∈ [100, 101, 102], ∃ p, SdkCall.StartSpan s p ∈ seg) ∧
      (∀ s p, SdkCall.StartSpan s p ∈ seg →
        List.Sublist [SdkCall.StartSpan s p, SdkCall.End s] seg) ∧
      (∀ a pa b pb, List.Sublist [SdkCall.StartSpan a pa, SdkCall.StartSpan b pb] seg →
        List.Sublist [SdkCall.End b, SdkCall.End a] seg) :=
  C4_release_in_start_order_ends_children_first ⟨7, some 1⟩ 1 rfl [100, 101, 102] (by decide)
    exEmpty rfl

/-! ## Lemmas on the registry -/

theorem TMap.mem_of_Find {K V : Type} [DecidableEq K] (m : List (K × V)) (k : K) (v : V)
    (h : TMap.Find m k = some v) : (k, v) ∈ m := by
  induction m with
  | nil => simp [TMap.Find] at h
  | cons kv rest ih =>
    obtain ⟨k1, v1⟩ := kv
    by_cases h1 : k1 = k
    · simp [TMap.Find, h1] at h
      simp [h1, h]
    · simp [TMap.Find, h1] at h
      simp [ih h]

theorem TMap.mem_Add {K V : Type} [DecidableEq K] (m : List (K × V)) (k : K) (v : V)
    (x : K × V) (h : x ∈ TMap.Add m k v) : x ∈ m ∨ x = (k, v) := by
  induction m with
  | nil => simp [TMap.Add] at h; exact Or.inr h
  | cons kv rest ih =>
    obtain ⟨k1, v1⟩ := kv
    by_cases h1 : k1 = k
    · simp [TMap.Add, h1] at h
      rcases h with h | h
      · exact Or.inr h
      · exact Or.inl (by simp [h])
    · simp [TMap.Add, h1] at h
      rcases h with h | h
      · exact Or.inl (by simp [h])
      · rcases ih h with h2 | h2
        · exact Or.inl (by simp [h2])
        · exact Or.inr h2

theorem TMap.Remove_Add_of_absent {K V : Type} [DecidableEq K] (m : List (K × V)) (k : K)
    (v : V) (h : TMap.Find m k = none) : TMap.Remove (TMap.Add m k v) k = m := by
  induction m with
  | nil => simp [TMap.Add, TMap.Remove]
  | cons kv rest ih =>
    obtain ⟨k1, v1⟩ := kv
    by_cases h1 : k1 = k
    · simp [TMap.Find, h1] at h
    · simp [TMap.Find, h1] at h
      simp [TMap.Add, TMap.Remove, h1, ih h]

theorem StacksValid_of_eq (w1 w : World)
    (hM : w1.Get.TracerToScopeStack = w.Get.TracerToScopeStack)
    (hl : w1.Heap.length = w.Heap.length) (h : w.StacksValid) : w1.StacksValid := by
  intro kv hkv q hq
  rw [hl]
  rw [hM] at hkv
  exact h kv hkv q hq

theorem length_of_map_span (H1 H2 : List FOtelScopedSpanImpl)
    (h : H1.map (·.Span) = H2.map (·.Span)) : H1.length = H2.length := by
  have := congrArg List.length h
  simpa using this

theorem dtor_general (self : FOtelScopedSpan) (w : World) (hv : self.Valid w)
    (hsv : w.StacksValid) :
    ∃ w1, self.dtor w = some w1 ∧ w1.Heap.map (·.Span) = w.Heap.map (·.Span) ∧
      w1.Get.PinnedSpans = w.Get.PinnedSpans ∧ w1.StacksValid := by
  cases hp : self.Scope with
  | none => exact ⟨w, by simp [FOtelScopedSpan.dtor, hp], rfl, rfl, hsv⟩
  | some p =>
    have hlt : p < w.Heap.length := hv p (by simp [hp])
    have hI : w.Heap[p]? = some w.Heap[p] := List.getElem?_eq_getElem hlt
    generalize w.Heap[p] = impl at hI
    have hmap := map_span_setRefCount w p impl (impl.RefCount - 1) hI
    have hlen : (w.setRefCount p impl (impl.RefCount - 1)).Heap.length = w.Heap.length :=
      length_of_map_span _ _ hmap
    have hG : (w.setRefCount p impl (impl.RefCount - 1)).Get = w.Get := rfl
    have hsv1 : (w.setRefCount p impl (impl.RefCount - 1)).StacksValid :=
      StacksValid_of_eq _ w rfl hlen hsv
    simp only [FOtelScopedSpan.dtor, hp, hI]
    by_cases hrc : impl.RefCount - 1 ≤ 0
    · rw [if_pos hrc]
      cases hM : (w.setRefCount p impl (impl.RefCount - 1)).Module with
      | none => exact ⟨_, rfl, hmap, rfl, hsv1⟩
      | some M =>
        have hGM : w.Get = M := by
          rw [← hG]
          simp [World.Get, hM]
        dsimp only
        cases hS : TMap.Find M.TracerToScopeStack impl.Span.TracerName with
        | none =>
          refine ⟨_, rfl, hmap, ?_, ?_⟩
          · rw [hGM]; rfl
          · exact StacksValid_of_eq _ w (by rw [hGM]; rfl) hlen hsv
        | some Scopes =>
          dsimp only
          cases hidx : IndexOfByPredicate (fun Impl => decide (Impl = p)) Scopes with
          | none => exact ⟨_, rfl, hmap, rfl, hsv1⟩
          | some Index =>
            have hmem : (impl.Span.TracerName, Scopes) ∈ w.Get.TracerToScopeStack := by
              rw [hGM]
              exact TMap.mem_of_Find _ _ _ hS
            have hval : ∀ q ∈ Scopes, q < w.Heap.length := fun q hq => hsv _ hmem q hq
            obtain ⟨w2, e1, _, e3, e4⟩ := endScopes_spec (Scopes.drop Index).reverse
              (w.setRefCount p impl (impl.RefCount - 1))
              (by
                intro q hq
                rw [hlen]
                exact hval q (List.mem_of_mem_drop (List.mem_reverse.mp hq)))
            have hG2 : w2.Get = M := by simp [World.Get, e4, hM]
            simp only [e1]
            refine ⟨_, rfl, ?_, ?_, ?_⟩
            · simp only [World.setScopes, e3]
              exact hmap
            · rw [hGM]
              simp only [World.setScopes, hG2]
              rfl
            · intro kv hkv q hq
              simp only [World.setScopes, hG2] at hkv
              have hkv2 : kv ∈ TMap.Add M.TracerToScopeStack impl.Span.TracerName
                  (List.take Index Scopes) := hkv
              simp only [World.setScopes, e3, hlen]
              rcases TMap.mem_Add _ _ _ _ hkv2 with hm | hm
              · rw [← hGM] at hm
                exact hsv kv hm q hq
              · subst hm
                exact hval q (List.mem_of_mem_take hq)
    · rw [if_neg hrc]
      exact ⟨_, rfl, hmap, rfl, hsv1⟩

theorem copy_spec (h : FOtelScopedSpan) (w : World) (p : Nat) (impl : FOtelScopedSpanImpl)
    (hp : h.Scope = some p) (hI : w.Heap[p]? = some impl) :
    ∃ w1, h.copy w = some ({ Scope := some p }, w1) ∧
      w1.Heap.map (·.Span) = w.Heap.map (·.Span) ∧ w1.Get = w.Get ∧ w1.SdkLog = w.SdkLog := by
  cases hs : impl.Span.OtelSpan with
  | none => exact ⟨w, by simp [FOtelScopedSpan.copy, hp, hI, hs], rfl, rfl, rfl⟩
  | some s =>
    exact ⟨w.setRefCount p impl (impl.RefCount + 1), by simp [FOtelScopedSpan.copy, hp, hI, hs],
      map_span_setRefCount w p impl _ hI, rfl, rfl⟩

theorem assign_spec (lhs h : FOtelScopedSpan) (w : World) (p : Nat) (impl : FOtelScopedSpanImpl)
    (hp : h.Scope = some p) (hI : w.Heap[p]? = some impl) :
    ∃ w1, lhs.assign h w = some ({ Scope := some p }, w1) ∧
      w1.Heap.map (·.Span) = w.Heap.map (·.Span) ∧ w1.Get = w.Get ∧ w1.SdkLog = w.SdkLog := by
  cases hs : impl.Span.OtelSpan with
  | none => exact ⟨w, by simp [FOtelScopedSpan.assign, hp, hI, hs], rfl, rfl, rfl⟩
  | some s =>
    exact ⟨w.setRefCount p impl (impl.RefCount + 1),
      by simp [FOtelScopedSpan.assign, hp, hI, hs],
      map_span_setRefCount w p impl _ hI, rfl, rfl⟩

theorem getElem?_of_map_span_eq (H1 H2 : List FOtelScopedSpanImpl)
    (h : H1.map (·.Span) = H2.map (·.Span)) (p : Nat) (impl : FOtelScopedSpanImpl)
    (hI : H2[p]? = some impl) : ∃ impl1, H1[p]? = some impl1 ∧ impl1.Span = impl.Span := by
  apply getElem?_of_map_span
  rw [h]
  simp [hI]

theorem Pin_general (span_id : Nat → Nat) (h : FOtelScopedSpan) (w : World) (p s : Nat)
    (impl : FOtelScopedSpanImpl) (hp : h.Scope = some p) (hI : w.Heap[p]? = some impl)
    (hs : impl.Span.OtelSpan = some s) (hsv : w.StacksValid) (hpv : w.PinnedValid) :
    ∃ w1, FOtelModule.Pin span_id h w = some (span_id s, w1) ∧
      w1.Heap.map (·.Span) = w.Heap.map (·.Span) ∧
      w1.Get.PinnedSpans = TMap.Add w.Get.PinnedSpans (span_id s) { Scope := some p } ∧
      w1.StacksValid := by
  obtain ⟨wa, a1, a2, a3, _⟩ := copy_spec h w p impl hp hI
  obtain ⟨ia, ha, hsa⟩ := getElem?_of_map_span_eq _ _ a2 p impl hI
  obtain ⟨wb, b1, b2, b3, _⟩ := copy_spec { Scope := some p } wa p ia rfl ha
  have hmb : wb.Heap.map (·.Span) = w.Heap.map (·.Span) := by rw [b2, a2]
  have hGb : wb.Get = w.Get := by rw [b3, a3]
  have hsvb : wb.StacksValid :=
    StacksValid_of_eq _ w (by rw [hGb]) (length_of_map_span _ _ hmb) hsv
  have hadd : ∃ wc, FOtelModule.PinnedSpansAdd (span_id s) { Scope := some p } wa = some wc ∧
      wc.Heap.map (·.Span) = w.Heap.map (·.Span) ∧
      wc.Get.PinnedSpans = TMap.Add w.Get.PinnedSpans (span_id s) { Scope := some p } ∧
      wc.StacksValid := by
    simp only [FOtelModule.PinnedSpansAdd, b1]
    cases hf : TMap.Find wb.Get.PinnedSpans (span_id s) with
    | none =>
      refine ⟨_, rfl, hmb, ?_, ?_⟩
      · rw [← hGb]; rfl
      · exact StacksValid_of_eq _ wb rfl rfl hsvb
    | some Old =>
      have hOld : Old.Valid wb := by
        intro q hq
        rw [length_of_map_span _ _ hmb]
        have hmem := TMap.mem_of_Find _ _ _ hf
        rw [hGb] at hmem
        exact hpv _ hmem q hq
      obtain ⟨wd, d1, d2, d3, d4⟩ := dtor_general Old wb hOld hsvb
      simp only [d1]
      refine ⟨_, rfl, by rw [← hmb, ← d2]; rfl, ?_, ?_⟩
      · rw [← hGb, ← d3]; rfl
      · exact StacksValid_of_eq _ wd rfl rfl d4
  obtain ⟨wc, c1, c2, c3, c4⟩ := hadd
  have hvc : FOtelScopedSpan.Valid { Scope := some p } wc := by
    intro q hq
    simp at hq
    subst hq
    rw [length_of_map_span _ _ c2]
    exact getElem?_lt _ _ _ hI
  obtain ⟨w1, e1, e2, e3, e4⟩ := dtor_general { Scope := some p } wc hvc c4
  refine ⟨w1, ?_, by rw [e2, c2], by rw [e3, c3], e4⟩
  have hin : FOtelScopedSpan.Inner { Scope := some p } wa = some ia.Span := by
    simp [FOtelScopedSpan.Inner, ha]
  simp only [FOtelModule.Pin, a1, hin, hsa, hs, c1, e1]

theorem Unpin_general (SpanId : Nat) (w : World) (p : Nat) (impl : FOtelScopedSpanImpl)
    (hf : TMap.Find w.Get.PinnedSpans SpanId = some { Scope := some p })
    (hI : w.Heap[p]? = some impl) (hsv : w.StacksValid) :
    ∃ w2, FOtelModule.Unpin SpanId w = some ({ Scope := some p }, w2) ∧
      w2.Heap.map (·.Span) = w.Heap.map (·.Span) ∧
      w2.Get.PinnedSpans = TMap.Remove w.Get.PinnedSpans SpanId := by
  obtain ⟨wa, a1, a2, a3, _⟩ := assign_spec FOtelScopedSpan.ctor { Scope := some p } w p impl rfl hI
  have hva : FOtelScopedSpan.Valid { Scope := some p } wa := by
    intro q hq
    simp at hq
    subst hq
    rw [length_of_map_span _ _ a2]
    exact getElem?_lt _ _ _ hI
  have hsva : wa.StacksValid :=
    StacksValid_of_eq _ w (by rw [a3]) (length_of_map_span _ _ a2) hsv
  obtain ⟨wb, b1, b2, b3, _⟩ := dtor_general { Scope := some p } wa hva hsva
  refine ⟨wb.setPinned (TMap.Remove wb.Get.PinnedSpans SpanId),
    by simp only [FOtelModule.Unpin, hf, a1, b1, FOtelScopedSpan.move], ?_, ?_⟩
  · rw [← a2, ← b2]; rfl
  · rw [← a3, ← b3]; rfl

/-! ## Pin, GetPinnedSpan, Unpin -/

/-- C9: for a live handle `h` on the entry at position `p`, whose span `impl.Span` holds
the SDK span `s`, in a state whose stacks and registry hold only positions of impl
objects: `Pin(h)` succeeds and returns `id = span_id s`; `GetPinnedSpan(id)` (a pure
lookup, which by its type returns no new state) then finds a handle on the same
entry whose `Inner()` is that span; `Unpin(id)` succeeds and returns a handle on the
same entry whose `Inner()` is that span, the registry afterwards is the one before
with the key `id` removed, so `GetPinnedSpan(id)` finds nothing and every other id
is found as before. -/
theorem C9_pin_lookup_unpin (span_id : Nat → Nat) (h : FOtelScopedSpan) (w : World) (p s : Nat)
    (impl : FOtelScopedSpanImpl) (hp : h.Scope = some p) (hI : w.Heap[p]? = some impl)
    (hs : impl.Span.OtelSpan = some s) (hsv : w.StacksValid) (hpv : w.PinnedValid) :
    ∃ w1, FOtelModule.Pin span_id h w = some (span_id s, w1) ∧
      FOtelModule.GetPinnedSpan (span_id s) w1 = some { Scope := some p } ∧
      FOtelScopedSpan.Inner { Scope := some p } w1 = some impl.Span ∧
      ∃ w2, FOtelModule.Unpin (span_id s) w1 = some ({ Scope := some p }, w2) ∧
        FOtelScopedSpan.Inner { Scope := some p } w2 = some impl.Span ∧
        w2.Get.PinnedSpans = TMap.Remove w1.Get.PinnedSpans (span_id s) ∧
        FOtelModule.GetPinnedSpan (span_id s) w2 = none ∧
        (∀ id, id ≠ span_id s →
          FOtelModule.GetPinnedSpan id w2 = FOtelModule.GetPinnedSpan id w1) := by
  obtain ⟨w1, a1, a2, a3, a4⟩ := Pin_general span_id h w p s impl hp hI hs hsv hpv
  obtain ⟨i1, hI1, hsp1⟩ := getElem?_of_map_span_eq _ _ a2 p impl hI
  have hf : TMap.Find w1.Get.PinnedSpans (span_id s) = some { Scope := some p } := by
    rw [a3]
    exact TMap.Find_Add_self _ _ _
  obtain ⟨w2, b1, b2, b3⟩ := Unpin_general (span_id s) w1 p i1 hf hI1 a4
  obtain ⟨i2, hI2, hsp2⟩ := getElem?_of_map_span_eq _ _ b2 p i1 hI1
  refine ⟨w1, a1, hf, ?_, w2, b1, ?_, b3, ?_, ?_⟩
  · simp [FOtelScopedSpan.Inner, hI1, hsp1]
  · simp [FOtelScopedSpan.Inner, hI2, hsp2, hsp1]
  · simp only [FOtelModule.GetPinnedSpan, b3]
    exact TMap.Find_Remove_self _ _
  · intro id hne
    simp only [FOtelModule.GetPinnedSpan, b3]
    exact TMap.Find_Remove_ne _ _ _ hne

/-- C9 at a concrete state: the handle of the entry at position 1 of `exPinned`, whose
id 1101 is already a key of the registry. -/
theorem C9_pin_lookup_unpin_witness :
    ∃ w1, FOtelModule.Pin (fun s => s + 1000) { Scope := some 1 } exPinned = some (1101, w1) ∧
      FOtelModule.GetPinnedSpan 1101 w1 = some { Scope := some 1 } ∧
      FOtelScopedSpan.Inner { Scope := some 1 } w1 = some ⟨7, some 101⟩ ∧
      ∃ w2, FOtelModule.Unpin 1101 w1 = some ({ Scope := some 1 }, w2) ∧
        FOtelScopedSpan.Inner { Scope := some 1 } w2 = some ⟨7, some 101⟩ ∧
        w2.Get.PinnedSpans = TMap.Remove w1.Get.PinnedSpans 1101 ∧
        FOtelModule.GetPinnedSpan 1101 w2 = none ∧
        (∀ id, id ≠ 1101 →
          FOtelModule.GetPinnedSpan id w2 = FOtelModule.GetPinnedSpan id w1) :=
  C9_pin_lookup_unpin (fun s => s + 1000) { Scope := some 1 } exPinned 1 101
    ⟨⟨7, some 101⟩, 2⟩ rfl rfl rfl (by decide) (by decide)

theorem getElem?_setRefCount_self (w : World) (p : Nat) (impl : FOtelScopedSpanImpl) (rc : Int)
    (hI : w.Heap[p]? = some impl) :
    (w.setRefCount p impl rc).Heap[p]? = some ⟨impl.Span, rc⟩ := by
  simp [World.setRefCount, List.getElem?_set_self (getElem?_lt _ _ _ hI)]

theorem setRefCount_setRefCount (w : World) (p : Nat) (impl : FOtelScopedSpanImpl) (a b : Int) :
    (w.setRefCount p impl a).setRefCount p ⟨impl.Span, a⟩ b = w.setRefCount p impl b := by
  simp [World.setRefCount, List.set_set]

theorem setRefCount_same (w : World) (p : Nat) (impl : FOtelScopedSpanImpl)
    (hI : w.Heap[p]? = some impl) : w.setRefCount p impl impl.RefCount = w := by
  have h := set_of_getElem? w.Heap p impl hI
  simp only [World.setRefCount]
  rw [h]

theorem copy_live (h : FOtelScopedSpan) (w : World) (p s : Nat) (impl : FOtelScopedSpanImpl)
    (hp : h.Scope = some p) (hI : w.Heap[p]? = some impl) (hs : impl.Span.OtelSpan = some s) :
    h.copy w = some ({ Scope := some p }, w.setRefCount p impl (impl.RefCount + 1)) := by
  simp [FOtelScopedSpan.copy, hp, hI, hs]

theorem Pin_fresh (span_id : Nat → Nat) (h : FOtelScopedSpan) (w : World) (p s : Nat)
    (impl : FOtelScopedSpanImpl) (hp : h.Scope = some p) (hI : w.Heap[p]? = some impl)
    (hs : impl.Span.OtelSpan = some s) (hrc : 1 ≤ impl.RefCount)
    (hfresh : TMap.Find w.Get.PinnedSpans (span_id s) = none) :
    FOtelModule.Pin span_id h w = some (span_id s,
      (w.setRefCount p impl (impl.RefCount + 1)).setPinned
        (TMap.Add w.Get.PinnedSpans (span_id s) { Scope := some p })) := by
  have c1 := copy_live h w p s impl hp hI hs
  have g1 := getElem?_setRefCount_self w p impl (impl.RefCount + 1) hI
  have c2 := copy_live { Scope := some p } (w.setRefCount p impl (impl.RefCount + 1)) p s
    ⟨impl.Span, impl.RefCount + 1⟩ rfl g1 hs
  rw [setRefCount_setRefCount] at c2
  have g2 := getElem?_setRefCount_self w p impl (impl.RefCount + 1 + 1) hI
  have hfr2 : TMap.Find (w.setRefCount p impl (impl.RefCount + 1 + 1)).Get.PinnedSpans
      (span_id s) = none := hfresh
  have hadd : FOtelModule.PinnedSpansAdd (span_id s) { Scope := some p }
      (w.setRefCount p impl (impl.RefCount + 1)) =
      some ((w.setRefCount p impl (impl.RefCount + 1 + 1)).setPinned
        (TMap.Add w.Get.PinnedSpans (span_id s) { Scope := some p })) := by
    simp only [FOtelModule.PinnedSpansAdd, c2, hfr2]
    rfl
  have g3 : ((w.setRefCount p impl (impl.RefCount + 1 + 1)).setPinned
      (TMap.Add w.Get.PinnedSpans (span_id s) { Scope := some p })).Heap[p]? =
      some ⟨impl.Span, impl.RefCount + 1 + 1⟩ := g2
  have d := dtor_shared { Scope := some p } _ p ⟨impl.Span, impl.RefCount + 1 + 1⟩ rfl g3
    (by simp only; omega)
  have hin : FOtelScopedSpan.Inner { Scope := some p } (w.setRefCount p impl (impl.RefCount + 1)) =
      some impl.Span := by
    simp [FOtelScopedSpan.Inner, g1]
  simp only [FOtelModule.Pin, c1, hin, hs, hadd, d]
  have e : impl.RefCount + 1 + 1 - 1 = impl.RefCount + 1 := by omega
  simp [World.setRefCount, World.setPinned, World.Get, List.set_set, e]

theorem Pin_release_Unpin_fresh (span_id : Nat → Nat) (h : FOtelScopedSpan) (w : World)
    (M : FOtelModule) (p s : Nat) (impl : FOtelScopedSpanImpl) (hM : w.Module = some M)
    (hp : h.Scope = some p) (hI : w.Heap[p]? = some impl) (hs : impl.Span.OtelSpan = some s)
    (hrc : 1 ≤ impl.RefCount)
    (hfresh : TMap.Find w.Get.PinnedSpans (span_id s) = none) :
    ∃ w1 w2, FOtelModule.Pin span_id h w = some (span_id s, w1) ∧
      w1.Heap[p]? = some { impl with RefCount := impl.RefCount + 1 } ∧
      w1.SdkLog = w.SdkLog ∧ w1.Get.TracerToScopeStack = w.Get.TracerToScopeStack ∧
      h.dtor w1 = some w2 ∧
      w2.SdkLog = w.SdkLog ∧ w2.Get.TracerToScopeStack = w.Get.TracerToScopeStack ∧
      w2.Heap = w.Heap ∧
      FOtelModule.Unpin (span_id s) w2 = some ({ Scope := some p }, w) := by
  have hG : w.Get = M := by simp [World.Get, hM]
  have P1 := Pin_fresh span_id h w p s impl hp hI hs hrc hfresh
  have g1 : ((w.setRefCount p impl (impl.RefCount + 1)).setPinned
      (TMap.Add w.Get.PinnedSpans (span_id s) { Scope := some p })).Heap[p]? =
      some ⟨impl.Span, impl.RefCount + 1⟩ :=
    getElem?_setRefCount_self w p impl (impl.RefCount + 1) hI
  have d1 := dtor_shared h _ p ⟨impl.Span, impl.RefCount + 1⟩ hp g1 (by simp only; omega)
  have e1 : impl.RefCount + 1 - 1 = impl.RefCount := by omega
  have hw2 : (((w.setRefCount p impl (impl.RefCount + 1)).setPinned
      (TMap.Add w.Get.PinnedSpans (span_id s) { Scope := some p })).setRefCount p
      ⟨impl.Span, impl.RefCount + 1⟩ (impl.RefCount + 1 - 1)) =
      w.setPinned (TMap.Add w.Get.PinnedSpans (span_id s) { Scope := some p }) := by
    have hh := setRefCount_same w p impl hI
    simp only [World.setRefCount] at hh
    have hheap : w.Heap.set p ⟨impl.Span, impl.RefCount⟩ = w.Heap := congrArg World.Heap hh
    simp [World.setRefCount, World.setPinned, World.Get, List.set_set, e1, hheap]
  rw [hw2] at d1
  refine ⟨_, _, P1, g1, rfl, rfl, d1, rfl, rfl, rfl, ?_⟩
  have hf : TMap.Find (w.setPinned
      (TMap.Add w.Get.PinnedSpans (span_id s) { Scope := some p })).Get.PinnedSpans (span_id s) =
      some { Scope := some p } := by
    simp [World.setPinned, World.Get, TMap.Find_Add_self]
  have hI2 : (w.setPinned
      (TMap.Add w.Get.PinnedSpans (span_id s) { Scope := some p })).Heap[p]? = some impl := hI
  have a1 : FOtelScopedSpan.assign FOtelScopedSpan.ctor { Scope := some p }
      (w.setPinned (TMap.Add w.Get.PinnedSpans (span_id s) { Scope := some p })) =
      some ({ Scope := some p }, (w.setPinned
        (TMap.Add w.Get.PinnedSpans (span_id s) { Scope := some p })).setRefCount p impl
          (impl.RefCount + 1)) := by
    simp [FOtelScopedSpan.assign, hI2, hs]
  have g2 := getElem?_setRefCount_self _ p impl (impl.RefCount + 1) hI2
  have d2 := dtor_shared { Scope := some p } _ p ⟨impl.Span, impl.RefCount + 1⟩ rfl g2
    (by simp only; omega)
  simp only [FOtelModule.Unpin, hf, a1, d2, FOtelScopedSpan.move]
  have hh := setRefCount_same w p impl hI
  simp only [World.setRefCount] at hh
  have hheap : w.Heap.set p ⟨impl.Span, impl.RefCount⟩ = w.Heap := congrArg World.Heap hh
  have hrem := TMap.Remove_Add_of_absent w.Get.PinnedSpans (span_id s) { Scope := some p } hfresh
  have hfin : ((((w.setPinned (TMap.Add w.Get.PinnedSpans (span_id s) { Scope := some p })).setRefCount
      p impl (impl.RefCount + 1)).setRefCount p ⟨impl.Span, impl.RefCount + 1⟩
      (impl.RefCount + 1 - 1)).setPinned (TMap.Remove ((((w.setPinned
        (TMap.Add w.Get.PinnedSpans (span_id s) { Scope := some p })).setRefCount
      p impl (impl.RefCount + 1)).setRefCount p ⟨impl.Span, impl.RefCount + 1⟩
      (impl.RefCount + 1 - 1))).Get.PinnedSpans (span_id s))) = w := by
    cases w with
    | mk Mo H L E =>
      simp only at hM hheap
      subst hM
      simp only [World.Get] at hrem
      simp [World.setRefCount, World.setPinned, World.Get, List.set_set, e1, hheap, hrem]
  rw [hfin]

/-! ## The id that Pin returns -/

theorem Pin_inert (span_id : Nat → Nat) (h : FOtelScopedSpan) (w : World) (Span : FOtelSpan)
    (hin : h.Inner w = some Span) (hs : Span.OtelSpan = none) (hsv : w.StacksValid) :
    ∃ w1, FOtelModule.Pin span_id h w = some (0, w1) ∧
      w1.Get.PinnedSpans = w.Get.PinnedSpans := by
  cases hp : h.Scope with
  | none =>
    refine ⟨w, ?_, rfl⟩
    simp [FOtelModule.Pin, FOtelScopedSpan.copy, hp, FOtelScopedSpan.Inner, FOtelSpan.ctor,
      FOtelScopedSpan.dtor]
  | some p =>
    cases hI : w.Heap[p]? with
    | none => simp [FOtelScopedSpan.Inner, hp, hI] at hin
    | some impl =>
      have hsp : impl.Span = Span := by
        simpa [FOtelScopedSpan.Inner, hp, hI] using hin
      have hs1 : impl.Span.OtelSpan = none := by rw [hsp]; exact hs
      have hv : FOtelScopedSpan.Valid { Scope := some p } w := by
        intro q hq
        simp at hq
        subst hq
        exact getElem?_lt _ _ _ hI
      obtain ⟨w1, d1, _, d3, _⟩ := dtor_general { Scope := some p } w hv hsv
      refine ⟨w1, ?_, d3⟩
      have hin2 : FOtelScopedSpan.Inner { Scope := some p } w = some impl.Span := by
        simp [FOtelScopedSpan.Inner, hI]
      simp only [FOtelModule.Pin, FOtelScopedSpan.copy, hp, hI, hs1, hin2, d1]

/-- C11 does not hold as stated: in `exThree` the handle of the entry at position 1 is
live, and with an SDK whose spans all have the span id 0 (the invalid id, which the
no-op spans of the SDK carry) `Pin` returns 0 although it has stored the handle:
the registry, empty before, then holds it under the key 0. -/
theorem C11_pin_returns_zero_and_stores_counterexample :
    exThree.Get.PinnedSpans = [] ∧
    (FOtelModule.Pin (fun _ => 0) { Scope := some 1 } exThree).map
      (fun r => (r.1, r.2.Get.PinnedSpans)) = some (0, [(0, { Scope := some 1 })]) := by
  decide

/-- C11, amended: in a state whose stacks and registry hold only positions of impl
objects, `Pin` of a valid handle succeeds. For an inert handle (the span of
`Inner()` has no SDK span) it returns 0 and the registry is as before. For a live
handle on the SDK span `s` it returns `span_id s`, the span's own identifier, and the
registry is the one before with the handle stored under that id. So an id that is
not 0 is returned only when the handle was stored under it; the id is 0 also for a
stored handle whose span has the identifier 0. -/
theorem C11_pin_id_is_span_id_or_zero (span_id : Nat → Nat) (h : FOtelScopedSpan) (w : World)
    (hv : h.Valid w) (hsv : w.StacksValid) (hpv : w.PinnedValid) :
    ∃ id w1, FOtelModule.Pin span_id h w = some (id, w1) ∧
      (∀ Span, h.Inner w = some Span → Span.OtelSpan = none →
        id = 0 ∧ w1.Get.PinnedSpans = w.Get.PinnedSpans) ∧
      (∀ Span s, h.Inner w = some Span → Span.OtelSpan = some s →
        id = span_id s ∧
        w1.Get.PinnedSpans = TMap.Add w.Get.PinnedSpans (span_id s) h) ∧
      (id ≠ 0 → FOtelModule.GetPinnedSpan id w1 = some h) := by
  have hinner : ∃ Span, h.Inner w = some Span := by
    cases hp : h.Scope with
    | none => exact ⟨FOtelSpan.ctor, by simp [FOtelScopedSpan.Inner, hp]⟩
    | some p =>
      have hlt : p < w.Heap.length := hv p (by simp [hp])
      exact ⟨w.Heap[p].Span, by simp [FOtelScopedSpan.Inner, hp, List.getElem?_eq_getElem hlt]⟩
  obtain ⟨Span, hin⟩ := hinner
  cases hs : Span.OtelSpan with
  | none =>
    obtain ⟨w1, a1, a2⟩ := Pin_inert span_id h w Span hin hs hsv
    refine ⟨0, w1, a1, ?_, ?_, ?_⟩
    · intro _ _ _
      exact ⟨rfl, a2⟩
    · intro Span2 s hin2 hs2
      rw [hin] at hin2
      have e : Span = Span2 := Option.some.inj hin2
      rw [← e, hs] at hs2
      exact absurd hs2 (by simp)
    · intro hne
      exact absurd rfl hne
  | some s =>
    cases hp : h.Scope with
    | none =>
      simp [FOtelScopedSpan.Inner, hp, FOtelSpan.ctor] at hin
      rw [← hin] at hs
      simp at hs
    | some p =>
      cases hI : w.Heap[p]? with
      | none => simp [FOtelScopedSpan.Inner, hp, hI] at hin
      | some impl =>
        have hsp : impl.Span = Span := by
          simpa [FOtelScopedSpan.Inner, hp, hI] using hin
        have hs1 : impl.Span.OtelSpan = some s := by rw [hsp]; exact hs
        have hh : h = { Scope := some p } := by
          cases h
          simp at hp
          simp [hp]
        obtain ⟨w1, a1, _, a3, _⟩ := Pin_general span_id h w p s impl hp hI hs1 hsv hpv
        have hf : FOtelModule.GetPinnedSpan (span_id s) w1 = some h := by
          simp only [FOtelModule.GetPinnedSpan, a3, hh]
          exact TMap.Find_Add_self _ _ _
        refine ⟨span_id s, w1, a1, ?_, ?_, ?_⟩
        · intro Span2 hin2 hs2
          rw [hin] at hin2
          have e : Span = Span2 := Option.some.inj hin2
          rw [← e, hs] at hs2
          exact absurd hs2 (by simp)
        · intro Span2 s2 hin2 hs2
          rw [hin] at hin2
          have e : Span = Span2 := Option.some.inj hin2
          rw [← e, hs] at hs2
          have e2 : s = s2 := Option.some.inj hs2
          subst e2
          refine ⟨rfl, ?_⟩
          rw [a3, hh]
        · intro _
          exact hf

/-- C11 (amended) at a concrete state: the handle of the entry at position 1 of
`exThree`. -/
theorem C11_pin_id_is_span_id_or_zero_witness :
    ∃ id w1, FOtelModule.Pin (fun s => s + 1000) { Scope := some 1 } exThree = some (id, w1) ∧
      (∀ Span, FOtelScopedSpan.Inner { Scope := some 1 } exThree = some Span →
        Span.OtelSpan = none → id = 0 ∧ w1.Get.PinnedSpans = exThree.Get.PinnedSpans) ∧
      (∀ Span s, FOtelScopedSpan.Inner { Scope := some 1 } exThree = some Span →
        Span.OtelSpan = some s →
        id = (fun s => s + 1000) s ∧
        w1.Get.PinnedSpans =
          TMap.Add exThree.Get.PinnedSpans ((fun s => s + 1000) s) { Scope := some 1 }) ∧
      (id ≠ 0 → FOtelModule.GetPinnedSpan id w1 = some { Scope := some 1 }) :=
  C11_pin_id_is_span_id_or_zero (fun s => s + 1000) { Scope := some 1 } exThree
    (by decide) (by decide) (by decide)

/-! ## Metric instruments: typed forwarding, no-op variants, negative values, gauges -/

theorem Double.geZero_of_ltZero (d : Otel.Double) (h : d.ltZero = true) : d.geZero = false := by
  unfold Double.ltZero at h
  unfold Double.geZero
  simp only [Bool.and_eq_true, Bool.not_eq_true', decide_eq_true_eq] at h
  obtain ⟨⟨h1, h2⟩, h3⟩ := h
  simp [h1, h2, h3]

/-- C12: an active `Int64` counter, gauge or histogram hands nothing to the SDK for any
`double` value `d` (the gauge keeps its last observed value and attributes), and an
active `Double` one hands nothing to the SDK for any `uint64` value `u` or `int64`
value `i`; a `uint64` value on an `Int64` counter or histogram, and a `double` value
`e` with `e >= 0.0` on a `Double` one, is handed to the SDK once, unchanged and with
the attributes; an `int64` or `double` value on a gauge of that type becomes its last
observed value, with the attributes, which the export callback then reports. -/
theorem C12_typed_instruments_forward_only_their_type (u : Nat) (i : Int) (d e : Otel.Double)
    (he : e.geZero = true) (Attributes : List FAnalyticsEventAttribute) (k : Sink)
    (gi : TOtelGauge Int) (gd : TOtelGauge Otel.Double) :
    (FOtelCounter.UInt64.AddDouble d Attributes k).Sdk = k.Sdk ∧
    (FOtelHistogram.UInt64.RecordDouble d Attributes k).Sdk = k.Sdk ∧
    (FOtelGauge.Int64 gi).ObserveDouble d Attributes k = (FOtelGauge.Int64 gi, k.warn) ∧
    (FOtelCounter.Double.AddUInt64 u Attributes k).Sdk = k.Sdk ∧
    (FOtelHistogram.Double.RecordUInt64 u Attributes k).Sdk = k.Sdk ∧
    (FOtelGauge.Double gd).ObserveInt64 i Attributes k = (FOtelGauge.Double gd, k.warn) ∧
    k.warn.Sdk = k.Sdk ∧
    (FOtelCounter.UInt64.AddUInt64 u Attributes k).Sdk =
      k.Sdk ++ [⟨Number.UInt64 u, EventAttributesOtelConverter.ctor Attributes⟩] ∧
    (FOtelHistogram.UInt64.RecordUInt64 u Attributes k).Sdk =
      k.Sdk ++ [⟨Number.UInt64 u, EventAttributesOtelConverter.ctor Attributes⟩] ∧
    (FOtelCounter.Double.AddDouble e Attributes k).Sdk =
      k.Sdk ++ [⟨Number.Double e, EventAttributesOtelConverter.ctor Attributes⟩] ∧
    (FOtelHistogram.Double.RecordDouble e Attributes k).Sdk =
      k.Sdk ++ [⟨Number.Double e, EventAttributesOtelConverter.ctor Attributes⟩] ∧
    (FOtelGauge.Int64 gi).ObserveInt64 i Attributes k =
      (FOtelGauge.Int64 ⟨some i, Attributes⟩, k) ∧
    (FOtelGauge.Double gd).ObserveDouble d Attributes k =
      (FOtelGauge.Double ⟨some d, Attributes⟩, k) ∧
    (((FOtelGauge.Int64 gi).ObserveInt64 i Attributes k).1.OtelCallback k).Sdk =
      k.Sdk ++ [⟨Number.Int64 i, EventAttributesOtelConverter.ctor Attributes⟩] ∧
    (((FOtelGauge.Double gd).ObserveDouble d Attributes k).1.OtelCallback k).Sdk =
      k.Sdk ++ [⟨Number.Double d, EventAttributesOtelConverter.ctor Attributes⟩] := by
  refine ⟨rfl, rfl, rfl, rfl, rfl, rfl, rfl, rfl, rfl, ?_, ?_, rfl, rfl, rfl, rfl⟩
  · simp [FOtelCounter.AddDouble, he, Sink.forward]
  · simp [FOtelHistogram.RecordDouble, he, Sink.forward]

/-- C12 at concrete values: the `double` -1.0 as the value of the other type and 2.0 as
the value in range. -/
theorem C12_typed_instruments_forward_only_their_type_witness :
    (FOtelCounter.UInt64.AddDouble exMinusOne exAttributes Sink.empty).Sdk = Sink.empty.Sdk ∧
    (FOtelHistogram.UInt64.RecordDouble exMinusOne exAttributes Sink.empty).Sdk =
      Sink.empty.Sdk ∧
    (FOtelGauge.Int64 ⟨none, []⟩).ObserveDouble exMinusOne exAttributes Sink.empty =
      (FOtelGauge.Int64 ⟨none, []⟩, Sink.empty.warn) ∧
    (FOtelCounter.Double.AddUInt64 5 exAttributes Sink.empty).Sdk = Sink.empty.Sdk ∧
    (FOtelHistogram.Double.RecordUInt64 5 exAttributes Sink.empty).Sdk = Sink.empty.Sdk ∧
    (FOtelGauge.Double ⟨none, []⟩).ObserveInt64 (-3) exAttributes Sink.empty =
      (FOtelGauge.Double ⟨none, []⟩, Sink.empty.warn) ∧
    Sink.empty.warn.Sdk = Sink.empty.Sdk ∧
    (FOtelCounter.UInt64.AddUInt64 5 exAttributes Sink.empty).Sdk =
      Sink.empty.Sdk ++ [⟨Number.UInt64 5, EventAttributesOtelConverter.ctor exAttributes⟩] ∧
    (FOtelHistogram.UInt64.RecordUInt64 5 exAttributes Sink.empty).Sdk =
      Sink.empty.Sdk ++ [⟨Number.UInt64 5, EventAttributesOtelConverter.ctor exAttributes⟩] ∧
    (FOtelCounter.Double.AddDouble exTwo exAttributes Sink.empty).Sdk =
      Sink.empty.Sdk ++ [⟨Number.Double exTwo, EventAttributesOtelConverter.ctor exAttributes⟩] ∧
    (FOtelHistogram.Double.RecordDouble exTwo exAttributes Sink.empty).Sdk =
      Sink.empty.Sdk ++ [⟨Number.Double exTwo, EventAttributesOtelConverter.ctor exAttributes⟩] ∧
    (FOtelGauge.Int64 ⟨none, []⟩).ObserveInt64 (-3) exAttributes Sink.empty =
      (FOtelGauge.Int64 ⟨some (-3), exAttributes⟩, Sink.empty) ∧
    (FOtelGauge.Double ⟨none, []⟩).ObserveDouble exMinusOne exAttributes Sink.empty =
      (FOtelGauge.Double ⟨some exMinusOne, exAttributes⟩, Sink.empty) ∧
    (((FOtelGauge.Int64 ⟨none, []⟩).ObserveInt64 (-3) exAttributes
        Sink.empty).1.OtelCallback Sink.empty).Sdk =
      Sink.empty.Sdk ++ [⟨Number.Int64 (-3), EventAttributesOtelConverter.ctor exAttributes⟩] ∧
    (((FOtelGauge.Double ⟨none, []⟩).ObserveDouble exMinusOne exAttributes
        Sink.empty).1.OtelCallback Sink.empty).Sdk =
      Sink.empty.Sdk ++
        [⟨Number.Double exMinusOne, EventAttributesOtelConverter.ctor exAttributes⟩] :=
  C12_typed_instruments_forward_only_their_type 5 (-3) exMinusOne exTwo (by decide)
    exAttributes Sink.empty ⟨none, []⟩ ⟨none, []⟩

/-- C13: on a meter with no SDK meter, `CreateCounter`, `CreateGauge` and (for a name
that is not null) `CreateHistogram` make no call on the SDK and return the no-op
instrument tagged with the requested type `T`. Every `Add`, `Observe` and `Record`
on it hands nothing to the SDK, and the type test `ensureMsgf` fails exactly when
the overload called is not the one of `T`: the count of failed type tests goes up
by one for the `uint64` or `int64` overload when `T` is not `Int64`, and for the
`double` overload when `T` is not `Double`, and stays as it is otherwise. -/
theorem C13_noop_instruments_check_type_only (M : FOtelMeter) (hM : M.OtelMeter = none)
    (T : EOtelInstrumentType) (Name UnitTypeStr : String) (Buckets : FOtelHistogramBuckets)
    (u : Nat) (i : Int) (d : Otel.Double) (Attributes : List FAnalyticsEventAttribute)
    (k : Sink) :
    M.CreateCounter T Name UnitTypeStr = (FOtelCounter.Noop T, []) ∧
    M.CreateGauge T Name UnitTypeStr = (FOtelGauge.Noop T, []) ∧
    M.CreateHistogram T (some Name) Buckets UnitTypeStr = some (FOtelHistogram.Noop T, []) ∧
    ((FOtelCounter.Noop T).AddUInt64 u Attributes k).Sdk = k.Sdk ∧
    ((FOtelCounter.Noop T).AddDouble d Attributes k).Sdk = k.Sdk ∧
    ((FOtelGauge.Noop T).ObserveInt64 i Attributes k).2.Sdk = k.Sdk ∧
    ((FOtelGauge.Noop T).ObserveDouble d Attributes k).2.Sdk = k.Sdk ∧
    ((FOtelGauge.Noop T).ObserveInt64 i Attributes k).1 = FOtelGauge.Noop T ∧
    ((FOtelGauge.Noop T).ObserveDouble d Attributes k).1 = FOtelGauge.Noop T ∧
    ((FOtelGauge.Noop T).OtelCallback k) = k ∧
    ((FOtelHistogram.Noop T).RecordUInt64 u Attributes k).Sdk = k.Sdk ∧
    ((FOtelHistogram.Noop T).RecordDouble d Attributes k).Sdk = k.Sdk ∧
    ((FOtelCounter.Noop T).AddUInt64 u Attributes k).EnsureMsgs =
      k.EnsureMsgs + (if T = EOtelInstrumentType.Int64 then 0 else 1) ∧
    ((FOtelCounter.Noop T).AddDouble d Attributes k).EnsureMsgs =
      k.EnsureMsgs + (if T = EOtelInstrumentType.Double then 0 else 1) ∧
    ((FOtelGauge.Noop T).ObserveInt64 i Attributes k).2.EnsureMsgs =
      k.EnsureMsgs + (if T = EOtelInstrumentType.Int64 then 0 else 1) ∧
    ((FOtelGauge.Noop T).ObserveDouble d Attributes k).2.EnsureMsgs =
      k.EnsureMsgs + (if T = EOtelInstrumentType.Double then 0 else 1) ∧
    ((FOtelHistogram.Noop T).RecordUInt64 u Attributes k).EnsureMsgs =
      k.EnsureMsgs + (if T = EOtelInstrumentType.Int64 then 0 else 1) ∧
    ((FOtelHistogram.Noop T).RecordDouble d Attributes k).EnsureMsgs =
      k.EnsureMsgs + (if T = EOtelInstrumentType.Double then 0 else 1) := by
  have hsdk : ∀ (k : Sink) (A B : EOtelInstrumentType), (k.ensureType A B).Sdk = k.Sdk := by
    intro k A B
    unfold Sink.ensureType
    split <;> rfl
  have hsdk2 : ∀ (k : Sink) (v : Otel.Double), (k.ensureGeZero v).Sdk = k.Sdk := by
    intro k v
    unfold Sink.ensureGeZero
    split <;> rfl
  have hmsg : ∀ (k : Sink) (A B : EOtelInstrumentType),
      (k.ensureType A B).EnsureMsgs = k.EnsureMsgs + (if A = B then 0 else 1) := by
    intro k A B
    unfold Sink.ensureType
    split <;> rfl
  have hmsg2 : ∀ (k : Sink) (v : Otel.Double), (k.ensureGeZero v).EnsureMsgs = k.EnsureMsgs := by
    intro k v
    unfold Sink.ensureGeZero
    split <;> rfl
  refine ⟨?_, ?_, ?_, ?_, ?_, ?_, ?_, rfl, rfl, rfl, ?_, ?_, ?_, ?_, ?_, ?_, ?_, ?_⟩
  · simp [FOtelMeter.CreateCounter, hM]
  · simp [FOtelMeter.CreateGauge, hM]
  · simp [FOtelMeter.CreateHistogram, hM]
  · exact hsdk _ _ _
  · simp only [FOtelCounter.AddDouble, hsdk, hsdk2]
  · exact hsdk _ _ _
  · exact hsdk _ _ _
  · exact hsdk _ _ _
  · simp only [FOtelHistogram.RecordDouble, hsdk, hsdk2]
  · exact hmsg _ _ _
  · simp only [FOtelCounter.AddDouble, hmsg, hmsg2]
  · exact hmsg _ _ _
  · exact hmsg _ _ _
  · exact hmsg _ _ _
  · simp only [FOtelHistogram.RecordDouble, hmsg, hmsg2]

/-- C13 at a concrete meter: the meter `exNoMeter` with no SDK meter and the type
`Int64`. -/
theorem C13_noop_instruments_check_type_only_witness :
    exNoMeter.CreateCounter EOtelInstrumentType.Int64 "c" "ms" =
      (FOtelCounter.Noop EOtelInstrumentType.Int64, []) ∧
    exNoMeter.CreateGauge EOtelInstrumentType.Int64 "c" "ms" =
      (FOtelGauge.Noop EOtelInstrumentType.Int64, []) ∧
    exNoMeter.CreateHistogram EOtelInstrumentType.Int64 (some "c")
      (FOtelHistogramBuckets.FromDouble [exTwo]) "ms" =
      some (FOtelHistogram.Noop EOtelInstrumentType.Int64, []) ∧
    ((FOtelCounter.Noop EOtelInstrumentType.Int64).AddUInt64 5 exAttributes Sink.empty).Sdk =
      Sink.empty.Sdk ∧
    ((FOtelCounter.Noop EOtelInstrumentType.Int64).AddDouble exTwo exAttributes Sink.empty).Sdk =
      Sink.empty.Sdk ∧
    ((FOtelGauge.Noop EOtelInstrumentType.Int64).ObserveInt64 (-3) exAttributes
      Sink.empty).2.Sdk = Sink.empty.Sdk ∧
    ((FOtelGauge.Noop EOtelInstrumentType.Int64).ObserveDouble exTwo exAttributes
      Sink.empty).2.Sdk = Sink.empty.Sdk ∧
    ((FOtelGauge.Noop EOtelInstrumentType.Int64).ObserveInt64 (-3) exAttributes
      Sink.empty).1 = FOtelGauge.Noop EOtelInstrumentType.Int64 ∧
    ((FOtelGauge.Noop EOtelInstrumentType.Int64).ObserveDouble exTwo exAttributes
      Sink.empty).1 = FOtelGauge.Noop EOtelInstrumentType.Int64 ∧
    ((FOtelGauge.Noop EOtelInstrumentType.Int64).OtelCallback Sink.empty) = Sink.empty ∧
    ((FOtelHistogram.Noop EOtelInstrumentType.Int64).RecordUInt64 5 exAttributes
      Sink.empty).Sdk = Sink.empty.Sdk ∧
    ((FOtelHistogram.Noop EOtelInstrumentType.Int64).RecordDouble exTwo exAttributes
      Sink.empty).Sdk = Sink.empty.Sdk ∧
    ((FOtelCounter.Noop EOtelInstrumentType.Int64).AddUInt64 5 exAttributes
      Sink.empty).EnsureMsgs = Sink.empty.EnsureMsgs +
        (if EOtelInstrumentType.Int64 = EOtelInstrumentType.Int64 then 0 else 1) ∧
    ((FOtelCounter.Noop EOtelInstrumentType.Int64).AddDouble exTwo exAttributes
      Sink.empty).EnsureMsgs = Sink.empty.EnsureMsgs +
        (if EOtelInstrumentType.Int64 = EOtelInstrumentType.Double then 0 else 1) ∧
    ((FOtelGauge.Noop EOtelInstrumentType.Int64).ObserveInt64 (-3) exAttributes
      Sink.empty).2.EnsureMsgs = Sink.empty.EnsureMsgs +
        (if EOtelInstrumentType.Int64 = EOtelInstrumentType.Int64 then 0 else 1) ∧
    ((FOtelGauge.Noop EOtelInstrumentType.Int64).ObserveDouble exTwo exAttributes
      Sink.empty).2.EnsureMsgs = Sink.empty.EnsureMsgs +
        (if EOtelInstrumentType.Int64 = EOtelInstrumentType.Double then 0 else 1) ∧
    ((FOtelHistogram.Noop EOtelInstrumentType.Int64).RecordUInt64 5 exAttributes
      Sink.empty).EnsureMsgs = Sink.empty.EnsureMsgs +
        (if EOtelInstrumentType.Int64 = EOtelInstrumentType.Int64 then 0 else 1) ∧
    ((FOtelHistogram.Noop EOtelInstrumentType.Int64).RecordDouble exTwo exAttributes
      Sink.empty).EnsureMsgs = Sink.empty.EnsureMsgs +
        (if EOtelInstrumentType.Int64 = EOtelInstrumentType.Double then 0 else 1) :=
  C13_noop_instruments_check_type_only exNoMeter rfl EOtelInstrumentType.Int64 "c" "ms"
    (FOtelHistogramBuckets.FromDouble [exTwo]) 5 (-3) exTwo exAttributes Sink.empty

/-- C14: on an active `Double` counter or histogram, a `double` value `n` with `n < 0.0`
is not handed to the SDK and makes `ensure(Value >= 0.0)` fail once, which is not
fatal (the call returns); a value `p` with `p >= 0.0` is handed to the SDK exactly
once, unchanged and with the attributes, with no failed `ensure`. -/
theorem C14_negative_values_are_dropped (n p : Otel.Double) (hn : n.ltZero = true)
    (hp : p.geZero = true) (Attributes : List FAnalyticsEventAttribute) (k : Sink) :
    FOtelCounter.Double.AddDouble n Attributes k = { k with Ensures := k.Ensures + 1 } ∧
    FOtelHistogram.Double.RecordDouble n Attributes k = { k with Ensures := k.Ensures + 1 } ∧
    FOtelCounter.Double.AddDouble p Attributes k =
      { k with Sdk := k.Sdk ++ [⟨Number.Double p, EventAttributesOtelConverter.ctor Attributes⟩] } ∧
    FOtelHistogram.Double.RecordDouble p Attributes k =
      { k with Sdk := k.Sdk ++ [⟨Number.Double p, EventAttributesOtelConverter.ctor Attributes⟩] } := by
  have hn2 := Double.geZero_of_ltZero n hn
  refine ⟨?_, ?_, ?_, ?_⟩
  · simp [FOtelCounter.AddDouble, hn2]
  · simp [FOtelHistogram.RecordDouble, hn2]
  · simp [FOtelCounter.AddDouble, hp, Sink.forward]
  · simp [FOtelHistogram.RecordDouble, hp, Sink.forward]

/-- C14 at concrete values: -1.0 and 2.0. -/
theorem C14_negative_values_are_dropped_witness :
    FOtelCounter.Double.AddDouble exMinusOne exAttributes Sink.empty =
      { Sink.empty with Ensures := Sink.empty.Ensures + 1 } ∧
    FOtelHistogram.Double.RecordDouble exMinusOne exAttributes Sink.empty =
      { Sink.empty with Ensures := Sink.empty.Ensures + 1 } ∧
    FOtelCounter.Double.AddDouble exTwo exAttributes Sink.empty =
      { Sink.empty with Sdk := Sink.empty.Sdk ++
          [⟨Number.Double exTwo, EventAttributesOtelConverter.ctor exAttributes⟩] } ∧
    FOtelHistogram.Double.RecordDouble exTwo exAttributes Sink.empty =
      { Sink.empty with Sdk := Sink.empty.Sdk ++
          [⟨Number.Double exTwo, EventAttributesOtelConverter.ctor exAttributes⟩] } :=
  C14_negative_values_are_dropped exMinusOne exTwo (by decide) (by decide) exAttributes
    Sink.empty

theorem OtelCallback_Sdk (G : FOtelGauge) (k : Sink) :
    (G.OtelCallback k).Sdk = k.Sdk ++ G.Last.toList := by
  cases G with
  | Int64 g =>
    cases h : g.LastObserved <;> simp [FOtelGauge.OtelCallback, FOtelGauge.Last, h, Sink.forward]
  | Double g =>
    cases h : g.LastObserved <;> simp [FOtelGauge.OtelCallback, FOtelGauge.Last, h, Sink.forward]
  | Noop T => simp [FOtelGauge.OtelCallback, FOtelGauge.Last]

theorem Observe_step (G : FOtelGauge) (T : EOtelInstrumentType) (hT : G.Declared = some T)
    (o : Observation) (k : Sink) :
    (G.Observe o k).1.Declared = some T ∧ (G.Observe o k).2.Sdk = k.Sdk ∧
      (G.Observe o k).1.Last =
        (match o.ofType T with
        | some m => some m
        | none => G.Last) := by
  cases G with
  | Int64 g =>
    have e : T = EOtelInstrumentType.Int64 := by
      simp [FOtelGauge.Declared] at hT
      exact hT.symm
    subst e
    cases o with
    | Int64 v a =>
      simp [FOtelGauge.Observe, FOtelGauge.ObserveInt64, FOtelGauge.Declared, FOtelGauge.Last,
        TOtelGauge.ObserveInternal, Observation.ofType]
    | Double v a =>
      simp [FOtelGauge.Observe, FOtelGauge.ObserveDouble, FOtelGauge.Declared, FOtelGauge.Last,
        Observation.ofType, Sink.warn]
  | Double g =>
    have e : T = EOtelInstrumentType.Double := by
      simp [FOtelGauge.Declared] at hT
      exact hT.symm
    subst e
    cases o with
    | Int64 v a =>
      simp [FOtelGauge.Observe, FOtelGauge.ObserveInt64, FOtelGauge.Declared, FOtelGauge.Last,
        Observation.ofType, Sink.warn]
    | Double v a =>
      simp [FOtelGauge.Observe, FOtelGauge.ObserveDouble, FOtelGauge.Declared, FOtelGauge.Last,
        TOtelGauge.ObserveInternal, Observation.ofType]
  | Noop U => simp [FOtelGauge.Declared] at hT

theorem ObserveAll_append (G : FOtelGauge) (l1 l2 : List Observation) (k : Sink) :
    G.ObserveAll (l1 ++ l2) k =
      (G.ObserveAll l1 k).1.ObserveAll l2 (G.ObserveAll l1 k).2 := by
  induction l1 generalizing G k with
  | nil => rfl
  | cons o rest ih => simp [FOtelGauge.ObserveAll, ih]

theorem ObserveAll_declared (G : FOtelGauge) (T : EOtelInstrumentType)
    (hT : G.Declared = some T) (obs : List Observation) (k : Sink) :
    (G.ObserveAll obs k).1.Declared = some T ∧ (G.ObserveAll obs k).2.Sdk = k.Sdk := by
  induction obs generalizing G k with
  | nil => exact ⟨hT, rfl⟩
  | cons o rest ih =>
    obtain ⟨h1, h2, _⟩ := Observe_step G T hT o k
    obtain ⟨h3, h4⟩ := ih (G.Observe o k).1 h1 (G.Observe o k).2
    exact ⟨h3, by rw [← h2]; exact h4⟩

theorem ObserveAll_none (G : FOtelGauge) (T : EOtelInstrumentType) (hT : G.Declared = some T)
    (obs : List Observation) (hno : ∀ o ∈ obs, o.ofType T = none) (k : Sink) :
    (G.ObserveAll obs k).1.Last = G.Last := by
  induction obs generalizing G k with
  | nil => rfl
  | cons o rest ih =>
    obtain ⟨h1, _, h3⟩ := Observe_step G T hT o k
    have ho : o.ofType T = none := hno o (by simp)
    rw [ho] at h3
    have := ih (G.Observe o k).1 h1 (fun x hx => hno x (by simp [hx])) (G.Observe o k).2
    simp only [FOtelGauge.ObserveAll]
    rw [this, h3]

/-- C15: for a gauge that `CreateGauge` made on a meter with an SDK meter, declared of
type `T`, and any sequence `obs` of `Observe` calls on it: the calls themselves hand
nothing to the SDK; when `last` is the last call of the sequence whose overload is the
one of `T` (no call after it is), the export callback reports exactly one
observation, the value and the attributes of `last`; when no call of the sequence
has the overload of `T`, the callback reports nothing. -/
theorem C15_gauge_reports_last_observation (M : FOtelMeter) (m : Nat)
    (hM : M.OtelMeter = some m) (T : EOtelInstrumentType) (Name UnitTypeStr : String)
    (obs : List Observation) (k k2 : Sink) :
    (((M.CreateGauge T Name UnitTypeStr).1.ObserveAll obs k).2.Sdk = k.Sdk) ∧
    (∀ pre last post meas, obs = pre ++ last :: post → last.ofType T = some meas →
      (∀ o ∈ post, o.ofType T = none) →
      (((M.CreateGauge T Name UnitTypeStr).1.ObserveAll obs k).1.OtelCallback k2).Sdk =
        k2.Sdk ++ [meas]) ∧
    ((∀ o ∈ obs, o.ofType T = none) →
      (((M.CreateGauge T Name UnitTypeStr).1.ObserveAll obs k).1.OtelCallback k2).Sdk =
        k2.Sdk) := by
  have hD : (M.CreateGauge T Name UnitTypeStr).1.Declared = some T := by
    cases T <;> simp [FOtelMeter.CreateGauge, hM, FOtelGauge.Declared]
  have hL : (M.CreateGauge T Name UnitTypeStr).1.Last = none := by
    cases T <;> simp [FOtelMeter.CreateGauge, hM, FOtelGauge.Last]
  refine ⟨(ObserveAll_declared _ T hD obs k).2, ?_, ?_⟩
  · intro pre last post meas hobs hlast hpost
    rw [OtelCallback_Sdk, hobs, ObserveAll_append]
    have h1 := (ObserveAll_declared _ T hD pre k).1
    obtain ⟨s1, _, s3⟩ := Observe_step _ T h1 last
      ((M.CreateGauge T Name UnitTypeStr).1.ObserveAll pre k).2
    rw [hlast] at s3
    have h3 := ObserveAll_none _ T s1 post hpost
      ((((M.CreateGauge T Name UnitTypeStr).1.ObserveAll pre k).1.Observe last
        ((M.CreateGauge T Name UnitTypeStr).1.ObserveAll pre k).2).2)
    simp only [FOtelGauge.ObserveAll]
    rw [h3, s3]
    rfl
  · intro hno
    rw [OtelCallback_Sdk, ObserveAll_none _ T hD obs hno k, hL]
    simp

/-- C15 at a concrete run: an `Int64` gauge that observes 4, then a `double`, then 9. -/
theorem C15_gauge_reports_last_observation_witness :
    (((exMeter.CreateGauge EOtelInstrumentType.Int64 "g" "").1.ObserveAll exObservations
      Sink.empty).2.Sdk = Sink.empty.Sdk) ∧
    (∀ pre last post meas, exObservations = pre ++ last :: post →
      last.ofType EOtelInstrumentType.Int64 = some meas →
      (∀ o ∈ post, o.ofType EOtelInstrumentType.Int64 = none) →
      (((exMeter.CreateGauge EOtelInstrumentType.Int64 "g" "").1.ObserveAll exObservations
        Sink.empty).1.OtelCallback Sink.empty).Sdk = Sink.empty.Sdk ++ [meas]) ∧
    ((∀ o ∈ exObservations, o.ofType EOtelInstrumentType.Int64 = none) →
      (((exMeter.CreateGauge EOtelInstrumentType.Int64 "g" "").1.ObserveAll exObservations
        Sink.empty).1.OtelCallback Sink.empty).Sdk = Sink.empty.Sdk) :=
  C15_gauge_reports_last_observation exMeter 1 rfl EOtelInstrumentType.Int64 "g" ""
    exObservations Sink.empty Sink.empty

/-! ## The log router -/

theorem IsAllowed_iff (R : FTracerRouting) (Verbosity : Nat) (Category : FName)
    (hV : Verbosity ≠ ELogVerbosity.NoLogging) :
    FOtelOutputDevice.IsAllowed R Verbosity Category = true ↔
      ((R.AllCategoryVerbosity ≠ ELogVerbosity.NoLogging ∧ Verbosity ≤ R.AllCategoryVerbosity) ∨
        (match TMap.Find R.CategoryVerbosity Category with
        | some threshold => Verbosity ≤ threshold
        | none => False)) := by
  unfold FOtelOutputDevice.IsAllowed
  have h0 : ELogVerbosity.NoLogging = 0 := rfl
  rw [h0] at hV ⊢
  cases hf : TMap.Find R.CategoryVerbosity Category with
  | none => simp
  | some th =>
    simp only [Bool.or_eq_true, Bool.and_eq_true, decide_eq_true_eq]
    constructor
    · rintro (h | ⟨_, h⟩)
      · exact Or.inl h
      · exact Or.inr h
    · rintro (h | h)
      · exact Or.inl h
      · refine Or.inr ⟨?_, h⟩
        intro e
        rw [e] at h
        exact hV (Nat.le_zero.mp h)

theorem filter_key_of_nodup {V : Type} (m : List (FName × V))
    (hnd : (m.map Prod.fst).Nodup) (T : FName) :
    m.filter (fun Pair => decide (Pair.1 = T)) =
      (match TMap.Find m T with
      | some R => [(T, R)]
      | none => []) := by
  induction m with
  | nil => rfl
  | cons kv rest ih =>
    obtain ⟨k1, v1⟩ := kv
    simp only [List.map_cons, List.nodup_cons] at hnd
    have ih1 := ih hnd.2
    by_cases h : k1 = T
    · subst h
      have hnot : ∀ Pair ∈ rest, ¬ (Pair.1 = k1) := by
        intro Pair hP e
        exact hnd.1 (e ▸ List.mem_map_of_mem Prod.fst hP)
      have hrest : rest.filter (fun Pair => decide (Pair.1 = k1)) = [] := by
        rw [List.filter_eq_nil_iff]
        intro Pair hP
        simpa using hnot Pair hP
      simp [List.filter, TMap.Find, hrest]
    · simp [List.filter, TMap.Find, h, ih1]

/-- C16: for a routing table (a map: no tracer name twice), a text that is not empty, a
verbosity other than `NoLogging` and a category, `Serialize` makes its `EmitLog`
calls, and among them exactly one call for tracer `T`, carrying the message, when
`T` has a matching rule, and none for `T` otherwise; for a null or empty text, or
the verbosity `NoLogging`, it makes no call at all and leaves the state as it is. -/
theorem C16_route_emits_once_per_matching_tracer (X : External)
    (TracerLogging : FLogRoutingData) (hmap : (TracerLogging.map Prod.fst).Nodup)
    (V : String) (hV : V ≠ "") (Verbosity : Nat) (hVerb : Verbosity ≠ ELogVerbosity.NoLogging)
    (Category T : FName) (w : World) :
    FOtelOutputDevice.Serialize X TracerLogging (some V) Verbosity Category w =
      FOtelModule.EmitLogs X
        (FOtelOutputDevice.SerializeCalls X TracerLogging (some V) Verbosity Category) w ∧
    (FOtelOutputDevice.RuleMatches TracerLogging T Verbosity Category →
      (FOtelOutputDevice.SerializeCalls X TracerLogging (some V) Verbosity Category).filter
        (fun c => decide (c.TracerName = T)) =
        [FOtelOutputDevice.MakeCall X V Verbosity Category T]) ∧
    (¬ FOtelOutputDevice.RuleMatches TracerLogging T Verbosity Category →
      (FOtelOutputDevice.SerializeCalls X TracerLogging (some V) Verbosity Category).filter
        (fun c => decide (c.TracerName = T)) = []) ∧
    (FOtelOutputDevice.MakeCall X V Verbosity Category T).Message =
      X.NameToString Category ++ ": " ++ X.VerbosityToString Verbosity ++ ": " ++ V ∧
    FOtelOutputDevice.SerializeCalls X TracerLogging none Verbosity Category = [] ∧
    FOtelOutputDevice.SerializeCalls X TracerLogging (some "") Verbosity Category = [] ∧
    FOtelOutputDevice.SerializeCalls X TracerLogging (some V) ELogVerbosity.NoLogging
      Category = [] ∧
    FOtelOutputDevice.Serialize X TracerLogging none Verbosity Category w = some w ∧
    FOtelOutputDevice.Serialize X TracerLogging (some "") Verbosity Category w = some w ∧
    FOtelOutputDevice.Serialize X TracerLogging (some V) ELogVerbosity.NoLogging Category w =
      some w := by
  have hcalls : (FOtelOutputDevice.SerializeCalls X TracerLogging (some V) Verbosity
      Category).filter (fun c => decide (c.TracerName = T)) =
      ((TracerLogging.filter (fun Pair => decide (Pair.1 = T))).filter
        (fun Pair : FName × FTracerRouting =>
          FOtelOutputDevice.IsAllowed Pair.2 Verbosity Category)).map
        (fun Pair : FName × FTracerRouting =>
          FOtelOutputDevice.MakeCall X V Verbosity Category Pair.1) := by
    simp only [FOtelOutputDevice.SerializeCalls, hV, hVerb, or_self, if_false,
      List.filter_map, List.filter_filter]
    congr 1
    apply List.filter_congr
    intro Pair _
    simp [FOtelOutputDevice.MakeCall, Bool.and_comm]
  refine ⟨rfl, ?_, ?_, rfl, rfl, ?_, ?_, rfl, ?_, ?_⟩
  · intro hm
    rw [hcalls, filter_key_of_nodup TracerLogging hmap T]
    unfold FOtelOutputDevice.RuleMatches at hm
    cases hf : TMap.Find TracerLogging T with
    | none => simp [hf] at hm
    | some R =>
      rw [hf] at hm
      have ha := (IsAllowed_iff R Verbosity Category hVerb).mpr hm
      simp [List.filter, ha]
  · intro hm
    rw [hcalls, filter_key_of_nodup TracerLogging hmap T]
    unfold FOtelOutputDevice.RuleMatches at hm
    cases hf : TMap.Find TracerLogging T with
    | none => simp
    | some R =>
      rw [hf] at hm
      have ha : FOtelOutputDevice.IsAllowed R Verbosity Category = false := by
        cases hb : FOtelOutputDevice.IsAllowed R Verbosity Category with
        | false => rfl
        | true => exact absurd ((IsAllowed_iff R Verbosity Category hVerb).mp hb) hm
      simp [List.filter, ha]
  · simp [FOtelOutputDevice.SerializeCalls]
  · simp [FOtelOutputDevice.SerializeCalls]
  · simp [FOtelOutputDevice.Serialize, FOtelOutputDevice.SerializeCalls, FOtelModule.EmitLogs]
  · simp [FOtelOutputDevice.Serialize, FOtelOutputDevice.SerializeCalls, FOtelModule.EmitLogs]

/-- C16 at a concrete table: the line `x` of category 20 at `Error` and tracer 7 of
`exRouting`. -/
theorem C16_route_emits_once_per_matching_tracer_witness :
    FOtelOutputDevice.Serialize exExternal exRouting (some "x") ELogVerbosity.Error 20 exThree =
      FOtelModule.EmitLogs exExternal
        (FOtelOutputDevice.SerializeCalls exExternal exRouting (some "x") ELogVerbosity.Error 20)
        exThree ∧
    (FOtelOutputDevice.RuleMatches exRouting 7 ELogVerbosity.Error 20 →
      (FOtelOutputDevice.SerializeCalls exExternal exRouting (some "x") ELogVerbosity.Error
        20).filter (fun c => decide (c.TracerName = 7)) =
        [FOtelOutputDevice.MakeCall exExternal "x" ELogVerbosity.Error 20 7]) ∧
    (¬ FOtelOutputDevice.RuleMatches exRouting 7 ELogVerbosity.Error 20 →
      (FOtelOutputDevice.SerializeCalls exExternal exRouting (some "x") ELogVerbosity.Error
        20).filter (fun c => decide (c.TracerName = 7)) = []) ∧
    (FOtelOutputDevice.MakeCall exExternal "x" ELogVerbosity.Error 20 7).Message =
      exExternal.NameToString 20 ++ ": " ++ exExternal.VerbosityToString ELogVerbosity.Error ++
        ": " ++ "x" ∧
    FOtelOutputDevice.SerializeCalls exExternal exRouting none ELogVerbosity.Error 20 = [] ∧
    FOtelOutputDevice.SerializeCalls exExternal exRouting (some "") ELogVerbosity.Error 20 = [] ∧
    FOtelOutputDevice.SerializeCalls exExternal exRouting (some "x") ELogVerbosity.NoLogging
      20 = [] ∧
    FOtelOutputDevice.Serialize exExternal exRouting none ELogVerbosity.Error 20 exThree =
      some exThree ∧
    FOtelOutputDevice.Serialize exExternal exRouting (some "") ELogVerbosity.Error 20 exThree =
      some exThree ∧
    FOtelOutputDevice.Serialize exExternal exRouting (some "x") ELogVerbosity.NoLogging 20
      exThree = some exThree :=
  C16_route_emits_once_per_matching_tracer exExternal exRouting (by decide) "x" (by decide)
    ELogVerbosity.Error (by decide) 20 7 exThree

/-! ## EmitLog and the spans -/

theorem Scopes_setScopes_same (w : World) (T n : FName) :
    (w.setScopes T (w.Scopes T)).Scopes n = w.Scopes n := by
  unfold World.Scopes World.setScopes World.Get
  dsimp only
  by_cases h : T = n
  · subst h
    rw [TMap.Find_Add_self]
  · rw [TMap.Find_Add_ne _ _ _ _ (Ne.symm h)]

theorem ForEachKeyValue_ctor {σ : Type} (Attributes : List FAnalyticsEventAttribute)
    (Callback : String → AttributeValue → σ → Bool × σ) (st : σ) :
    ∃ r, (EventAttributesOtelConverter.ctor Attributes).ForEachKeyValue Callback st = some r := by
  unfold EventAttributesOtelConverter.ForEachKeyValue EventAttributesOtelConverter.ctor
  dsimp only
  split
  · exact ⟨_, rfl⟩
  · exact ⟨_, rfl⟩

theorem EmitLogSpan_spec (X : External) (c : EmitLogCall) (w : World) :
    (FOtelModule.EmitLogSpan X c.Message c.Attributes c.TracerName c.Status w).2.SdkLog =
      w.SdkLog ++ c.SpanCalls w ∧
    (FOtelModule.EmitLogSpan X c.Message c.Attributes c.TracerName c.Status w).2.Heap = w.Heap ∧
    (∀ n, (FOtelModule.EmitLogSpan X c.Message c.Attributes c.TracerName c.Status w).2.Scopes n =
      w.Scopes n) := by
  have hS := Scopes_setScopes_same w c.TracerName
  have hH : (w.setScopes c.TracerName (w.Scopes c.TracerName)).Heap = w.Heap := rfl
  have hL : (w.setScopes c.TracerName (w.Scopes c.TracerName)).SdkLog = w.SdkLog := rfl
  unfold FOtelModule.EmitLogSpan EmitLogCall.SpanCalls World.TopSpan spanAt
  dsimp only
  cases hq : (w.Scopes c.TracerName).getLast? with
  | none => exact ⟨by simp [hL], hH, hS⟩
  | some q =>
    dsimp only
    rw [hH]
    cases hi : w.Heap[q]? with
    | none => exact ⟨by simp [hL], hH, hS⟩
    | some impl =>
      dsimp only
      cases hs : impl.Span.OtelSpan with
      | none =>
        cases hst : c.Status with
        | none => simp [FOtelSpan.AddEvent, FOtelSpan.SetStatus, hs, hL, hH, hS]
        | some st =>
          cases st <;> simp [FOtelSpan.AddEvent, FOtelSpan.SetStatus, hs, hL, hH, hS]
      | some s =>
        cases hst : c.Status with
        | none =>
          refine ⟨by simp [FOtelSpan.AddEvent, FOtelSpan.SetStatus, hs, hL], ?_, ?_⟩
          · simp [FOtelSpan.AddEvent, hs, hH]
          · intro n
            rw [← hS n]
            simp [FOtelSpan.AddEvent, hs, World.Scopes, World.Get]
        | some st =>
          cases st
          · refine ⟨by simp [FOtelSpan.AddEvent, FOtelSpan.SetStatus, hs, hL], ?_, ?_⟩
            · simp [FOtelSpan.AddEvent, hs, hH]
            · intro n
              rw [← hS n]
              simp [FOtelSpan.AddEvent, hs, World.Scopes, World.Get]
          · refine ⟨by simp [FOtelSpan.AddEvent, FOtelSpan.SetStatus, hs, hL], ?_, ?_⟩
            · simp [FOtelSpan.AddEvent, FOtelSpan.SetStatus, hs, hH]
            · intro n
              rw [← hS n]
              simp [FOtelSpan.AddEvent, FOtelSpan.SetStatus, hs, World.Scopes, World.Get]

theorem EmitLog_spec (X : External) (c : EmitLogCall) (w : World) :
    ∃ w1, FOtelModule.EmitLog X c.Message c.Attributes c.File c.LineNumber c.TracerName
        c.Status w = some w1 ∧
      w1.SdkLog = w.SdkLog ++ c.SpanCalls w ∧ w1.Heap = w.Heap ∧
      ∀ n, w1.Scopes n = w.Scopes n := by
  obtain ⟨h1, h2, h3⟩ := EmitLogSpan_spec X c w
  unfold FOtelModule.EmitLog
  dsimp only
  split
  · obtain ⟨r, hr⟩ := ForEachKeyValue_ctor c.Attributes
      (fun Name Value (Record : LogRecord) =>
        (true, { Record with Attributes := Record.Attributes ++ [(Name, Value)] }))
      { TracerName := c.TracerName,
        Severity := if c.Status = some EOtelStatus.Error then Severity.kError else Severity.kInfo,
        Body := c.Message, Attributes := [], Context := none }
    rw [hr]
    exact ⟨_, rfl, h1, h2, h3⟩
  · exact ⟨_, rfl, h1, h2, h3⟩

theorem SpanCalls_congr (c : EmitLogCall) (w w1 : World) (hH : w1.Heap = w.Heap)
    (hS : ∀ n, w1.Scopes n = w.Scopes n) : c.SpanCalls w1 = c.SpanCalls w := by
  unfold EmitLogCall.SpanCalls World.TopSpan
  rw [hS, hH]

theorem EmitLogs_spec (X : External) (calls : List EmitLogCall) (w : World) :
    ∃ w1, FOtelModule.EmitLogs X calls w = some w1 ∧
      w1.SdkLog = w.SdkLog ++ calls.flatMap (fun c => c.SpanCalls w) ∧ w1.Heap = w.Heap ∧
      ∀ n, w1.Scopes n = w.Scopes n := by
  induction calls generalizing w with
  | nil => exact ⟨w, rfl, by simp, rfl, fun _ => rfl⟩
  | cons c rest ih =>
    obtain ⟨w1, he, hl, hh, hs⟩ := EmitLog_spec X c w
    obtain ⟨w2, he2, hl2, hh2, hs2⟩ := ih w1
    refine ⟨w2, ?_, ?_, hh2.trans hh, fun n => (hs2 n).trans (hs n)⟩
    · simp only [FOtelModule.EmitLogs, he, he2]
    · rw [hl2, hl, List.flatMap_cons, List.append_assoc]
      congr 2
      apply List.flatMap_congr
      intro c2 _
      exact SpanCalls_congr c2 w w1 hh hs

/-! ## Routed lines and the status of the span -/

theorem SerializeCalls_mem (X : External) (TracerLogging : FLogRoutingData) (V : String)
    (hV : V ≠ "") (Verbosity : Nat) (hVerb : Verbosity ≠ ELogVerbosity.NoLogging)
    (Category T : FName)
    (hm : FOtelOutputDevice.RuleMatches TracerLogging T Verbosity Category) :
    FOtelOutputDevice.MakeCall X V Verbosity Category T ∈
      FOtelOutputDevice.SerializeCalls X TracerLogging (some V) Verbosity Category := by
  unfold FOtelOutputDevice.RuleMatches at hm
  cases hf : TMap.Find TracerLogging T with
  | none => simp [hf] at hm
  | some R =>
    rw [hf] at hm
    have ha := (IsAllowed_iff R Verbosity Category hVerb).mpr hm
    have hmem := TMap.mem_of_Find TracerLogging T R hf
    simp only [FOtelOutputDevice.SerializeCalls, hV, hVerb, or_self, if_false, List.mem_map,
      List.mem_filter]
    exact ⟨(T, R), ⟨hmem, ha⟩, rfl⟩

theorem SerializeCalls_status (X : External) (TracerLogging : FLogRoutingData)
    (V : Option String) (Verbosity : Nat) (Category : FName) (c : EmitLogCall)
    (hc : c ∈ FOtelOutputDevice.SerializeCalls X TracerLogging V Verbosity Category) :
    c.Status = if ELogVerbosity.Warning < Verbosity then none else some EOtelStatus.Error := by
  unfold FOtelOutputDevice.SerializeCalls at hc
  cases V with
  | none => simp at hc
  | some V =>
    dsimp only at hc
    split at hc
    · simp at hc
    · simp only [List.mem_map] at hc
      obtain ⟨Pair, _, rfl⟩ := hc
      rfl

theorem SpanCalls_setStatus (c : EmitLogCall) (w : World) (s : Nat) (st : EOtelStatus)
    (h : SdkCall.SetStatus s st ∈ c.SpanCalls w) : c.Status = some EOtelStatus.Error := by
  unfold EmitLogCall.SpanCalls at h
  cases ht : w.TopSpan c.TracerName with
  | none => simp [ht] at h
  | some s1 =>
    rw [ht] at h
    dsimp only at h
    by_cases hs : c.Status = some EOtelStatus.Error
    · exact hs
    · simp [hs] at h

theorem Serialize_routed (X : External) (TracerLogging : FLogRoutingData) (V : String)
    (hV : V ≠ "") (Verbosity : Nat) (hVerb : Verbosity ≠ ELogVerbosity.NoLogging)
    (Category T : FName) (w : World) (s : Nat) (hTop : w.TopSpan T = some s)
    (hm : FOtelOutputDevice.RuleMatches TracerLogging T Verbosity Category) :
    ∃ w1, FOtelOutputDevice.Serialize X TracerLogging (some V) Verbosity Category w = some w1 ∧
      ∃ new, w1.SdkLog = w.SdkLog ++ new ∧
        SdkCall.AddEvent s (FOtelOutputDevice.MakeCall X V Verbosity Category T).Message
          (EventAttributesOtelConverter.ctor []) ∈ new ∧
        (Verbosity ≤ ELogVerbosity.Warning → SdkCall.SetStatus s EOtelStatus.Error ∈ new) ∧
        (ELogVerbosity.Warning < Verbosity → ∀ s1 st, SdkCall.SetStatus s1 st ∉ new) := by
  obtain ⟨w1, he, hl, _, _⟩ := EmitLogs_spec X
    (FOtelOutputDevice.SerializeCalls X TracerLogging (some V) Verbosity Category) w
  have hmem := SerializeCalls_mem X TracerLogging V hV Verbosity hVerb Category T hm
  have hcalls : (FOtelOutputDevice.MakeCall X V Verbosity Category T).SpanCalls w =
      SdkCall.AddEvent s (FOtelOutputDevice.MakeCall X V Verbosity Category T).Message
          (EventAttributesOtelConverter.ctor []) ::
        (if (FOtelOutputDevice.MakeCall X V Verbosity Category T).Status =
            some EOtelStatus.Error then [SdkCall.SetStatus s EOtelStatus.Error] else []) := by
    have hT : (FOtelOutputDevice.MakeCall X V Verbosity Category T).TracerName = T := rfl
    unfold EmitLogCall.SpanCalls
    rw [hT, hTop]
    rfl
  refine ⟨w1, he, _, hl, ?_, ?_, ?_⟩
  · rw [List.mem_flatMap]
    exact ⟨_, hmem, by rw [hcalls]; exact List.mem_cons_self _ _⟩
  · intro hle
    rw [List.mem_flatMap]
    refine ⟨_, hmem, ?_⟩
    rw [hcalls]
    have hst : (FOtelOutputDevice.MakeCall X V Verbosity Category T).Status =
        some EOtelStatus.Error := by
      simp [FOtelOutputDevice.MakeCall, Nat.not_lt.mpr hle]
    rw [if_pos hst]
    simp
  · intro hlt s1 st hin
    rw [List.mem_flatMap] at hin
    obtain ⟨c, hc, hin⟩ := hin
    have h1 := SpanCalls_setStatus c w s1 st hin
    have h2 := SerializeCalls_status X TracerLogging (some V) Verbosity Category c hc
    rw [if_pos hlt] at h2
    rw [h2] at h1
    cases h1

/-- C17: a line at `Error` that is routed to a tracer whose stack has an open span on top
makes `Serialize` return with the event added to that span and `SetStatus(Error)`
called on it; a line at `Log` routed to the same tracer makes it return with the
event added to that span and no `SetStatus` call on any span. -/
theorem C17_error_line_sets_status_log_line_does_not (X : External)
    (TracerLogging : FLogRoutingData) (V : String) (hV : V ≠ "") (Category T : FName)
    (w : World) (s : Nat) (hTop : w.TopSpan T = some s)
    (hErr : FOtelOutputDevice.RuleMatches TracerLogging T ELogVerbosity.Error Category)
    (hLog : FOtelOutputDevice.RuleMatches TracerLogging T ELogVerbosity.Log Category) :
    (∃ w1, FOtelOutputDevice.Serialize X TracerLogging (some V) ELogVerbosity.Error Category w =
        some w1 ∧
      ∃ new, w1.SdkLog = w.SdkLog ++ new ∧
        SdkCall.AddEvent s
          (FOtelOutputDevice.MakeCall X V ELogVerbosity.Error Category T).Message
          (EventAttributesOtelConverter.ctor []) ∈ new ∧
        SdkCall.SetStatus s EOtelStatus.Error ∈ new) ∧
    (∃ w2, FOtelOutputDevice.Serialize X TracerLogging (some V) ELogVerbosity.Log Category w =
        some w2 ∧
      ∃ new, w2.SdkLog = w.SdkLog ++ new ∧
        SdkCall.AddEvent s
          (FOtelOutputDevice.MakeCall X V ELogVerbosity.Log Category T).Message
          (EventAttributesOtelConverter.ctor []) ∈ new ∧
        ∀ s1 st, SdkCall.SetStatus s1 st ∉ new) := by
  obtain ⟨w1, he1, new1, hl1, ha1, hs1, _⟩ := Serialize_routed X TracerLogging V hV
    ELogVerbosity.Error (by decide) Category T w s hTop hErr
  obtain ⟨w2, he2, new2, hl2, ha2, _, hn2⟩ := Serialize_routed X TracerLogging V hV
    ELogVerbosity.Log (by decide) Category T w s hTop hLog
  exact ⟨⟨w1, he1, new1, hl1, ha1, hs1 (by decide)⟩, ⟨w2, he2, new2, hl2, ha2, hn2 (by decide)⟩⟩

/-- C17 at a concrete state: the line `x` of category 20 with the table `exRoutingLog`
in the state `exThree`, where span 102 is on top of the stack of tracer 7. -/
theorem C17_error_line_sets_status_log_line_does_not_witness :
    (∃ w1, FOtelOutputDevice.Serialize exExternal exRoutingLog (some "x") ELogVerbosity.Error 20
        exThree = some w1 ∧
      ∃ new, w1.SdkLog = exThree.SdkLog ++ new ∧
        SdkCall.AddEvent 102
          (FOtelOutputDevice.MakeCall exExternal "x" ELogVerbosity.Error 20 7).Message
          (EventAttributesOtelConverter.ctor []) ∈ new ∧
        SdkCall.SetStatus 102 EOtelStatus.Error ∈ new) ∧
    (∃ w2, FOtelOutputDevice.Serialize exExternal exRoutingLog (some "x") ELogVerbosity.Log 20
        exThree = some w2 ∧
      ∃ new, w2.SdkLog = exThree.SdkLog ++ new ∧
        SdkCall.AddEvent 102
          (FOtelOutputDevice.MakeCall exExternal "x" ELogVerbosity.Log 20 7).Message
          (EventAttributesOtelConverter.ctor []) ∈ new ∧
        ∀ s1 st, SdkCall.SetStatus s1 st ∉ new) :=
  C17_error_line_sets_status_log_line_does_not exExternal exRoutingLog "x" (by decide) 20 7
    exThree 102 (by decide) (by decide) (by decide)

/-- C18, the claim as written fails: the line `x` of category 20 at `Warning`, which is
neither `Fatal` nor `Error`, routed by `exRouting` to tracer 7 in the state `exThree`,
adds the event to span 102 and then calls `SetStatus(Error)` on it. -/
theorem C18_warning_line_sets_status_counterexample :
    ELogVerbosity.Warning ≠ ELogVerbosity.Fatal ∧ ELogVerbosity.Warning ≠ ELogVerbosity.Error ∧
    FOtelOutputDevice.RuleMatches exRouting 7 ELogVerbosity.Warning 20 ∧
    exThree.TopSpan 7 = some 102 ∧
    (FOtelOutputDevice.Serialize exExternal exRouting (some "x") ELogVerbosity.Warning 20
        exThree).map (fun w1 => w1.SdkLog.drop exThree.SdkLog.length) =
      some [SdkCall.AddEvent 102
          (FOtelOutputDevice.MakeCall exExternal "x" ELogVerbosity.Warning 20 7).Message
          (EventAttributesOtelConverter.ctor []),
        SdkCall.SetStatus 102 EOtelStatus.Error] := by
  refine ⟨by decide, by decide, by decide, by decide, ?_⟩
  rfl

/-- C18, amended: for every routed line (text not empty, verbosity not `NoLogging`,
tracer `T` with a matching rule and an open span on top of its stack), `Serialize`
returns with the event added to that span, and it calls `SetStatus(Error)` on that
span if and only if the verbosity is `Warning` or more severe (`Fatal`, `Error` or
`Warning`); at any less severe verbosity it makes no `SetStatus` call on any span. -/
theorem C18_status_error_iff_warning_or_more_severe (X : External)
    (TracerLogging : FLogRoutingData) (V : String) (hV : V ≠ "") (Verbosity : Nat)
    (hVerb : Verbosity ≠ ELogVerbosity.NoLogging) (Category T : FName) (w : World) (s : Nat)
    (hTop : w.TopSpan T = some s)
    (hm : FOtelOutputDevice.RuleMatches TracerLogging T Verbosity Category) :
    ∃ w1, FOtelOutputDevice.Serialize X TracerLogging (some V) Verbosity Category w = some w1 ∧
      ∃ new, w1.SdkLog = w.SdkLog ++ new ∧
        SdkCall.AddEvent s (FOtelOutputDevice.MakeCall X V Verbosity Category T).Message
          (EventAttributesOtelConverter.ctor []) ∈ new ∧
        (SdkCall.SetStatus s EOtelStatus.Error ∈ new ↔
          (Verbosity = ELogVerbosity.Fatal ∨ Verbosity = ELogVerbosity.Error ∨
            Verbosity = ELogVerbosity.Warning)) ∧
        (ELogVerbosity.Warning < Verbosity → ∀ s1 st, SdkCall.SetStatus s1 st ∉ new) := by
  obtain ⟨w1, he, new, hl, ha, hs, hn⟩ := Serialize_routed X TracerLogging V hV Verbosity hVerb
    Category T w s hTop hm
  refine ⟨w1, he, new, hl, ha, ⟨?_, ?_⟩, hn⟩
  · intro hin
    have hle : Verbosity ≤ 3 := by
      by_contra hgt
      exact hn (Nat.lt_of_not_le hgt) s EOtelStatus.Error hin
    have h0 : Verbosity ≠ 0 := hVerb
    simp only [ELogVerbosity.Fatal, ELogVerbosity.Error, ELogVerbosity.Warning]
    omega
  · intro h
    apply hs
    simp only [ELogVerbosity.Fatal, ELogVerbosity.Error, ELogVerbosity.Warning] at h ⊢
    omega

/-- C18 amended, at a concrete state: the line `x` of category 20 at `Warning` with
the table `exRouting` in the state `exThree`. -/
theorem C18_status_error_iff_warning_or_more_severe_witness :
    ∃ w1, FOtelOutputDevice.Serialize exExternal exRouting (some "x") ELogVerbosity.Warning 20
        exThree = some w1 ∧
      ∃ new, w1.SdkLog = exThree.SdkLog ++ new ∧
        SdkCall.AddEvent 102
          (FOtelOutputDevice.MakeCall exExternal "x" ELogVerbosity.Warning 20 7).Message
          (EventAttributesOtelConverter.ctor []) ∈ new ∧
        (SdkCall.SetStatus 102 EOtelStatus.Error ∈ new ↔
          (ELogVerbosity.Warning = ELogVerbosity.Fatal ∨
            ELogVerbosity.Warning = ELogVerbosity.Error ∨
            ELogVerbosity.Warning = ELogVerbosity.Warning)) ∧
        (ELogVerbosity.Warning < ELogVerbosity.Warning →
          ∀ s1 st, SdkCall.SetStatus s1 st ∉ new) :=
  C18_status_error_iff_warning_or_more_severe exExternal exRouting "x" (by decide)
    ELogVerbosity.Warning (by decide) 20 7 exThree 102 (by decide) (by decide)

/-! ## The routing table -/

theorem TMap.mem_Remove {K V : Type} [DecidableEq K] (m : List (K × V)) (k : K)
    (x : K × V) (h : x ∈ TMap.Remove m k) : x ∈ m := by
  induction m with
  | nil => simp [TMap.Remove] at h
  | cons kv rest ih =>
    obtain ⟨k1, v1⟩ := kv
    by_cases hk : k1 = k
    · simp only [TMap.Remove, hk, if_true] at h
      exact List.mem_cons_of_mem _ (ih h)
    · simp only [TMap.Remove, hk, if_false, List.mem_cons] at h
      rcases h with h | h
      · exact h ▸ List.mem_cons_self _ _
      · exact List.mem_cons_of_mem _ (ih h)

theorem TMap.Add_of_absent {K V : Type} [DecidableEq K] (m : List (K × V)) (k : K) (v : V)
    (h : TMap.Find m k = none) : TMap.Add m k v = m ++ [(k, v)] := by
  induction m with
  | nil => rfl
  | cons kv rest ih =>
    obtain ⟨k1, v1⟩ := kv
    by_cases hk : k1 = k
    · simp [TMap.Find, hk] at h
    · simp only [TMap.Find, hk, if_false] at h
      simp [TMap.Add, hk, ih h]

theorem SetCategoryEnabled_NoEmptyRule (LogCategory TracerName : FName) (LogVerbosity : Nat)
    (TracerLogging : FLogRoutingData) (h : FOtelOutputDevice.NoEmptyRule TracerLogging) :
    FOtelOutputDevice.NoEmptyRule
      (FOtelOutputDevice.SetCategoryEnabled LogCategory TracerName LogVerbosity TracerLogging) := by
  have hFound : ∀ cv ∈ (match TMap.Find TracerLogging TracerName with
      | some R => R
      | none => FTracerRouting.ctor).CategoryVerbosity, cv.2 ≠ ELogVerbosity.NoLogging := by
    cases hf : TMap.Find TracerLogging TracerName with
    | none => intro cv hcv; simp [FTracerRouting.ctor] at hcv
    | some R => exact (h _ (TMap.mem_of_Find TracerLogging TracerName R hf)).2
  unfold FOtelOutputDevice.SetCategoryEnabled
  generalize (match TMap.Find TracerLogging TracerName with
      | some R => R
      | none => FTracerRouting.ctor) = Found at hFound
  dsimp only
  have hRouting : ∀ cv ∈ (if LogCategory = NAME_None then
        { Found with AllCategoryVerbosity := LogVerbosity }
      else if LogVerbosity ≠ ELogVerbosity.NoLogging then
        { Found with
          CategoryVerbosity := TMap.Add Found.CategoryVerbosity LogCategory LogVerbosity }
      else { Found with
        CategoryVerbosity := TMap.Remove Found.CategoryVerbosity LogCategory }).CategoryVerbosity,
      cv.2 ≠ ELogVerbosity.NoLogging := by
    intro cv hcv
    split at hcv
    · exact hFound cv hcv
    · split at hcv
      · rename_i hne
        rcases TMap.mem_Add _ _ _ _ hcv with hin | heq
        · exact hFound cv hin
        · rw [heq]
          exact hne
      · exact hFound cv (TMap.mem_Remove _ _ _ hcv)
  generalize (if LogCategory = NAME_None then
        { Found with AllCategoryVerbosity := LogVerbosity }
      else if LogVerbosity ≠ ELogVerbosity.NoLogging then
        { Found with
          CategoryVerbosity := TMap.Add Found.CategoryVerbosity LogCategory LogVerbosity }
      else { Found with
        CategoryVerbosity := TMap.Remove Found.CategoryVerbosity LogCategory }) = Routing
    at hRouting
  split
  · intro Pair hP
    exact h Pair (TMap.mem_Remove _ _ _ hP)
  · rename_i hne
    intro Pair hP
    rcases TMap.mem_Add _ _ _ _ hP with hin | heq
    · exact h Pair hin
    · rw [heq]
      refine ⟨?_, hRouting⟩
      by_cases ha : Routing.AllCategoryVerbosity = ELogVerbosity.NoLogging
      · exact Or.inr (fun hc => hne ⟨hc, ha⟩)
      · exact Or.inl ha

theorem SetAll_NoEmptyRule (ops : List (FName × FName × Nat)) (TracerLogging : FLogRoutingData)
    (h : FOtelOutputDevice.NoEmptyRule TracerLogging) :
    FOtelOutputDevice.NoEmptyRule (FOtelOutputDevice.SetAll ops TracerLogging) := by
  induction ops generalizing TracerLogging with
  | nil => exact h
  | cons op rest ih =>
    exact ih _ (SetCategoryEnabled_NoEmptyRule op.1 op.2.1 op.2.2 TracerLogging h)

/-- C19: after every sequence of `SetCategoryEnabled` calls that starts from the empty
routing table, every entry of the table has its all-categories verbosity different
from `NoLogging` or at least one category threshold, and no stored category
threshold equals `NoLogging`. -/
theorem C19_no_empty_rule_after_any_calls (ops : List (FName × FName × Nat)) :
    ∀ Pair ∈ FOtelOutputDevice.SetAll ops [],
      (Pair.2.AllCategoryVerbosity ≠ ELogVerbosity.NoLogging ∨ Pair.2.CategoryVerbosity ≠ []) ∧
      ∀ cv ∈ Pair.2.CategoryVerbosity, cv.2 ≠ ELogVerbosity.NoLogging :=
  SetAll_NoEmptyRule ops [] (fun _ hP => absurd hP (List.not_mem_nil _))

/-- C19 at a concrete sequence: after `exCalls` the table holds the entry of tracer 8,
whose all-categories verbosity is `Log`. -/
theorem C19_no_empty_rule_after_any_calls_witness :
    ((8, ⟨[], ELogVerbosity.Log⟩) : FName × FTracerRouting) ∈
      FOtelOutputDevice.SetAll exCalls [] ∧
    (((⟨[], ELogVerbosity.Log⟩ : FTracerRouting).AllCategoryVerbosity ≠ ELogVerbosity.NoLogging ∨
        (⟨[], ELogVerbosity.Log⟩ : FTracerRouting).CategoryVerbosity ≠ []) ∧
      ∀ cv ∈ (⟨[], ELogVerbosity.Log⟩ : FTracerRouting).CategoryVerbosity,
        cv.2 ≠ ELogVerbosity.NoLogging) :=
  ⟨by decide, C19_no_empty_rule_after_any_calls exCalls (8, ⟨[], ELogVerbosity.Log⟩) (by decide)⟩

/-- C20: on a routing table with no entry for tracer `T`, with any category selector (a
named category, or `NAME_None` for all) and any verbosity other than `NoLogging`,
`SetCategoryEnabled` with the verbosity followed by `SetCategoryEnabled` with
`NoLogging` gives back the table; the first call makes the table one entry longer
and the second one entry shorter. -/
theorem C20_enable_then_disable_restores_table (TracerLogging : FLogRoutingData)
    (LogCategory T : FName) (LogVerbosity : Nat)
    (hT : TMap.Find TracerLogging T = none)
    (hV : LogVerbosity ≠ ELogVerbosity.NoLogging) :
    FOtelOutputDevice.SetCategoryEnabled LogCategory T ELogVerbosity.NoLogging
      (FOtelOutputDevice.SetCategoryEnabled LogCategory T LogVerbosity TracerLogging) =
        TracerLogging ∧
    (FOtelOutputDevice.SetCategoryEnabled LogCategory T LogVerbosity TracerLogging).length =
      TracerLogging.length + 1 ∧
    (FOtelOutputDevice.SetCategoryEnabled LogCategory T ELogVerbosity.NoLogging
      (FOtelOutputDevice.SetCategoryEnabled LogCategory T LogVerbosity TracerLogging)).length + 1 =
      (FOtelOutputDevice.SetCategoryEnabled LogCategory T LogVerbosity TracerLogging).length := by
  have h0 : ELogVerbosity.NoLogging = 0 := rfl
  rw [h0] at hV
  have hfirst : ∃ R, FOtelOutputDevice.SetCategoryEnabled LogCategory T LogVerbosity
      TracerLogging = TMap.Add TracerLogging T R ∧
      FOtelOutputDevice.SetCategoryEnabled LogCategory T ELogVerbosity.NoLogging
        (TMap.Add TracerLogging T R) = TMap.Remove (TMap.Add TracerLogging T R) T := by
    by_cases hc : LogCategory = NAME_None
    · refine ⟨⟨[], LogVerbosity⟩, ?_, ?_⟩
      · simp [FOtelOutputDevice.SetCategoryEnabled, hT, hc, FTracerRouting.ctor, h0, hV]
      · simp [FOtelOutputDevice.SetCategoryEnabled, TMap.Find_Add_self, hc, h0]
    · refine ⟨⟨[(LogCategory, LogVerbosity)], 0⟩, ?_, ?_⟩
      · simp [FOtelOutputDevice.SetCategoryEnabled, hT, hc, FTracerRouting.ctor, h0, hV,
          TMap.Add]
      · simp [FOtelOutputDevice.SetCategoryEnabled, TMap.Find_Add_self, hc, h0, TMap.Remove]
  obtain ⟨R, h1, h2⟩ := hfirst
  rw [h1, h2, TMap.Remove_Add_of_absent TracerLogging T R hT, TMap.Add_of_absent TracerLogging T R hT]
  simp

/-- C20 at a concrete table: the category 20 at `Warning` for tracer 9, which has no
entry in `exRouting`. -/
theorem C20_enable_then_disable_restores_table_witness :
    FOtelOutputDevice.SetCategoryEnabled 20 9 ELogVerbosity.NoLogging
      (FOtelOutputDevice.SetCategoryEnabled 20 9 ELogVerbosity.Warning exRouting) = exRouting ∧
    (FOtelOutputDevice.SetCategoryEnabled 20 9 ELogVerbosity.Warning exRouting).length =
      exRouting.length + 1 ∧
    (FOtelOutputDevice.SetCategoryEnabled 20 9 ELogVerbosity.NoLogging
      (FOtelOutputDevice.SetCategoryEnabled 20 9 ELogVerbosity.Warning exRouting)).length + 1 =
      (FOtelOutputDevice.SetCategoryEnabled 20 9 ELogVerbosity.Warning exRouting).length :=
  C20_enable_then_disable_restores_table exRouting 20 9 ELogVerbosity.Warning (by decide)
    (by decide)

/-! ## EmitLog: the span and the log record -/

theorem ForEachAttribute_append (Attributes : List FAnalyticsEventAttribute) (R : LogRecord) :
    EventAttributesOtelConverter.ForEachAttribute
      (fun Name Value (Record : LogRecord) =>
        (true, { Record with Attributes := Record.Attributes ++ [(Name, Value)] }))
      Attributes R =
    (true, { R with Attributes := R.Attributes ++ Attributes.map attributePair }) := by
  induction Attributes generalizing R with
  | nil => simp [EventAttributesOtelConverter.ForEachAttribute]
  | cons a rest ih =>
    simp only [EventAttributesOtelConverter.ForEachAttribute]
    rw [if_neg (by simp)]
    rw [ih]
    simp [attributePair]

theorem EmitLogSpan_context (X : External) (Message : String)
    (Attributes : List FAnalyticsEventAttribute) (TracerName : FName)
    (Status : Option EOtelStatus) (w : World) :
    (∀ s, w.TopSpan TracerName = some s →
      (FOtelModule.EmitLogSpan X Message Attributes TracerName Status w).1 = X.GetContext s) ∧
    (w.TopSpan TracerName = none →
      (FOtelModule.EmitLogSpan X Message Attributes TracerName Status w).1 =
        SpanContext.invalid) ∧
    (FOtelModule.EmitLogSpan X Message Attributes TracerName Status w).2.LogRecords =
      w.LogRecords ∧
    (FOtelModule.EmitLogSpan X Message Attributes TracerName Status w).2.Get.LoggerProvider =
      w.Get.LoggerProvider := by
  have hH : (w.setScopes TracerName (w.Scopes TracerName)).Heap = w.Heap := rfl
  have hL : (w.setScopes TracerName (w.Scopes TracerName)).LogRecords = w.LogRecords := rfl
  have hP : (w.setScopes TracerName (w.Scopes TracerName)).Get.LoggerProvider =
      w.Get.LoggerProvider := rfl
  unfold FOtelModule.EmitLogSpan World.TopSpan spanAt
  dsimp only
  cases hq : (w.Scopes TracerName).getLast? with
  | none => exact ⟨by simp, by simp, hL, hP⟩
  | some q =>
    dsimp only
    rw [hH]
    cases hi : w.Heap[q]? with
    | none => exact ⟨by simp, by simp, hL, hP⟩
    | some impl =>
      dsimp only
      cases hs : impl.Span.OtelSpan with
      | none =>
        cases Status with
        | none => simp [FOtelSpan.AddEvent, FOtelSpan.SetStatus, hs, hL, hP]
        | some st => cases st <;> simp [FOtelSpan.AddEvent, FOtelSpan.SetStatus, hs, hL, hP]
      | some s =>
        cases Status with
        | none =>
          refine ⟨by simp, by simp, ?_, ?_⟩
          · simp [FOtelSpan.AddEvent, hs, hL]
          · rw [← hP]
            simp [FOtelSpan.AddEvent, hs, World.Get]
        | some st =>
          cases st
          · refine ⟨by simp, by simp, ?_, ?_⟩
            · simp [FOtelSpan.AddEvent, hs, hL]
            · rw [← hP]
              simp [FOtelSpan.AddEvent, hs, World.Get]
          · refine ⟨by simp, by simp, ?_, ?_⟩
            · simp [FOtelSpan.AddEvent, FOtelSpan.SetStatus, hs, hL]
            · rw [← hP]
              simp [FOtelSpan.AddEvent, FOtelSpan.SetStatus, hs, World.Get]

theorem EmitLog_record (X : External) (Message : String)
    (Attributes : List FAnalyticsEventAttribute) (File : Option String) (LineNumber : Int)
    (TracerName : FName) (Status : Option EOtelStatus) (w : World) :
    ∃ w1, FOtelModule.EmitLog X Message Attributes File LineNumber TracerName Status w =
        some w1 ∧
      w1.SdkLog = (FOtelModule.EmitLogSpan X Message Attributes TracerName Status w).2.SdkLog ∧
      (w.Get.LoggerProvider = false → w1.LogRecords = w.LogRecords) ∧
      (w.Get.LoggerProvider = true → ∃ r, w1.LogRecords = w.LogRecords ++ [r] ∧
        r.Body = Message ∧ r.TracerName = TracerName ∧
        r.Attributes = Attributes.map attributePair ∧
        (r.Severity = Severity.kError ↔ Status = some EOtelStatus.Error) ∧
        (∀ s, w.TopSpan TracerName = some s → (X.GetContext s).span_id ≠ 0 →
          r.Context = some (X.GetContext s)) ∧
        (∀ s, w.TopSpan TracerName = some s → (X.GetContext s).span_id = 0 →
          r.Context = none) ∧
        (w.TopSpan TracerName = none → r.Context = none)) := by
  obtain ⟨c1, c2, c3, c4⟩ := EmitLogSpan_context X Message Attributes TracerName Status w
  unfold FOtelModule.EmitLog
  dsimp only
  rw [c4]
  cases hP : w.Get.LoggerProvider with
  | false => exact ⟨_, by simp, rfl, fun _ => c3, by simp⟩
  | true =>
    simp only [if_true, EventAttributesOtelConverter.ForEachKeyValue,
      EventAttributesOtelConverter.ctor, ForEachAttribute_append, c3]
    refine ⟨_, rfl, rfl, by simp, fun _ => ⟨_, rfl, ?_, ?_, ?_, ?_, ?_, ?_, ?_⟩⟩
    · split <;> rfl
    · split <;> rfl
    · split <;> simp
    · split <;> split <;> simp_all
    · intro s hs hid
      rw [c1 s hs, if_pos hid]
    · intro s hs hid
      rw [c1 s hs, if_neg (by simpa using hid)]
    · intro hn
      rw [c2 hn, if_neg (by simp [SpanContext.invalid])]

theorem SpanCalls_top (c : EmitLogCall) (w : World) :
    (∀ s, w.TopSpan c.TracerName = some s →
      SdkCall.AddEvent s c.Message (EventAttributesOtelConverter.ctor c.Attributes) ∈
        c.SpanCalls w ∧ ∀ call ∈ c.SpanCalls w, call.span = s) ∧
    (w.TopSpan c.TracerName = none → c.SpanCalls w = []) := by
  unfold EmitLogCall.SpanCalls
  cases ht : w.TopSpan c.TracerName with
  | none => simp
  | some s1 =>
    refine ⟨?_, by simp⟩
    intro s hs
    cases hs
    dsimp only
    refine ⟨List.mem_cons_self _ _, ?_⟩
    intro call hcall
    rw [List.mem_cons] at hcall
    rcases hcall with h | h
    · rw [h]; rfl
    · split at h
      · rw [List.mem_singleton] at h
        rw [h]; rfl
      · simp at h

theorem TopSpan_of_Scopes_nil (w : World) (TracerName : FName)
    (h : w.Scopes TracerName = []) : w.TopSpan TracerName = none := by
  simp [World.TopSpan, h]

/-- C21: `EmitLog` returns, and when the top entry of the stack of `TracerName` holds
the span `s`, the calls it makes on spans are all on `s` and the first adds the
message as an event; the log record it emits when a logger provider is set has the
message as body and carries the span context of `s` (span id, trace id, flags),
which the code sets when the span id is valid (not zero). When the stack is empty, or
its top entry holds no SDK span, it makes no call on any span and the record carries
no span context. With no logger provider no record is emitted. -/
theorem C21_emit_log_goes_to_top_span (X : External) (Message : String)
    (Attributes : List FAnalyticsEventAttribute) (File : Option String) (LineNumber : Int)
    (TracerName : FName) (Status : Option EOtelStatus) (w : World) :
    ∃ w1, FOtelModule.EmitLog X Message Attributes File LineNumber TracerName Status w =
        some w1 ∧
      (∀ s, w.TopSpan TracerName = some s →
        (∃ new, w1.SdkLog = w.SdkLog ++ new ∧
          SdkCall.AddEvent s Message (EventAttributesOtelConverter.ctor Attributes) ∈ new ∧
          ∀ call ∈ new, call.span = s) ∧
        (w.Get.LoggerProvider = true → (X.GetContext s).span_id ≠ 0 →
          ∃ r, w1.LogRecords = w.LogRecords ++ [r] ∧ r.Body = Message ∧
            r.Context = some (X.GetContext s))) ∧
      (w.Scopes TracerName = [] → w.TopSpan TracerName = none) ∧
      (w.TopSpan TracerName = none →
        w1.SdkLog = w.SdkLog ∧
        (w.Get.LoggerProvider = true →
          ∃ r, w1.LogRecords = w.LogRecords ++ [r] ∧ r.Body = Message ∧ r.Context = none)) ∧
      (w.Get.LoggerProvider = false → w1.LogRecords = w.LogRecords) := by
  obtain ⟨w1, he, hl, hno, hrec⟩ :=
    EmitLog_record X Message Attributes File LineNumber TracerName Status w
  obtain ⟨hs1, _, _⟩ := EmitLogSpan_spec X ⟨Message, Attributes, File, LineNumber, TracerName,
    Status⟩ w
  obtain ⟨ht1, ht2⟩ := SpanCalls_top ⟨Message, Attributes, File, LineNumber, TracerName,
    Status⟩ w
  dsimp only at hs1 ht1 ht2
  rw [hs1] at hl
  refine ⟨w1, he, ?_, TopSpan_of_Scopes_nil w TracerName, ?_, hno⟩
  · intro s hs
    refine ⟨⟨_, hl, (ht1 s hs).1, (ht1 s hs).2⟩, ?_⟩
    intro hP hid
    obtain ⟨r, r1, r2, _, _, _, r6, _, _⟩ := hrec hP
    exact ⟨r, r1, r2, r6 s hs hid⟩
  · intro hn
    refine ⟨by rw [hl, ht2 hn, List.append_nil], ?_⟩
    intro hP
    obtain ⟨r, r1, r2, _, _, _, _, _, r8⟩ := hrec hP
    exact ⟨r, r1, r2, r8 hn⟩

/-- C21 at a concrete state: a message for tracer 7 in `exLogging`, where span 102 is on
top of the stack and a logger provider is set. -/
theorem C21_emit_log_goes_to_top_span_witness :
    exLogging.TopSpan 7 = some 102 ∧ exLogging.Get.LoggerProvider = true ∧
    (exExternal.GetContext 102).span_id ≠ 0 ∧
    ∃ w1, FOtelModule.EmitLog exExternal "m" exAttributes (some "f.cpp") 12 7 none exLogging =
        some w1 ∧
      (∀ s, exLogging.TopSpan 7 = some s →
        (∃ new, w1.SdkLog = exLogging.SdkLog ++ new ∧
          SdkCall.AddEvent s "m" (EventAttributesOtelConverter.ctor exAttributes) ∈ new ∧
          ∀ call ∈ new, call.span = s) ∧
        (exLogging.Get.LoggerProvider = true → (exExternal.GetContext s).span_id ≠ 0 →
          ∃ r, w1.LogRecords = exLogging.LogRecords ++ [r] ∧ r.Body = "m" ∧
            r.Context = some (exExternal.GetContext s))) ∧
      (exLogging.Scopes 7 = [] → exLogging.TopSpan 7 = none) ∧
      (exLogging.TopSpan 7 = none →
        w1.SdkLog = exLogging.SdkLog ∧
        (exLogging.Get.LoggerProvider = true →
          ∃ r, w1.LogRecords = exLogging.LogRecords ++ [r] ∧ r.Body = "m" ∧
            r.Context = none)) ∧
      (exLogging.Get.LoggerProvider = false → w1.LogRecords = exLogging.LogRecords) :=
  ⟨by decide, by decide, by decide,
    C21_emit_log_goes_to_top_span exExternal "m" exAttributes (some "f.cpp") 12 7 none exLogging⟩

/-! ## ShutdownModule -/

theorem endStack_spec (l : List Nat) (w : World) :
    FOtelModule.endStack l w =
      { w with SdkLog := w.SdkLog ++ (l.filterMap (spanAt w.Heap)).map SdkCall.End } := by
  induction l generalizing w with
  | nil => simp [FOtelModule.endStack]
  | cons q below ih =>
    cases hI : w.Heap[q]? with
    | none =>
      have hn : spanAt w.Heap q = none := by simp [spanAt, hI]
      simp [FOtelModule.endStack, hI, ih, hn]
    | some impl =>
      cases hs : impl.Span.OtelSpan with
      | none =>
        have hn : spanAt w.Heap q = none := by simp [spanAt, hI, hs]
        simp [FOtelModule.endStack, hI, hs, ih, hn]
      | some s =>
        have hn : spanAt w.Heap q = some s := by simp [spanAt, hI, hs]
        simp [FOtelModule.endStack, hI, hs, ih, hn]

/-- The `End` calls of a shutdown on the stacks of a map: the pairs in order, each stack
from its top down, the entries without an SDK span left out. -/
theorem endStacks_spec (Stacks : List (FName × List Nat)) (w : World) :
    FOtelModule.endStacks Stacks w =
      { w with SdkLog := w.SdkLog ++ Stacks.flatMap (fun Pair =>
          (Pair.2.reverse.filterMap (spanAt w.Heap)).map SdkCall.End) } := by
  induction Stacks generalizing w with
  | nil => simp [FOtelModule.endStacks]
  | cons Pair rest ih =>
    simp [FOtelModule.endStacks, ih, endStack_spec, List.append_assoc]

theorem ShutdownModule_spec (w : World) :
    (FOtelModule.ShutdownModule w).SdkLog = w.SdkLog ++ w.Get.TracerToScopeStack.flatMap
      (fun Pair => (Pair.2.reverse.filterMap (spanAt w.Heap)).map SdkCall.End) ∧
    (FOtelModule.ShutdownModule w).Heap = w.Heap ∧
    (FOtelModule.ShutdownModule w).Get.TracerToScopeStack = [] ∧
    (FOtelModule.ShutdownModule w).Get.PinnedSpans = w.Get.PinnedSpans := by
  unfold FOtelModule.ShutdownModule
  dsimp only
  rw [endStacks_spec]
  exact ⟨rfl, rfl, rfl, rfl⟩

theorem dtor_no_stacks (h : FOtelScopedSpan) (w : World) (hv : h.Valid w)
    (hs : w.Get.TracerToScopeStack = []) :
    ∃ w1, h.dtor w = some w1 ∧ w1.SdkLog = w.SdkLog ∧ w1.Get.TracerToScopeStack = [] ∧
      w1.Heap.length = w.Heap.length := by
  cases hp : h.Scope with
  | none => exact ⟨w, by simp [FOtelScopedSpan.dtor, hp], rfl, hs, rfl⟩
  | some p =>
    have hlt : p < w.Heap.length := hv p (by simp [hp])
    have hI : w.Heap[p]? = some w.Heap[p] := List.getElem?_eq_getElem hlt
    obtain ⟨w1, h1, h2, h3, h4⟩ := dtor_not_on_stack h w p w.Heap[p] hp hI (by
      intro M Scopes hM hF
      have hG : w.Get = M := by simp [World.Get, hM]
      rw [← hG, hs] at hF
      simp [TMap.Find] at hF)
    refine ⟨w1, h1, h2, ?_, ?_⟩
    · have : w1.Get = w.Get := by simp [World.Get, h3]
      rw [this, hs]
    · rw [h4]
      simp [World.setRefCount]

theorem releaseAll_no_stacks (hs : List FOtelScopedSpan) (w : World)
    (hv : ∀ h ∈ hs, h.Valid w) (hst : w.Get.TracerToScopeStack = []) :
    ∃ w1, releaseAll hs w = some w1 ∧ w1.SdkLog = w.SdkLog := by
  induction hs generalizing w with
  | nil => exact ⟨w, rfl, rfl⟩
  | cons h rest ih =>
    obtain ⟨w1, h1, h2, h3, h4⟩ := dtor_no_stacks h w (hv h (by simp)) hst
    obtain ⟨w2, g1, g2⟩ := ih w1 (by
      intro h2 hh p hp
      rw [h4]
      exact hv h2 (by simp [hh]) p hp) h3
    exact ⟨w2, by simp [releaseAll, h1, g1], by rw [g2, h2]⟩

theorem mem_flatMap_ends (Stacks : List (FName × List Nat)) (Heap : List FOtelScopedSpanImpl)
    (Pair : FName × List Nat) (hP : Pair ∈ Stacks) (q s : Nat) (hq : q ∈ Pair.2)
    (hs : spanAt Heap q = some s) :
    SdkCall.End s ∈ Stacks.flatMap (fun Pair =>
      (Pair.2.reverse.filterMap (spanAt Heap)).map SdkCall.End) := by
  rw [List.mem_flatMap]
  refine ⟨Pair, hP, ?_⟩
  rw [List.mem_map]
  refine ⟨s, ?_, rfl⟩
  rw [List.mem_filterMap]
  exact ⟨q, by simpa using hq, hs⟩

/-- C22: `ShutdownModule` calls `End()` on the span of every entry that is on the stack of
any tracer (an entry without an SDK span has none to end), and leaves the map of
the stacks empty; every handle that is released after it, in any number and order,
is released without a further call on the SDK, so no further span is ended. -/
theorem C22_shutdown_ends_all_and_empties_stacks (w : World) :
    (∃ new, (FOtelModule.ShutdownModule w).SdkLog = w.SdkLog ++ new ∧
      ∀ Pair ∈ w.Get.TracerToScopeStack, ∀ q ∈ Pair.2, ∀ s, spanAt w.Heap q = some s →
        SdkCall.End s ∈ new) ∧
    (FOtelModule.ShutdownModule w).Get.TracerToScopeStack = [] ∧
    (∀ Handles : List FOtelScopedSpan, (∀ h ∈ Handles, h.Valid w) →
      ∃ w2, releaseAll Handles (FOtelModule.ShutdownModule w) = some w2 ∧
        w2.SdkLog = (FOtelModule.ShutdownModule w).SdkLog) := by
  obtain ⟨h1, h2, h3, _⟩ := ShutdownModule_spec w
  refine ⟨⟨_, h1, ?_⟩, h3, ?_⟩
  · intro Pair hP q hq s hs
    exact mem_flatMap_ends _ _ Pair hP q s hq hs
  · intro Handles hv
    exact releaseAll_no_stacks Handles _ (by
      intro h hh p hp
      rw [h2]
      exact hv h hh p hp) h3

/-- C22 at a concrete state: the shutdown in `exThree` and the release of its three
handles afterwards. -/
theorem C22_shutdown_ends_all_and_empties_stacks_witness :
    (∀ h ∈ [({ Scope := some 0 } : FOtelScopedSpan), { Scope := some 1 }, { Scope := some 2 }],
      h.Valid exThree) ∧
    ∃ w2, releaseAll [{ Scope := some 0 }, { Scope := some 1 }, { Scope := some 2 }]
        (FOtelModule.ShutdownModule exThree) = some w2 ∧
      w2.SdkLog = (FOtelModule.ShutdownModule exThree).SdkLog :=
  ⟨by decide, (C22_shutdown_ends_all_and_empties_stacks exThree).2.2
    [{ Scope := some 0 }, { Scope := some 1 }, { Scope := some 2 }] (by decide)⟩

/-! ## The order of the End calls of a shutdown -/

theorem pair_sublist_of_index {α : Type} (l : List α) (i j : Nat) (a b : α) (hij : i < j)
    (hi : l[i]? = some a) (hj : l[j]? = some b) : List.Sublist [a, b] l := by
  induction l generalizing i j with
  | nil => simp at hi
  | cons x rest ih =>
    cases j with
    | zero => omega
    | succ j1 =>
      simp only [List.getElem?_cons_succ] at hj
      cases i with
      | zero =>
        simp only [List.getElem?_cons_zero, Option.some.injEq] at hi
        subst hi
        exact List.Sublist.cons₂ _ (List.singleton_sublist.mpr (List.getElem?_mem hj))
      | succ i1 =>
        simp only [List.getElem?_cons_succ] at hi
        exact List.Sublist.cons _ (ih i1 j1 (by omega) hi hj)

theorem sublist_flatMap_of_mem {α β : Type} (f : α → List β) (l : List α) (x : α)
    (hx : x ∈ l) : List.Sublist (f x) (l.flatMap f) := by
  induction l with
  | nil => simp at hx
  | cons y rest ih =>
    rw [List.flatMap_cons]
    rw [List.mem_cons] at hx
    rcases hx with h | h
    · subst h
      exact List.sublist_append_left _ _
    · exact List.Sublist.trans (ih h) (List.sublist_append_right _ _)

/-- C23, the claim as written fails: in `exThree` the stack of tracer 7 holds the entries
0, 1, 2 with the spans 100 (the root, index 0), 101 and 102 (the top), and
`ShutdownModule` ends 102 first and 100 last. -/
theorem C23_shutdown_ends_top_first_counterexample :
    exThree.Scopes 7 = [0, 1, 2] ∧ spanAt exThree.Heap 0 = some 100 ∧
    spanAt exThree.Heap 2 = some 102 ∧
    (FOtelModule.ShutdownModule exThree).SdkLog.drop exThree.SdkLog.length =
      [SdkCall.End 102, SdkCall.End 101, SdkCall.End 100] := by
  decide

/-- C23, amended: the calls that `ShutdownModule` makes on the SDK spans are, for the
stacks of the map in order, the `End()` calls on the spans of each stack from its
top down to index 0 (leaf to root); so of two entries of one stack, the span of the
one at the higher index is ended before the span of the one at the lower index. -/
theorem C23_shutdown_ends_leaf_to_root (w : World) :
    (FOtelModule.ShutdownModule w).SdkLog = w.SdkLog ++ w.Get.TracerToScopeStack.flatMap
      (fun Pair => (Pair.2.reverse.filterMap (spanAt w.Heap)).map SdkCall.End) ∧
    ∀ Pair ∈ w.Get.TracerToScopeStack, ∀ i j qi qj si sj : Nat, i < j →
      Pair.2[i]? = some qi → Pair.2[j]? = some qj →
      spanAt w.Heap qi = some si → spanAt w.Heap qj = some sj →
      List.Sublist [SdkCall.End sj, SdkCall.End si]
        ((FOtelModule.ShutdownModule w).SdkLog.drop w.SdkLog.length) := by
  obtain ⟨h1, _, _, _⟩ := ShutdownModule_spec w
  refine ⟨h1, ?_⟩
  intro Pair hP i j qi qj si sj hij hi hj hsi hsj
  rw [h1, List.drop_left]
  have hsub := pair_sublist_of_index Pair.2 i j qi qj hij hi hj
  have hrev := List.Sublist.reverse hsub
  have hfm := List.Sublist.filterMap (spanAt w.Heap) hrev
  have hmap := List.Sublist.map SdkCall.End hfm
  have hseg : List.Sublist [SdkCall.End sj, SdkCall.End si]
      ((Pair.2.reverse.filterMap (spanAt w.Heap)).map SdkCall.End) := by
    simpa [List.filterMap, hsi, hsj] using hmap
  exact List.Sublist.trans hseg
    (sublist_flatMap_of_mem (fun Pair : FName × List Nat =>
      (Pair.2.reverse.filterMap (spanAt w.Heap)).map SdkCall.End) _ Pair hP)

/-- C23 amended, at a concrete state: the root (index 0, span 100) and the top (index 2,
span 102) of the stack of tracer 7 in `exThree`. -/
theorem C23_shutdown_ends_leaf_to_root_witness :
    ((7, [0, 1, 2]) : FName × List Nat) ∈ exThree.Get.TracerToScopeStack ∧
    List.Sublist [SdkCall.End 102, SdkCall.End 100]
      ((FOtelModule.ShutdownModule exThree).SdkLog.drop exThree.SdkLog.length) :=
  ⟨by decide, (C23_shutdown_ends_leaf_to_root exThree).2 (7, [0, 1, 2]) (by decide) 0 2 0 2
    100 102 (by decide) (by decide) (by decide) (by decide) (by decide)⟩

/-! ## Histograms, the attribute converter and GetMeter -/

theorem highBit_spec (fuel n : Nat) (hn : 0 < n) (hlt : n < 2 ^ fuel) :
    2 ^ highBit fuel n ≤ n ∧ n < 2 ^ (highBit fuel n + 1) := by
  induction fuel generalizing n with
  | zero =>
    simp at hlt
    omega
  | succ fuel ih =>
    unfold highBit
    by_cases h2 : 2 ≤ n
    · rw [if_pos h2]
      have hlt2 : n / 2 < 2 ^ fuel := by
        rw [Nat.pow_succ] at hlt
        omega
      obtain ⟨a, b⟩ := ih (n / 2) (by omega) hlt2
      rw [Nat.pow_succ] at b ⊢
      rw [Nat.pow_succ, Nat.pow_succ]
      constructor <;> omega
    · rw [if_neg h2]
      have : n = 1 := by omega
      subst this
      simp

theorem Double.fields_of_bits (E m : Nat) (hE : E < 2 ^ 11) (hm : m < 2 ^ 52) :
    (⟨E * 2 ^ 52 + m⟩ : Otel.Double).sign = 0 ∧
    (⟨E * 2 ^ 52 + m⟩ : Otel.Double).exponent = E ∧
    (⟨E * 2 ^ 52 + m⟩ : Otel.Double).mantissa = m := by
  have hdiv : (E * 2 ^ 52 + m) / 2 ^ 52 = E := by
    rw [Nat.add_comm, Nat.add_mul_div_right _ _ (by positivity), Nat.div_eq_of_lt hm,
      Nat.zero_add]
  refine ⟨?_, ?_, ?_⟩
  · unfold Double.sign
    have : (E * 2 ^ 52 + m) / 2 ^ 63 = 0 := by
      apply Nat.div_eq_of_lt
      have h1 : E * 2 ^ 52 + m < (E + 1) * 2 ^ 52 := by
        rw [Nat.add_mul, Nat.one_mul]
        omega
      have h2 : (E + 1) * 2 ^ 52 ≤ 2 ^ 11 * 2 ^ 52 := Nat.mul_le_mul_right _ (by omega)
      have h3 : (2 : Nat) ^ 11 * 2 ^ 52 = 2 ^ 63 := by norm_num
      omega
    rw [this]
  · unfold Double.exponent
    rw [hdiv]
    exact Nat.mod_eq_of_lt hE
  · unfold Double.mantissa
    rw [Nat.add_comm, Nat.add_mul_mod_self_right]
    exact Nat.mod_eq_of_lt hm

/-- The conversion keeps every value up to `2 ^ 53`. -/
theorem Double.ofUInt64_exact (n : Nat) (hn : n ≤ 2 ^ 53) :
    (Double.ofUInt64 n).natValue = some n := by
  by_cases h0 : n = 0
  · subst h0
    decide
  by_cases h53 : n = 2 ^ 53
  · subst h53
    decide
  have hlt : n < 2 ^ 53 := by omega
  obtain ⟨a, b⟩ := highBit_spec 64 n (by omega) (by
    have : (2 : Nat) ^ 53 < 2 ^ 64 := by norm_num
    omega)
  have he : highBit 64 n ≤ 52 := by
    by_contra hc
    have : (2 : Nat) ^ 53 ≤ 2 ^ highBit 64 n := Nat.pow_le_pow_right (by norm_num) (by omega)
    omega
  generalize hE : highBit 64 n = e at a b he
  have hsplit : (2 : Nat) ^ 52 = 2 ^ e * 2 ^ (52 - e) := by
    rw [← Nat.pow_add]
    congr 1
    omega
  have hpos : 0 < 2 ^ (52 - e) := by positivity
  have hm : (n - 2 ^ e) * 2 ^ (52 - e) < 2 ^ 52 := by
    rw [hsplit]
    apply Nat.mul_lt_mul_of_pos_right _ hpos
    rw [Nat.pow_succ] at b
    omega
  have hsum : 2 ^ 52 + (n - 2 ^ e) * 2 ^ (52 - e) = n * 2 ^ (52 - e) := by
    rw [hsplit, ← Nat.add_mul]
    congr 1
    omega
  obtain ⟨f1, f2, f3⟩ := Double.fields_of_bits (e + 1023) ((n - 2 ^ e) * 2 ^ (52 - e))
    (by norm_num; omega) hm
  have hbits : Double.ofUInt64 n = ⟨(e + 1023) * 2 ^ 52 + (n - 2 ^ e) * 2 ^ (52 - e)⟩ := by
    unfold Double.ofUInt64
    rw [if_neg h0]
    simp only [hE]
    rw [if_pos he]
  rw [hbits]
  unfold Double.natValue Double.isZero
  rw [f1, f2, f3, hsum]
  have hz : (decide (e + 1023 = 0) && decide ((n - 2 ^ e) * 2 ^ (52 - e) = 0)) = false := by
    simp
  rw [hz]
  simp only [Bool.false_eq_true, if_false]
  rw [if_neg (by omega)]
  by_cases h52 : e = 52
  · subst h52
    rw [if_pos (by omega)]
    simp
  · rw [if_neg (by omega)]
    have hsh : 1075 - (e + 1023) = 52 - e := by omega
    rw [hsh, Nat.mul_mod_left, if_pos rfl, Nat.mul_div_cancel _ hpos]

/-- C25, the claim as written fails: on the meter `exMeter`, `CreateHistogram` of type
`Int64` with the two `uint64` boundaries `2 ^ 53` and `2 ^ 53 + 1` adds a view whose
two boundaries are the same `double`, the one of value `2 ^ 53`: the view does not
hold the boundary `2 ^ 53 + 1`. -/
theorem C25_large_boundaries_are_rounded_counterexample :
    exMeter.CreateHistogram EOtelInstrumentType.Int64 (some "h")
        (FOtelHistogramBuckets.FromUInt64 [9007199254740992, 9007199254740993]) "B" =
      some (FOtelHistogram.UInt64,
        [MeterCall.AddView "h" "B" "frame_stats" "1" ""
            [⟨4845873199050653696⟩, ⟨4845873199050653696⟩],
          MeterCall.CreateUInt64Histogram "h" "B"]) ∧
    Double.natValue ⟨4845873199050653696⟩ = some 9007199254740992 ∧
    (9007199254740992 : Nat) = 2 ^ 53 := by
  decide

/-- C25, amended: on a meter with an SDK meter (and the meter provider of the module
set), with a name that is not null, `CreateHistogram` with a bucket list that is not
empty first adds a view whose aggregation holds the boundaries of the list as
`double`s, in its order, and then creates the SDK histogram: `double` boundaries are
held as they are, `uint64` boundaries converted to `double`, which keeps every
boundary up to `2 ^ 53` exactly. With an empty bucket list it adds no view and
creates the SDK histogram. -/
theorem C25_view_with_double_boundaries_before_histogram (M : FOtelMeter) (m : Nat)
    (hM : M.OtelMeter = some m) (hP : M.MeterProvider = true) (Name UnitTypeStr : String)
    (u : List Nat) (d : List Otel.Double) (hu : u ≠ []) (hd : d ≠ []) :
    M.CreateHistogram EOtelInstrumentType.Int64 (some Name) (FOtelHistogramBuckets.FromUInt64 u)
        UnitTypeStr =
      some (FOtelHistogram.UInt64,
        [MeterCall.AddView Name UnitTypeStr M.Name M.Version M.SchemaUrl
            (u.map Double.ofUInt64),
          MeterCall.CreateUInt64Histogram Name UnitTypeStr]) ∧
    (∀ n ∈ u, n ≤ 2 ^ 53 → (Double.ofUInt64 n).natValue = some n) ∧
    M.CreateHistogram EOtelInstrumentType.Double (some Name) (FOtelHistogramBuckets.FromDouble d)
        UnitTypeStr =
      some (FOtelHistogram.Double,
        [MeterCall.AddView Name UnitTypeStr M.Name M.Version M.SchemaUrl d,
          MeterCall.CreateDoubleHistogram Name UnitTypeStr]) ∧
    M.CreateHistogram EOtelInstrumentType.Int64 (some Name) (FOtelHistogramBuckets.FromUInt64 [])
        UnitTypeStr =
      some (FOtelHistogram.UInt64, [MeterCall.CreateUInt64Histogram Name UnitTypeStr]) ∧
    M.CreateHistogram EOtelInstrumentType.Double (some Name) (FOtelHistogramBuckets.FromDouble [])
        UnitTypeStr =
      some (FOtelHistogram.Double, [MeterCall.CreateDoubleHistogram Name UnitTypeStr]) := by
  have hu1 : 0 < u.length := List.length_pos.mpr hu
  have hd1 : 0 < d.length := List.length_pos.mpr hd
  refine ⟨?_, fun n _ hn => Double.ofUInt64_exact n hn, ?_, ?_, ?_⟩
  · simp [FOtelMeter.CreateHistogram, FOtelMeter.HistogramAggregation,
      FOtelHistogramBuckets.FromUInt64, hM, hP, hu1]
  · simp [FOtelMeter.CreateHistogram, FOtelMeter.HistogramAggregation,
      FOtelHistogramBuckets.FromDouble, hM, hP, hd1]
  · simp [FOtelMeter.CreateHistogram, FOtelMeter.HistogramAggregation,
      FOtelHistogramBuckets.FromUInt64, hM]
  · simp [FOtelMeter.CreateHistogram, FOtelMeter.HistogramAggregation,
      FOtelHistogramBuckets.FromDouble, hM]

/-- C25 amended, at a concrete meter: `exMeter` with the `uint64` boundaries 0, 512,
1024 and the `double` boundary 2.0. -/
theorem C25_view_with_double_boundaries_before_histogram_witness :
    exMeter.CreateHistogram EOtelInstrumentType.Int64 (some "h")
        (FOtelHistogramBuckets.FromUInt64 [0, 512, 1024]) "B" =
      some (FOtelHistogram.UInt64,
        [MeterCall.AddView "h" "B" exMeter.Name exMeter.Version exMeter.SchemaUrl
            ([0, 512, 1024].map Double.ofUInt64),
          MeterCall.CreateUInt64Histogram "h" "B"]) ∧
    (∀ n ∈ [0, 512, 1024], n ≤ 2 ^ 53 → (Double.ofUInt64 n).natValue = some n) ∧
    exMeter.CreateHistogram EOtelInstrumentType.Double (some "h")
        (FOtelHistogramBuckets.FromDouble [exTwo]) "B" =
      some (FOtelHistogram.Double,
        [MeterCall.AddView "h" "B" exMeter.Name exMeter.Version exMeter.SchemaUrl [exTwo],
          MeterCall.CreateDoubleHistogram "h" "B"]) ∧
    exMeter.CreateHistogram EOtelInstrumentType.Int64 (some "h")
        (FOtelHistogramBuckets.FromUInt64 []) "B" =
      some (FOtelHistogram.UInt64, [MeterCall.CreateUInt64Histogram "h" "B"]) ∧
    exMeter.CreateHistogram EOtelInstrumentType.Double (some "h")
        (FOtelHistogramBuckets.FromDouble []) "B" =
      some (FOtelHistogram.Double, [MeterCall.CreateDoubleHistogram "h" "B"]) :=
  C25_view_with_double_boundaries_before_histogram exMeter 1 rfl rfl "h" "B" [0, 512, 1024]
    [exTwo] (by decide) (by decide)

theorem ForEachAttribute_accepted (accept : String → AttributeValue → Bool)
    (Attributes : List FAnalyticsEventAttribute) (seen : List (String × AttributeValue))
    (hacc : ∀ a ∈ Attributes, accept a.1 (AttributeValue.Str a.2) = true) :
    EventAttributesOtelConverter.ForEachAttribute (recordPairs accept) Attributes seen =
      (true, seen ++ Attributes.map attributePair) := by
  induction Attributes generalizing seen with
  | nil => simp [EventAttributesOtelConverter.ForEachAttribute]
  | cons a rest ih =>
    have ha := hacc a (by simp)
    simp only [EventAttributesOtelConverter.ForEachAttribute, recordPairs, ha]
    rw [if_neg (by simp)]
    have := ih (seen ++ [(a.1, AttributeValue.Str a.2)]) (fun b hb => hacc b (by simp [hb]))
    simp only [recordPairs] at this
    rw [this]
    simp [attributePair]

theorem ForEachAttribute_rejected (accept : String → AttributeValue → Bool)
    (pre post : List FAnalyticsEventAttribute) (a : FAnalyticsEventAttribute)
    (seen : List (String × AttributeValue))
    (hacc : ∀ b ∈ pre, accept b.1 (AttributeValue.Str b.2) = true)
    (hrej : accept a.1 (AttributeValue.Str a.2) = false) :
    EventAttributesOtelConverter.ForEachAttribute (recordPairs accept) (pre ++ a :: post) seen =
      (false, seen ++ (pre ++ [a]).map attributePair) := by
  induction pre generalizing seen with
  | nil =>
    simp [EventAttributesOtelConverter.ForEachAttribute, recordPairs, hrej, attributePair]
  | cons b rest ih =>
    have hb := hacc b (by simp)
    simp only [List.cons_append, EventAttributesOtelConverter.ForEachAttribute, recordPairs, hb]
    rw [if_neg (by simp)]
    have := ih (seen ++ [(b.1, AttributeValue.Str b.2)]) (fun c hc => hacc c (by simp [hc]))
    simp only [recordPairs] at this
    have e : rest.append (a :: post) = rest ++ a :: post := rfl
    rw [e, this]
    simp [attributePair]

/-- C26: with a callback that accepts every attribute, `ForEachKeyValue` hands it the
attributes as pairs of name and value in their order and returns true, with nothing
more when no file is set, and with the pair `code.filepath` and then the pair
`code.lineno` after them when a file is set (the line number is then positive, which
the code asserts); the answers of the callback to these two pairs are not looked at.
When the callback answers false on an attribute, that attribute is the last pair it
is handed, with or without a file, and the result is false. -/
theorem C26_converter_delivers_pairs_in_order (accept : String → AttributeValue → Bool)
    (seen : List (String × AttributeValue)) (Attributes : List FAnalyticsEventAttribute)
    (File : String) (LineNumber : Int) (hline : 0 < LineNumber) :
    ((∀ a ∈ Attributes, accept a.1 (AttributeValue.Str a.2) = true) →
      EventAttributesOtelConverter.ForEachKeyValue ⟨Attributes, none, LineNumber⟩
          (recordPairs accept) seen =
        some (true, seen ++ Attributes.map attributePair) ∧
      EventAttributesOtelConverter.ForEachKeyValue (EventAttributesOtelConverter.ctor Attributes)
          (recordPairs accept) seen =
        some (true, seen ++ Attributes.map attributePair) ∧
      EventAttributesOtelConverter.ForEachKeyValue ⟨Attributes, some File, LineNumber⟩
          (recordPairs accept) seen =
        some (true, seen ++ Attributes.map attributePair ++
          [("code.filepath", AttributeValue.Str File),
            ("code.lineno", AttributeValue.Int32 LineNumber)])) ∧
    (∀ pre a post, Attributes = pre ++ a :: post →
      (∀ b ∈ pre, accept b.1 (AttributeValue.Str b.2) = true) →
      accept a.1 (AttributeValue.Str a.2) = false →
      ∀ AnyFile : Option String,
        EventAttributesOtelConverter.ForEachKeyValue ⟨Attributes, AnyFile, LineNumber⟩
            (recordPairs accept) seen =
          some (false, seen ++ (pre ++ [a]).map attributePair)) := by
  refine ⟨?_, ?_⟩
  · intro hacc
    have h := ForEachAttribute_accepted accept Attributes seen hacc
    refine ⟨?_, ?_, ?_⟩
    · simp [EventAttributesOtelConverter.ForEachKeyValue, h]
    · simp [EventAttributesOtelConverter.ForEachKeyValue, EventAttributesOtelConverter.ctor, h]
    · simp [EventAttributesOtelConverter.ForEachKeyValue, h, hline, recordPairs]
  · intro pre a post heq hacc hrej AnyFile
    have h := ForEachAttribute_rejected accept pre post a seen hacc hrej
    rw [← heq] at h
    simp [EventAttributesOtelConverter.ForEachKeyValue, h]

/-- C26 at concrete values: a callback that accepts everything, the attribute of
`exAttributes`, the file `f.cpp` and the line 12. -/
theorem C26_converter_delivers_pairs_in_order_witness :
    EventAttributesOtelConverter.ForEachKeyValue ⟨exAttributes, none, 12⟩
        (recordPairs (fun _ _ => true)) [] =
      some (true, [] ++ exAttributes.map attributePair) ∧
    EventAttributesOtelConverter.ForEachKeyValue (EventAttributesOtelConverter.ctor exAttributes)
        (recordPairs (fun _ _ => true)) [] =
      some (true, [] ++ exAttributes.map attributePair) ∧
    EventAttributesOtelConverter.ForEachKeyValue ⟨exAttributes, some "f.cpp", 12⟩
        (recordPairs (fun _ _ => true)) [] =
      some (true, [] ++ exAttributes.map attributePair ++
        [("code.filepath", AttributeValue.Str "f.cpp"),
          ("code.lineno", AttributeValue.Int32 12)]) :=
  (C26_converter_delivers_pairs_in_order (fun _ _ => true) [] exAttributes "f.cpp" 12
    (by decide)).1 (fun _ _ => rfl)

/-! ## The checks of CreateHistogram -/

/-- C27, the claim as written fails: on the meter `exMeter`, which has an SDK meter,
`CreateHistogram` with the `double` boundary 2.0 and the type `Int64`, and with the
`uint64` boundary 1 and the type `Double`, fails the fatal `check` on the bucket
list of the other type. -/
theorem C27_other_type_buckets_fail_check_counterexample :
    exMeter.CreateHistogram EOtelInstrumentType.Int64 (some "h")
      (FOtelHistogramBuckets.FromDouble [exTwo]) "" = none ∧
    exMeter.CreateHistogram EOtelInstrumentType.Double (some "h")
      (FOtelHistogramBuckets.FromUInt64 [1]) "" = none := by
  decide

/-- C27, amended: with a name that is not null, `CreateHistogram` returns a histogram on
a meter with no SDK meter for every type and every bucket list, and on a meter with
an SDK meter (the meter provider of the module set) for a bucket list of the type of
the instrument, empty or not; on a meter with an SDK meter it fails the fatal
`check` when the bucket list of the other type is not empty. -/
theorem C27_create_histogram_checks_other_type_buckets (M : FOtelMeter) (Name : String)
    (UnitTypeStr : String) :
    (M.OtelMeter = none → ∀ T Buckets,
      M.CreateHistogram T (some Name) Buckets UnitTypeStr = some (FOtelHistogram.Noop T, [])) ∧
    (∀ m, M.OtelMeter = some m → M.MeterProvider = true →
      (∀ u, ∃ calls, M.CreateHistogram EOtelInstrumentType.Int64 (some Name)
        (FOtelHistogramBuckets.FromUInt64 u) UnitTypeStr = some (FOtelHistogram.UInt64, calls)) ∧
      (∀ d, ∃ calls, M.CreateHistogram EOtelInstrumentType.Double (some Name)
        (FOtelHistogramBuckets.FromDouble d) UnitTypeStr = some (FOtelHistogram.Double, calls))) ∧
    (∀ m, M.OtelMeter = some m →
      ∀ Buckets : FOtelHistogramBuckets,
        (Buckets.DoubleBuckets ≠ [] →
          M.CreateHistogram EOtelInstrumentType.Int64 (some Name) Buckets UnitTypeStr = none) ∧
        (Buckets.UInt64Buckets ≠ [] →
          M.CreateHistogram EOtelInstrumentType.Double (some Name) Buckets UnitTypeStr =
            none)) := by
  refine ⟨?_, ?_, ?_⟩
  · intro hM T Buckets
    simp [FOtelMeter.CreateHistogram, hM]
  · intro m hM hP
    refine ⟨?_, ?_⟩
    · intro u
      cases u with
      | nil =>
        exact ⟨[MeterCall.CreateUInt64Histogram Name UnitTypeStr],
          by simp [FOtelMeter.CreateHistogram, FOtelMeter.HistogramAggregation,
            FOtelHistogramBuckets.FromUInt64, hM]⟩
      | cons x rest =>
        exact ⟨[MeterCall.AddView Name UnitTypeStr M.Name M.Version M.SchemaUrl
            ((x :: rest).map Double.ofUInt64), MeterCall.CreateUInt64Histogram Name UnitTypeStr],
          by simp [FOtelMeter.CreateHistogram, FOtelMeter.HistogramAggregation,
            FOtelHistogramBuckets.FromUInt64, hM, hP]⟩
    · intro d
      cases d with
      | nil =>
        exact ⟨[MeterCall.CreateDoubleHistogram Name UnitTypeStr],
          by simp [FOtelMeter.CreateHistogram, FOtelMeter.HistogramAggregation,
            FOtelHistogramBuckets.FromDouble, hM]⟩
      | cons x rest =>
        exact ⟨[MeterCall.AddView Name UnitTypeStr M.Name M.Version M.SchemaUrl
            (x :: rest), MeterCall.CreateDoubleHistogram Name UnitTypeStr],
          by simp [FOtelMeter.CreateHistogram, FOtelMeter.HistogramAggregation,
            FOtelHistogramBuckets.FromDouble, hM, hP]⟩
  · intro m hM Buckets
    refine ⟨?_, ?_⟩
    · intro hne
      simp [FOtelMeter.CreateHistogram, FOtelMeter.HistogramAggregation, hM, hne]
    · intro hne
      simp [FOtelMeter.CreateHistogram, FOtelMeter.HistogramAggregation, hM, hne]

/-- C27 amended, at concrete meters: `exNoMeter` with `double` boundaries for the type
`Int64`, and `exMeter` with the same. -/
theorem C27_create_histogram_checks_other_type_buckets_witness :
    exNoMeter.CreateHistogram EOtelInstrumentType.Int64 (some "h")
      (FOtelHistogramBuckets.FromDouble [exTwo]) "" =
        some (FOtelHistogram.Noop EOtelInstrumentType.Int64, []) ∧
    exMeter.CreateHistogram EOtelInstrumentType.Int64 (some "h")
      (FOtelHistogramBuckets.FromDouble [exTwo]) "" = none :=
  ⟨(C27_create_histogram_checks_other_type_buckets exNoMeter "h" "").1 rfl _ _,
    ((C27_create_histogram_checks_other_type_buckets exMeter "h" "").2.2 1 rfl
      (FOtelHistogramBuckets.FromDouble [exTwo])).1 (by decide)⟩

/-! ## Reference counts under assignment -/

/-- C28 fails on the code: three nested `StartSpanScoped` calls on tracer 7 give the state
`exThree` and the handles on the entries 0, 1 and 2, each entry with the count 1
and one handle. Assigning the second handle to the first leaves the count of entry
0 at 1 although no handle refers to it any more, and assigning the second handle to
itself raises the count of entry 1 to 2 although one handle refers to it. -/
theorem C28_assignment_breaks_reference_count :
    startAll exTracer [100, 101, 102] exEmpty =
      some ([{ Scope := some 0 }, { Scope := some 1 }, { Scope := some 2 }], exThree) ∧
    (FOtelScopedSpan.assign { Scope := some 0 } { Scope := some 1 } exThree).map
      (fun r => (r.1, r.2.Heap.map (fun impl => impl.RefCount))) =
        some ({ Scope := some 1 }, [1, 2, 1]) ∧
    liveCount [{ Scope := some 1 }, { Scope := some 1 }, { Scope := some 2 }] 0 = 0 ∧
    (FOtelScopedSpan.assign { Scope := some 1 } { Scope := some 1 } exThree).map
      (fun r => (r.1, r.2.Heap.map (fun impl => impl.RefCount))) =
        some ({ Scope := some 1 }, [1, 2, 1]) ∧
    liveCount [{ Scope := some 0 }, { Scope := some 1 }, { Scope := some 2 }] 1 = 1 := by
  decide

/-! ## The meter name of the view -/

/-- C29 fails on the code: `GetMeter(nullptr)` with the default meter name
`default_meter` obtains the SDK meter under that name, and the view that
`CreateHistogram` then adds for the boundary 2.0 names the meter with the empty
name. -/
theorem C29_view_of_default_meter_names_empty_meter :
    (FOtelModule.GetMeter exConfig (some (fun _ => 1)) none).2 = some "default_meter" ∧
    ((FOtelModule.GetMeter exConfig (some (fun _ => 1)) none).1.CreateHistogram
      EOtelInstrumentType.Double (some "h") (FOtelHistogramBuckets.FromDouble [exTwo]) "").map
      (fun r => r.2.filterMap MeterCall.ViewMeterName) = some [""] := by
  decide

/-! ## EmitLog and its file and line arguments -/

/-- C30: `EmitLog` returns, and two calls on the same state that differ only in the file
and the line number return the same state: the same calls on the span, the same
log records, the same stacks. -/
theorem C30_emit_log_ignores_file_and_line (X : External) (Message : String)
    (Attributes : List FAnalyticsEventAttribute) (File1 File2 : Option String)
    (LineNumber1 LineNumber2 : Int) (TracerName : FName) (Status : Option EOtelStatus)
    (w : World) :
    ∃ w1, FOtelModule.EmitLog X Message Attributes File1 LineNumber1 TracerName Status w =
        some w1 ∧
      FOtelModule.EmitLog X Message Attributes File2 LineNumber2 TracerName Status w =
        some w1 := by
  obtain ⟨w1, he, _⟩ :=
    EmitLog_record X Message Attributes File1 LineNumber1 TracerName Status w
  exact ⟨w1, he, he⟩

/-! ## The invariant behind "ended at most once" -/

theorem TMap.Add_of_Find {K V : Type} [DecidableEq K] (m : List (K × V)) (k : K) (v : V)
    (h : TMap.Find m k = some v) :
    ∃ pre post, m = pre ++ (k, v) :: post ∧ ∀ v2, TMap.Add m k v2 = pre ++ (k, v2) :: post := by
  induction m with
  | nil => simp [TMap.Find] at h
  | cons kv rest ih =>
    obtain ⟨k1, v1⟩ := kv
    by_cases h1 : k1 = k
    · subst h1
      simp only [TMap.Find, if_true, Option.some.injEq] at h
      subst h
      exact ⟨[], rest, rfl, fun v2 => by simp [TMap.Add]⟩
    · simp only [TMap.Find, h1, if_false] at h
      obtain ⟨pre, post, e1, e2⟩ := ih h
      refine ⟨(k1, v1) :: pre, post, by rw [e1]; rfl, fun v2 => ?_⟩
      simp [TMap.Add, h1, e2 v2]

theorem spanAt_eq_map (H : List FOtelScopedSpanImpl) (q : Nat) :
    spanAt H q = ((H.map (·.Span))[q]?).bind (·.OtelSpan) := by
  unfold spanAt
  rw [List.getElem?_map]
  cases H[q]? <;> rfl

theorem spanAt_congr (H1 H2 : List FOtelScopedSpanImpl)
    (h : H1.map (·.Span) = H2.map (·.Span)) (q : Nat) : spanAt H1 q = spanAt H2 q := by
  rw [spanAt_eq_map, spanAt_eq_map, h]

theorem spanAt_lt (H : List FOtelScopedSpanImpl) (q s : Nat) (h : spanAt H q = some s) :
    q < H.length := by
  by_contra hc
  simp [spanAt, List.getElem?_eq_none (Nat.le_of_not_lt hc)] at h

theorem spanAt_of_map_append (H1 H : List FOtelScopedSpanImpl) (sp : FOtelSpan)
    (h : H1.map (·.Span) = H.map (·.Span) ++ [sp]) (q : Nat) :
    (q < H.length → spanAt H1 q = spanAt H q) ∧
    (q = H.length → spanAt H1 q = sp.OtelSpan) ∧
    (H.length < q → spanAt H1 q = none) := by
  rw [spanAt_eq_map, spanAt_eq_map, h]
  refine ⟨?_, ?_, ?_⟩
  · intro hq
    rw [List.getElem?_append_left (by simpa using hq)]
  · intro hq
    subst hq
    rw [List.getElem?_append_right (by simp)]
    simp
  · intro hq
    rw [List.getElem?_append_right (by simp; omega)]
    have : q - H.length ≠ 0 := by omega
    simp [this]
    cases hq2 : q - H.length with
    | zero => omega
    | succ n => simp

theorem Ended_of_append_ends (w w1 : World) (l : List Nat)
    (h : w1.SdkLog = w.SdkLog ++ l.map SdkCall.End) : w1.Ended = w.Ended ++ l := by
  have key : ∀ l : List Nat, List.filterMap SdkCall.ended (l.map SdkCall.End) = l := by
    intro l
    induction l with
    | nil => rfl
    | cons s rest ih => simp only [List.map_cons, List.filterMap_cons, SdkCall.ended, ih]
  unfold World.Ended
  rw [h, List.filterMap_append, key]

theorem Ended_of_eq (w w1 : World) (h : w1.SdkLog = w.SdkLog) : w1.Ended = w.Ended := by
  unfold World.Ended
  rw [h]

theorem Ended_of_append_start (w w1 : World) (s : Nat) (parent : Option Nat)
    (h : w1.SdkLog = w.SdkLog ++ [SdkCall.StartSpan s parent]) : w1.Ended = w.Ended := by
  unfold World.Ended
  rw [h, List.filterMap_append]
  simp [SdkCall.ended]

theorem StacksValid_iff_Entries (w : World) :
    w.StacksValid ↔ ∀ q ∈ w.Entries, q < w.Heap.length := by
  unfold World.StacksValid World.Entries
  constructor
  · intro h q hq
    rw [List.mem_flatMap] at hq
    obtain ⟨kv, hkv, hq⟩ := hq
    exact h kv hkv q hq
  · intro h kv hkv q hq
    exact h q (List.mem_flatMap.mpr ⟨kv, hkv, hq⟩)

theorem Sound_of_quiet (w w1 : World) (hs : w.Sound)
    (hH : w1.Heap.map (·.Span) = w.Heap.map (·.Span))
    (hS : w1.Get.TracerToScopeStack = w.Get.TracerToScopeStack)
    (hL : w1.SdkLog = w.SdkLog) : w1.Sound := by
  have hE : w1.Ended = w.Ended := Ended_of_eq w w1 hL
  have hEn : w1.Entries = w.Entries := by unfold World.Entries; rw [hS]
  have hsp : ∀ q, spanAt w1.Heap q = spanAt w.Heap q := spanAt_congr _ _ hH
  have hlen : w1.Heap.length = w.Heap.length := length_of_map_span _ _ hH
  refine ⟨?_, ?_, ?_, ?_, ?_, ?_⟩
  · intro q hq
    rw [hlen]
    exact hs.valid q (hEn ▸ hq)
  · rw [hEn]; exact hs.entries
  · intro i j s hi hj
    rw [hsp] at hi hj
    exact hs.spans i j s hi hj
  · rw [hE]; exact hs.ended
  · intro q hq s hq2
    rw [hE]
    rw [hsp] at hq2
    exact hs.live q (hEn ▸ hq) s hq2
  · intro s hs2
    rw [hE] at hs2
    obtain ⟨q, hq⟩ := hs.known s hs2
    exact ⟨q, by rw [hsp]; exact hq⟩

theorem Sound_of_cut (w w1 : World) (hs : w.Sound) (T : FName) (Scopes : List Nat) (k : Nat)
    (hH : w1.Heap.map (·.Span) = w.Heap.map (·.Span))
    (hF : TMap.Find w.Get.TracerToScopeStack T = some Scopes)
    (hS : w1.Get.TracerToScopeStack = TMap.Add w.Get.TracerToScopeStack T (Scopes.take k))
    (hL : w1.SdkLog = w.SdkLog ++
      ((Scopes.drop k).reverse.filterMap (spanAt w.Heap)).map SdkCall.End) : w1.Sound := by
  have hE : w1.Ended = w.Ended ++ (Scopes.drop k).reverse.filterMap (spanAt w.Heap) :=
    Ended_of_append_ends w w1 _ hL
  have hsp : ∀ q, spanAt w1.Heap q = spanAt w.Heap q := spanAt_congr _ _ hH
  have hlen : w1.Heap.length = w.Heap.length := length_of_map_span _ _ hH
  obtain ⟨pre, post, e1, e2⟩ := TMap.Add_of_Find _ _ _ hF
  have hEn : w.Entries = pre.flatMap (fun Pair => Pair.2) ++
      ((Scopes.take k ++ Scopes.drop k) ++ post.flatMap (fun Pair => Pair.2)) := by
    unfold World.Entries
    rw [e1, List.take_append_drop]
    simp
  have hEn1 : w1.Entries = pre.flatMap (fun Pair => Pair.2) ++
      (Scopes.take k ++ post.flatMap (fun Pair => Pair.2)) := by
    unfold World.Entries
    rw [hS, e2]
    simp
  generalize pre.flatMap (fun Pair => Pair.2) = A at hEn hEn1
  generalize post.flatMap (fun Pair => Pair.2) = B at hEn hEn1
  generalize Scopes.take k = t at hEn hEn1
  generalize hd : Scopes.drop k = d at hEn hE
  have hN := hs.entries
  rw [hEn] at hN
  have hsub : ∀ q ∈ w1.Entries, q ∈ w.Entries := by
    intro q hq
    rw [hEn1] at hq
    rw [hEn]
    simp only [List.mem_append] at hq ⊢
    tauto
  have hdin : ∀ q ∈ d, q ∈ w.Entries := by
    intro q hq
    rw [hEn]
    simp only [List.mem_append]
    tauto
  have hdis : ∀ q ∈ d, q ∉ w1.Entries := by
    intro q hq hq1
    rw [hEn1] at hq1
    simp only [List.nodup_append, List.mem_append, List.Disjoint] at hN
    simp only [List.mem_append] at hq1
    obtain ⟨_, ⟨⟨_, _, h3⟩, _, h5⟩, h6⟩ := hN
    rcases hq1 with h | h | h
    · exact h6 h (Or.inl (Or.inr hq))
    · exact h3 h hq
    · exact h5 (Or.inr hq) h
  have hdN : d.Nodup := by
    simp only [List.nodup_append] at hN
    exact hN.2.1.1.2.1
  refine ⟨?_, ?_, ?_, ?_, ?_, ?_⟩
  · intro q hq
    rw [hlen]
    exact hs.valid q (hsub q hq)
  · rw [hEn1]
    exact List.Nodup.sublist (List.Sublist.append (List.Sublist.refl A)
      (List.Sublist.append (List.sublist_append_left t d) (List.Sublist.refl B))) hN
  · intro i j s hi hj
    rw [hsp] at hi hj
    exact hs.spans i j s hi hj
  · rw [hE]
    refine List.Nodup.append hs.ended ?_ ?_
    · exact List.Nodup.filterMap (fun a a2 b hb hb2 => hs.spans a a2 b hb hb2)
        (List.nodup_reverse.mpr hdN)
    · intro s hs1 hs2
      rw [List.mem_filterMap] at hs2
      obtain ⟨q, hq, hq2⟩ := hs2
      exact hs.live q (hdin q (List.mem_reverse.mp hq)) s hq2 hs1
  · intro q hq s hq2
    rw [hsp] at hq2
    rw [hE, List.mem_append]
    rintro (h | h)
    · exact hs.live q (hsub q hq) s hq2 h
    · rw [List.mem_filterMap] at h
      obtain ⟨q2, hq3, hq4⟩ := h
      have := hs.spans q q2 s hq2 hq4
      subst this
      exact hdis q (List.mem_reverse.mp hq3) hq
  · intro s hs2
    rw [hE, List.mem_append] at hs2
    rcases hs2 with h | h
    · obtain ⟨q, hq⟩ := hs.known s h
      exact ⟨q, by rw [hsp]; exact hq⟩
    · rw [List.mem_filterMap] at h
      obtain ⟨q, _, hq⟩ := h
      exact ⟨q, by rw [hsp]; exact hq⟩

theorem Entries_of_push (w w1 : World) (T : FName) (n : Nat)
    (hS : w1.Get.TracerToScopeStack =
      TMap.Add w.Get.TracerToScopeStack T (w.Scopes T ++ [n]))
    (hN : w.Entries.Nodup) (hn : n ∉ w.Entries) :
    (∀ q, q ∈ w1.Entries ↔ q ∈ w.Entries ∨ q = n) ∧ w1.Entries.Nodup := by
  cases hF : TMap.Find w.Get.TracerToScopeStack T with
  | none =>
    have hSc : w.Scopes T = [] := by simp [World.Scopes, hF]
    have hEn1 : w1.Entries = w.Entries ++ [n] := by
      unfold World.Entries
      rw [hS, hSc, TMap.Add_of_absent _ _ _ hF]
      simp
    rw [hEn1]
    refine ⟨fun q => by simp, ?_⟩
    exact List.Nodup.append hN (List.nodup_singleton n) (by
      intro q hq hq2
      rw [List.mem_singleton] at hq2
      exact hn (hq2 ▸ hq))
  | some old =>
    have hSc : w.Scopes T = old := by simp [World.Scopes, hF]
    obtain ⟨pre, post, e1, e2⟩ := TMap.Add_of_Find _ _ _ hF
    have hEn : w.Entries = pre.flatMap (fun Pair => Pair.2) ++
        (old ++ post.flatMap (fun Pair => Pair.2)) := by
      unfold World.Entries
      rw [e1]
      simp
    have hEn1 : w1.Entries = pre.flatMap (fun Pair => Pair.2) ++
        ((old ++ [n]) ++ post.flatMap (fun Pair => Pair.2)) := by
      unfold World.Entries
      rw [hS, hSc, e2]
      simp
    generalize pre.flatMap (fun Pair => Pair.2) = A at hEn hEn1
    generalize post.flatMap (fun Pair => Pair.2) = B at hEn hEn1
    rw [hEn] at hN hn
    rw [hEn1, hEn]
    refine ⟨fun q => by simp only [List.mem_append, List.mem_singleton]; tauto, ?_⟩
    simp only [List.nodup_append, List.mem_append, List.Disjoint, List.mem_singleton,
      List.nodup_cons, List.nodup_nil, List.not_mem_nil, not_or] at hN hn ⊢
    obtain ⟨h1, ⟨h2, h3, h4⟩, h5⟩ := hN
    obtain ⟨n1, n2, n3⟩ := hn
    refine ⟨h1, ⟨⟨h2, ⟨by simp, by trivial⟩, ?_⟩, h3, ?_⟩, ?_⟩
    · intro a ha hb
      exact n2 (hb ▸ ha)
    · intro a ha hb
      rcases ha with ha | ha
      · exact h4 ha hb
      · exact n3 (ha ▸ hb)
    · intro a ha hb
      rcases hb with (hb | hb) | hb
      · exact h5 ha (Or.inl hb)
      · exact n1 (hb ▸ ha)
      · exact h5 ha (Or.inr hb)

theorem Sound_of_push (w w1 : World) (hs : w.Sound) (T : FName) (sp : FOtelSpan)
    (hH : w1.Heap.map (·.Span) = w.Heap.map (·.Span) ++ [sp])
    (hfresh : ∀ s, sp.OtelSpan = some s → ∀ q, spanAt w.Heap q ≠ some s)
    (hS : w1.Get.TracerToScopeStack =
      TMap.Add w.Get.TracerToScopeStack T (w.Scopes T ++ [w.Heap.length]))
    (hE : w1.Ended = w.Ended) : w1.Sound := by
  have hn : w.Heap.length ∉ w.Entries := fun h => Nat.lt_irrefl _ (hs.valid _ h)
  obtain ⟨hmem, hnd⟩ := Entries_of_push w w1 T w.Heap.length hS hs.entries hn
  have hlen : w1.Heap.length = w.Heap.length + 1 := by
    have := congrArg List.length hH
    simpa using this
  have hsp := spanAt_of_map_append w1.Heap w.Heap sp hH
  have hold : ∀ q s, spanAt w1.Heap q = some s →
      (q < w.Heap.length ∧ spanAt w.Heap q = some s) ∨
      (q = w.Heap.length ∧ sp.OtelSpan = some s) := by
    intro q s hq
    rcases Nat.lt_trichotomy q w.Heap.length with h | h | h
    · exact Or.inl ⟨h, by rw [← (hsp q).1 h]; exact hq⟩
    · exact Or.inr ⟨h, by rw [← (hsp q).2.1 h]; exact hq⟩
    · rw [(hsp q).2.2 h] at hq
      cases hq
  refine ⟨?_, hnd, ?_, ?_, ?_, ?_⟩
  · intro q hq
    rw [hlen]
    rcases (hmem q).mp hq with h | h
    · exact Nat.lt_succ_of_lt (hs.valid q h)
    · omega
  · intro i j s hi hj
    rcases hold i s hi with ⟨_, h1⟩ | ⟨h1, h2⟩
    · rcases hold j s hj with ⟨_, h3⟩ | ⟨_, h4⟩
      · exact hs.spans i j s h1 h3
      · exact absurd h1 (hfresh s h4 i)
    · rcases hold j s hj with ⟨_, h3⟩ | ⟨h3, _⟩
      · exact absurd h3 (hfresh s h2 j)
      · omega
  · rw [hE]; exact hs.ended
  · intro q hq s hq2
    rw [hE]
    intro hend
    rcases hold q s hq2 with ⟨h0, h1⟩ | ⟨h1, h2⟩
    · rcases (hmem q).mp hq with h | h
      · exact hs.live q h s h1 hend
      · omega
    · obtain ⟨q2, hq3⟩ := hs.known s hend
      exact hfresh s h2 q2 hq3
  · intro s hs2
    rw [hE] at hs2
    obtain ⟨q, hq⟩ := hs.known s hs2
    exact ⟨q, by rw [(hsp q).1 (spanAt_lt _ _ _ hq)]; exact hq⟩

theorem nodup_ends_of_stacks (Stacks : List (FName × List Nat)) (f : Nat → Option Nat)
    (hinj : ∀ i j s, f i = some s → f j = some s → i = j)
    (hN : (Stacks.flatMap (fun Pair => Pair.2)).Nodup) :
    (Stacks.flatMap (fun Pair => Pair.2.reverse.filterMap f)).Nodup ∧
    ∀ s ∈ Stacks.flatMap (fun Pair => Pair.2.reverse.filterMap f),
      ∃ q ∈ Stacks.flatMap (fun Pair => Pair.2), f q = some s := by
  induction Stacks with
  | nil => simp
  | cons Pair rest ih =>
    rw [List.flatMap_cons] at hN
    obtain ⟨ih1, ih2⟩ := ih (List.Nodup.of_append_right hN)
    have hmem : ∀ s ∈ Pair.2.reverse.filterMap f, ∃ q ∈ Pair.2, f q = some s := by
      intro s hs
      rw [List.mem_filterMap] at hs
      obtain ⟨q, hq, hq2⟩ := hs
      exact ⟨q, List.mem_reverse.mp hq, hq2⟩
    refine ⟨?_, ?_⟩
    · rw [List.flatMap_cons]
      refine List.Nodup.append ?_ ih1 ?_
      · exact List.Nodup.filterMap (fun a a2 b hb hb2 => hinj a a2 b hb hb2)
          (List.nodup_reverse.mpr (List.Nodup.of_append_left hN))
      · intro s hs1 hs2
        obtain ⟨q, hq, hq2⟩ := hmem s hs1
        obtain ⟨q3, hq3, hq4⟩ := ih2 s hs2
        have := hinj q q3 s hq2 hq4
        subst this
        exact (List.nodup_append.mp hN).2.2 hq hq3
    · intro s hs
      rw [List.flatMap_cons, List.mem_append] at hs
      rw [List.flatMap_cons]
      rcases hs with h | h
      · obtain ⟨q, hq, hq2⟩ := hmem s h
        exact ⟨q, List.mem_append_left _ hq, hq2⟩
      · obtain ⟨q, hq, hq2⟩ := ih2 s h
        exact ⟨q, List.mem_append_right _ hq, hq2⟩

theorem flatMap_map_End (Stacks : List (FName × List Nat)) (f : Nat → Option Nat) :
    Stacks.flatMap (fun Pair => (Pair.2.reverse.filterMap f).map SdkCall.End) =
      (Stacks.flatMap (fun Pair => Pair.2.reverse.filterMap f)).map SdkCall.End := by
  induction Stacks with
  | nil => rfl
  | cons Pair rest ih => rw [List.flatMap_cons, List.flatMap_cons, List.map_append, ih]

theorem Sound_of_shutdown (w : World) (hs : w.Sound) : (FOtelModule.ShutdownModule w).Sound := by
  obtain ⟨h1, h2, h3, _⟩ := ShutdownModule_spec w
  rw [flatMap_map_End] at h1
  have hE := Ended_of_append_ends w _ _ h1
  have hEn1 : (FOtelModule.ShutdownModule w).Entries = [] := by
    unfold World.Entries
    rw [h3]
    rfl
  obtain ⟨n1, n2⟩ := nodup_ends_of_stacks w.Get.TracerToScopeStack (spanAt w.Heap) hs.spans
    hs.entries
  refine ⟨?_, ?_, ?_, ?_, ?_, ?_⟩
  · intro q hq
    rw [hEn1] at hq
    cases hq
  · rw [hEn1]
    exact List.nodup_nil
  · rw [h2]
    exact hs.spans
  · rw [hE]
    refine List.Nodup.append hs.ended n1 ?_
    intro s hs1 hs2
    obtain ⟨q, hq, hq2⟩ := n2 s hs2
    exact hs.live q hq s hq2 hs1
  · intro q hq
    rw [hEn1] at hq
    cases hq
  · intro s hs2
    rw [hE, List.mem_append] at hs2
    rw [h2]
    rcases hs2 with h | h
    · exact hs.known s h
    · obtain ⟨q, _, hq2⟩ := n2 s h
      exact ⟨q, hq2⟩

/-! ## The operations keep the invariant -/

theorem dtor_cases (self : FOtelScopedSpan) (w : World) (hv : self.Valid w)
    (hsv : w.StacksValid) :
    ∃ w1, self.dtor w = some w1 ∧ w1.Heap.map (·.Span) = w.Heap.map (·.Span) ∧
      w1.Get.PinnedSpans = w.Get.PinnedSpans ∧
      ((w1.Get.TracerToScopeStack = w.Get.TracerToScopeStack ∧ w1.SdkLog = w.SdkLog) ∨
        ∃ T Scopes k, TMap.Find w.Get.TracerToScopeStack T = some Scopes ∧
          w1.Get.TracerToScopeStack =
            TMap.Add w.Get.TracerToScopeStack T (Scopes.take k) ∧
          w1.SdkLog = w.SdkLog ++
            ((Scopes.drop k).reverse.filterMap (spanAt w.Heap)).map SdkCall.End) := by
  cases hp : self.Scope with
  | none => exact ⟨w, by simp [FOtelScopedSpan.dtor, hp], rfl, rfl, Or.inl ⟨rfl, rfl⟩⟩
  | some p =>
    have hlt : p < w.Heap.length := hv p (by simp [hp])
    have hI : w.Heap[p]? = some w.Heap[p] := List.getElem?_eq_getElem hlt
    generalize w.Heap[p] = impl at hI
    have hmap := map_span_setRefCount w p impl (impl.RefCount - 1) hI
    have hlen : (w.setRefCount p impl (impl.RefCount - 1)).Heap.length = w.Heap.length :=
      length_of_map_span _ _ hmap
    have hG : (w.setRefCount p impl (impl.RefCount - 1)).Get = w.Get := rfl
    simp only [FOtelScopedSpan.dtor, hp, hI]
    by_cases hrc : impl.RefCount - 1 ≤ 0
    · rw [if_pos hrc]
      cases hM : (w.setRefCount p impl (impl.RefCount - 1)).Module with
      | none => exact ⟨_, rfl, hmap, rfl, Or.inl ⟨rfl, rfl⟩⟩
      | some M =>
        have hGM : w.Get = M := by
          rw [← hG]
          simp [World.Get, hM]
        dsimp only
        cases hS : TMap.Find M.TracerToScopeStack impl.Span.TracerName with
        | none =>
          refine ⟨_, rfl, hmap, ?_, Or.inl ⟨?_, rfl⟩⟩
          · rw [hGM]; rfl
          · rw [hGM]; rfl
        | some Scopes =>
          dsimp only
          cases hidx : IndexOfByPredicate (fun Impl => decide (Impl = p)) Scopes with
          | none => exact ⟨_, rfl, hmap, rfl, Or.inl ⟨rfl, rfl⟩⟩
          | some Index =>
            have hmem : (impl.Span.TracerName, Scopes) ∈ w.Get.TracerToScopeStack := by
              rw [hGM]
              exact TMap.mem_of_Find _ _ _ hS
            have hval : ∀ q ∈ Scopes, q < w.Heap.length := fun q hq => hsv _ hmem q hq
            obtain ⟨w2, e1, e2, e3, e4⟩ := endScopes_spec (Scopes.drop Index).reverse
              (w.setRefCount p impl (impl.RefCount - 1))
              (by
                intro q hq
                rw [hlen]
                exact hval q (List.mem_of_mem_drop (List.mem_reverse.mp hq)))
            have hG2 : w2.Get = M := by simp [World.Get, e4, hM]
            simp only [e1]
            refine ⟨_, rfl, ?_, ?_, Or.inr ⟨impl.Span.TracerName, Scopes, Index, ?_, ?_, ?_⟩⟩
            · simp only [World.setScopes, e3]
              exact hmap
            · rw [hGM]
              simp only [World.setScopes, hG2]
              rfl
            · rw [hGM]; exact hS
            · rw [hGM]
              simp only [World.setScopes, hG2]
              rfl
            · rw [filterMap_spanAt_setRefCount w p impl _ hI] at e2
              simp only [World.setScopes]
              exact e2
    · rw [if_neg hrc]
      exact ⟨_, rfl, hmap, rfl, Or.inl ⟨rfl, rfl⟩⟩

theorem Valid_of_length (h : FOtelScopedSpan) (w w1 : World)
    (hl : w.Heap.length ≤ w1.Heap.length) (hv : h.Valid w) : h.Valid w1 :=
  fun p hp => Nat.lt_of_lt_of_le (hv p hp) hl

theorem PinnedValid_of_eq (w w1 : World) (hP : w1.Get.PinnedSpans = w.Get.PinnedSpans)
    (hl : w.Heap.length ≤ w1.Heap.length) (hv : w.PinnedValid) : w1.PinnedValid := by
  intro kv hkv
  rw [hP] at hkv
  exact Valid_of_length kv.2 w w1 hl (hv kv hkv)

theorem dtor_Sound (self : FOtelScopedSpan) (w : World) (hv : self.Valid w) (hs : w.Sound) :
    ∃ w1, self.dtor w = some w1 ∧ w1.Heap.map (·.Span) = w.Heap.map (·.Span) ∧
      w1.Get.PinnedSpans = w.Get.PinnedSpans ∧ w1.Sound := by
  obtain ⟨w1, h1, h2, h3, h4⟩ := dtor_cases self w hv ((StacksValid_iff_Entries w).mpr hs.valid)
  refine ⟨w1, h1, h2, h3, ?_⟩
  rcases h4 with ⟨a, b⟩ | ⟨T, Scopes, k, a, b, c⟩
  · exact Sound_of_quiet w w1 hs h2 a b
  · exact Sound_of_cut w w1 hs T Scopes k h2 a b c

theorem copy_Sound (h : FOtelScopedSpan) (w : World) (hv : h.Valid w) (hs : w.Sound) :
    ∃ w1, h.copy w = some (h, w1) ∧ w1.Heap.map (·.Span) = w.Heap.map (·.Span) ∧
      w1.Get.PinnedSpans = w.Get.PinnedSpans ∧ w1.Sound := by
  cases hp : h.Scope with
  | none =>
    refine ⟨w, ?_, rfl, rfl, hs⟩
    cases h
    simp only at hp
    subst hp
    simp [FOtelScopedSpan.copy]
  | some p =>
    have hlt : p < w.Heap.length := hv p (by simp [hp])
    have hI : w.Heap[p]? = some w.Heap[p] := List.getElem?_eq_getElem hlt
    obtain ⟨w1, a1, a2, a3, a4⟩ := copy_spec h w p _ hp hI
    refine ⟨w1, ?_, a2, by rw [a3], Sound_of_quiet w w1 hs a2 (by rw [a3]) a4⟩
    cases h
    simp only at hp
    subst hp
    exact a1

theorem assign_Sound (lhs h : FOtelScopedSpan) (w : World) (hv : h.Valid w) (hs : w.Sound) :
    ∃ w1, lhs.assign h w = some (h, w1) ∧ w1.Heap.map (·.Span) = w.Heap.map (·.Span) ∧
      w1.Get.PinnedSpans = w.Get.PinnedSpans ∧ w1.Sound := by
  cases hp : h.Scope with
  | none =>
    refine ⟨w, ?_, rfl, rfl, hs⟩
    cases h
    simp only at hp
    subst hp
    simp [FOtelScopedSpan.assign]
  | some p =>
    have hlt : p < w.Heap.length := hv p (by simp [hp])
    have hI : w.Heap[p]? = some w.Heap[p] := List.getElem?_eq_getElem hlt
    obtain ⟨w1, a1, a2, a3, a4⟩ := assign_spec lhs h w p _ hp hI
    refine ⟨w1, ?_, a2, by rw [a3], Sound_of_quiet w w1 hs a2 (by rw [a3]) a4⟩
    cases h
    simp only at hp
    subst hp
    exact a1

theorem setPinned_Sound (w : World) (Pinned : List (Nat × FOtelScopedSpan)) (hs : w.Sound) :
    (w.setPinned Pinned).Sound :=
  Sound_of_quiet w _ hs rfl rfl rfl

theorem PinnedValid_setPinned (w : World) (Pinned : List (Nat × FOtelScopedSpan))
    (h : ∀ kv ∈ Pinned, FOtelScopedSpan.Valid kv.2 w) : (w.setPinned Pinned).PinnedValid :=
  fun kv hkv => h kv hkv

theorem PinnedSpansAdd_Sound (SpanId : Nat) (Value : FOtelScopedSpan) (w : World)
    (hv : Value.Valid w) (hs : w.Sound) (hpv : w.PinnedValid) :
    ∃ w1, FOtelModule.PinnedSpansAdd SpanId Value w = some w1 ∧
      w1.Heap.map (·.Span) = w.Heap.map (·.Span) ∧ w1.Sound ∧ w1.PinnedValid := by
  obtain ⟨wa, a1, a2, a3, a4⟩ := copy_Sound Value w hv hs
  have hla : w.Heap.length = wa.Heap.length := (length_of_map_span _ _ a2).symm
  have hva : Value.Valid wa := Valid_of_length Value w wa (Nat.le_of_eq hla) hv
  have hpa : wa.PinnedValid := PinnedValid_of_eq w wa a3 (Nat.le_of_eq hla) hpv
  simp only [FOtelModule.PinnedSpansAdd, a1]
  cases hf : TMap.Find wa.Get.PinnedSpans SpanId with
  | none =>
    refine ⟨_, rfl, a2, setPinned_Sound wa _ a4, PinnedValid_setPinned wa _ ?_⟩
    intro kv hkv
    rcases TMap.mem_Add _ _ _ _ hkv with h | h
    · exact hpa kv h
    · rw [h]; exact hva
  | some Old =>
    have hOld : Old.Valid wa := hpa (SpanId, Old) (TMap.mem_of_Find _ _ _ hf)
    obtain ⟨wb, b1, b2, b3, b4⟩ := dtor_Sound Old wa hOld a4
    have hlb : wa.Heap.length = wb.Heap.length := (length_of_map_span _ _ b2).symm
    simp only [b1]
    refine ⟨_, rfl, by rw [← a2, ← b2]; rfl, setPinned_Sound wb _ b4,
      PinnedValid_setPinned wb _ ?_⟩
    intro kv hkv
    rcases TMap.mem_Add _ _ _ _ hkv with h | h
    · rw [b3] at h
      exact Valid_of_length kv.2 wa wb (Nat.le_of_eq hlb) (hpa kv h)
    · rw [h]
      exact Valid_of_length Value wa wb (Nat.le_of_eq hlb) hva

theorem Inner_of_Valid (h : FOtelScopedSpan) (w : World) (hv : h.Valid w) :
    ∃ Span, h.Inner w = some Span := by
  cases hp : h.Scope with
  | none => exact ⟨FOtelSpan.ctor, by simp [FOtelScopedSpan.Inner, hp]⟩
  | some p =>
    have hlt : p < w.Heap.length := hv p (by simp [hp])
    exact ⟨w.Heap[p].Span, by simp [FOtelScopedSpan.Inner, hp, List.getElem?_eq_getElem hlt]⟩

theorem Pin_Sound (span_id : Nat → Nat) (Arg : FOtelScopedSpan) (w : World)
    (hv : Arg.Valid w) (hs : w.Sound) (hpv : w.PinnedValid) :
    ∃ id w1, FOtelModule.Pin span_id Arg w = some (id, w1) ∧
      w1.Heap.map (·.Span) = w.Heap.map (·.Span) ∧ w1.Sound ∧ w1.PinnedValid := by
  obtain ⟨wa, a1, a2, a3, a4⟩ := copy_Sound Arg w hv hs
  have hla : w.Heap.length = wa.Heap.length := (length_of_map_span _ _ a2).symm
  have hva : Arg.Valid wa := Valid_of_length Arg w wa (Nat.le_of_eq hla) hv
  have hpa : wa.PinnedValid := PinnedValid_of_eq w wa a3 (Nat.le_of_eq hla) hpv
  obtain ⟨Span, hI⟩ := Inner_of_Valid Arg wa hva
  simp only [FOtelModule.Pin, a1, hI]
  cases hsp : Span.OtelSpan with
  | none =>
    obtain ⟨wb, b1, b2, b3, b4⟩ := dtor_Sound Arg wa hva a4
    simp only [b1]
    exact ⟨_, _, rfl, by rw [b2, a2],
      b4, PinnedValid_of_eq wa wb b3 (Nat.le_of_eq (length_of_map_span _ _ b2).symm) hpa⟩
  | some s =>
    obtain ⟨wb, b1, b2, b3, b4⟩ := PinnedSpansAdd_Sound (span_id s) Arg wa hva a4 hpa
    have hlb : wa.Heap.length = wb.Heap.length := (length_of_map_span _ _ b2).symm
    obtain ⟨wc, c1, c2, c3, c4⟩ :=
      dtor_Sound Arg wb (Valid_of_length Arg wa wb (Nat.le_of_eq hlb) hva) b3
    simp only [b1, c1]
    exact ⟨_, _, rfl, by rw [c2, b2, a2],
      c4, PinnedValid_of_eq wb wc c3 (Nat.le_of_eq (length_of_map_span _ _ c2).symm) b4⟩

theorem Unpin_Sound (SpanId : Nat) (w : World) (hs : w.Sound) (hpv : w.PinnedValid) :
    ∃ h w1, FOtelModule.Unpin SpanId w = some (h, w1) ∧
      w1.Heap.map (·.Span) = w.Heap.map (·.Span) ∧ w1.Sound ∧ w1.PinnedValid ∧ h.Valid w1 := by
  cases hf : TMap.Find w.Get.PinnedSpans SpanId with
  | none =>
    refine ⟨(FOtelScopedSpan.move FOtelScopedSpan.ctor).1, w,
      by simp only [FOtelModule.Unpin, hf], rfl, hs, hpv, ?_⟩
    intro p hp
    simp [FOtelScopedSpan.move, FOtelScopedSpan.ctor] at hp
  | some Stored =>
    have hSt : Stored.Valid w := hpv (SpanId, Stored) (TMap.mem_of_Find _ _ _ hf)
    obtain ⟨wa, a1, a2, a3, a4⟩ := assign_Sound FOtelScopedSpan.ctor Stored w hSt hs
    have hla : w.Heap.length = wa.Heap.length := (length_of_map_span _ _ a2).symm
    have hSa : Stored.Valid wa := Valid_of_length Stored w wa (Nat.le_of_eq hla) hSt
    obtain ⟨wb, b1, b2, b3, b4⟩ := dtor_Sound Stored wa hSa a4
    have hlb : wa.Heap.length = wb.Heap.length := (length_of_map_span _ _ b2).symm
    refine ⟨(FOtelScopedSpan.move Stored).1,
      wb.setPinned (TMap.Remove wb.Get.PinnedSpans SpanId),
      by simp only [FOtelModule.Unpin, hf, a1, b1], ?_, setPinned_Sound wb _ b4,
      PinnedValid_setPinned wb _ ?_, ?_⟩
    · rw [← a2, ← b2]; rfl
    · intro kv hkv
      have h1 := TMap.mem_Remove _ _ _ hkv
      rw [b3, a3] at h1
      exact Valid_of_length kv.2 w wb (by omega) (hpv kv h1)
    · intro p hp
      have : (wb.setPinned (TMap.Remove wb.Get.PinnedSpans SpanId)).Heap = wb.Heap := rfl
      rw [this]
      exact Valid_of_length Stored wa wb (Nat.le_of_eq hlb) hSa p
        (by simpa [FOtelScopedSpan.move] using hp)

theorem Get_of_Module (w1 w2 : World) (h : w1.Module = w2.Module) : w1.Get = w2.Get := by
  unfold World.Get
  rw [h]

theorem Get_setScopes (w : World) (T : FName) (S : List Nat) :
    (w.setScopes T S).Get.TracerToScopeStack = TMap.Add w.Get.TracerToScopeStack T S ∧
    (w.setScopes T S).Get.PinnedSpans = w.Get.PinnedSpans :=
  ⟨rfl, rfl⟩

theorem ParentSpan_fields (Scopes : List Nat) (w : World) :
    (FOtelTracer.ParentSpan Scopes w).2.Heap = w.Heap ∧
    (FOtelTracer.ParentSpan Scopes w).2.Module = w.Module ∧
    (FOtelTracer.ParentSpan Scopes w).2.SdkLog = w.SdkLog := by
  unfold FOtelTracer.ParentSpan
  split
  · exact ⟨rfl, rfl, rfl⟩
  · split <;> exact ⟨rfl, rfl, rfl⟩

theorem StartSpanScoped_fields (T : FOtelTracer) (NewSpan : Nat) (w : World) :
    ∃ h w1 sp parent, T.StartSpanScoped NewSpan w = some (h, w1) ∧
      w1.Heap.map (·.Span) = w.Heap.map (·.Span) ++ [sp] ∧
      (sp.OtelSpan = none ∨ (sp.OtelSpan = some NewSpan ∧ T.OtelTracer ≠ none)) ∧
      w1.Get.TracerToScopeStack =
        TMap.Add w.Get.TracerToScopeStack T.TracerName
          (w.Scopes T.TracerName ++ [w.Heap.length]) ∧
      (w1.SdkLog = w.SdkLog ∨ w1.SdkLog = w.SdkLog ++ [SdkCall.StartSpan NewSpan parent]) ∧
      w1.Get.PinnedSpans = w.Get.PinnedSpans ∧ h.Valid w1 := by
  obtain ⟨p1, p2, p3⟩ := ParentSpan_fields (w.Scopes T.TracerName) w
  cases hT : T.OtelTracer with
  | some tr =>
    refine ⟨_, _, ⟨T.TracerName, some NewSpan⟩,
      (FOtelTracer.ParentSpan (w.Scopes T.TracerName) w).1.OtelSpan,
      StartSpanScopedOpts_sdk T tr hT NewSpan w, by simp, Or.inr ⟨rfl, by simp⟩, rfl,
      Or.inr rfl, rfl, ?_⟩
    intro p hp
    simp at hp
    subst hp
    simp
  | none =>
    generalize hpw : FOtelTracer.ParentSpan (w.Scopes T.TracerName) w = pw at p1 p2 p3
    have hstart : T.StartSpanScoped NewSpan w = some ({ Scope := none },
        World.setScopes { pw.2 with Heap := pw.2.Heap ++ [FOtelScopedSpanImpl.ctor FOtelSpan.ctor] }
          T.TracerName (w.Scopes T.TracerName ++ [pw.2.Heap.length])) := by
      simp only [FOtelTracer.StartSpanScoped, FOtelTracer.StartSpanScopedOpts,
        FOtelTracer.StartSpanOpts, hT, FOtelScopedSpan.fromSpan, FOtelSpan.ctor,
        FOtelScopedSpan.move, hpw]
    have hG : World.Get { pw.2 with
        Heap := pw.2.Heap ++ [FOtelScopedSpanImpl.ctor FOtelSpan.ctor] } = w.Get :=
      Get_of_Module _ w p2
    refine ⟨{ Scope := none }, _, FOtelSpan.ctor, none, hstart, ?_, Or.inl rfl, ?_, Or.inl ?_,
      ?_, ?_⟩
    · simp [World.setScopes, p1, FOtelScopedSpanImpl.ctor]
    · rw [(Get_setScopes _ _ _).1, hG, p1]
    · simp [World.setScopes, p3]
    · rw [(Get_setScopes _ _ _).2, hG]
    · intro p hp
      simp at hp

/-! ## Every span is ended at most once -/

theorem startedSpans_cons (op : ScopeOp) (rest : List ScopeOp) :
    startedSpans (op :: rest) = startedSpans [op] ++ startedSpans rest := by
  cases op with
  | Start Tracer NewSpan =>
    cases hT : Tracer.OtelTracer <;> simp [startedSpans, hT]
  | _ => simp [startedSpans]

theorem handleAt_Valid (Handles : List FOtelScopedSpan) (w : World)
    (hh : ∀ h ∈ Handles, h.Valid w) (i : Nat) : (handleAt Handles i).Valid w := by
  unfold handleAt
  cases hi : Handles[i]? with
  | none =>
    intro p hp
    simp [FOtelScopedSpan.ctor] at hp
  | some h => exact hh h (List.getElem?_mem hi)

theorem same_spans_pack (w w1 : World) (Handles1 : List FOtelScopedSpan) (Started : List Nat)
    (hH : w1.Heap.map (·.Span) = w.Heap.map (·.Span))
    (hh : ∀ h ∈ Handles1, h.Valid w) :
    (∀ h ∈ Handles1, h.Valid w1) ∧
    (∀ q s, spanAt w1.Heap q = some s →
      (∃ q2, spanAt w.Heap q2 = some s) ∨ s ∈ Started) := by
  refine ⟨?_, ?_⟩
  · intro h hmem
    exact Valid_of_length h w w1 (Nat.le_of_eq (length_of_map_span _ _ hH).symm) (hh h hmem)
  · intro q s hq
    rw [spanAt_congr _ _ hH] at hq
    exact Or.inl ⟨q, hq⟩

theorem Valid_null (w : World) : FOtelScopedSpan.Valid { Scope := none } w := by
  intro p hp
  simp at hp

theorem step_Sound (span_id : Nat → Nat) (op : ScopeOp) (Handles : List FOtelScopedSpan)
    (w : World) (hs : w.Sound) (hpv : w.PinnedValid) (hh : ∀ h ∈ Handles, h.Valid w)
    (hfresh : ∀ s ∈ startedSpans [op], ∀ q, spanAt w.Heap q ≠ some s) :
    ∃ Handles1 w1, op.step span_id Handles w = some (Handles1, w1) ∧ w1.Sound ∧
      w1.PinnedValid ∧ (∀ h ∈ Handles1, h.Valid w1) ∧
      (∀ q s, spanAt w1.Heap q = some s →
        (∃ q2, spanAt w.Heap q2 = some s) ∨ s ∈ startedSpans [op]) := by
  cases op with
  | Start Tracer NewSpan =>
    obtain ⟨h, w1, sp, parent, h1, h2, h3, h4, h5, h6, h7⟩ :=
      StartSpanScoped_fields Tracer NewSpan w
    have hlen : w1.Heap.length = w.Heap.length + 1 := by
      have := congrArg List.length h2
      simpa using this
    have hE : w1.Ended = w.Ended := by
      rcases h5 with h5 | h5
      · exact Ended_of_eq w w1 h5
      · exact Ended_of_append_start w w1 _ _ h5
    have hst : ∀ s, sp.OtelSpan = some s → s ∈ startedSpans [ScopeOp.Start Tracer NewSpan] := by
      intro s hsp
      rcases h3 with h3 | ⟨h3, hT⟩
      · rw [h3] at hsp
        cases hsp
      · rw [h3] at hsp
        cases hsp
        cases hT2 : Tracer.OtelTracer with
        | none => exact absurd hT2 hT
        | some tr => simp [startedSpans, hT2]
    have hsound := Sound_of_push w w1 hs Tracer.TracerName sp h2
      (fun s hsp => hfresh s (hst s hsp)) h4 hE
    refine ⟨Handles ++ [h], w1, by simp only [ScopeOp.step, h1], hsound,
      PinnedValid_of_eq w w1 h6 (by omega) hpv, ?_, ?_⟩
    · intro h0 hmem
      rw [List.mem_append, List.mem_singleton] at hmem
      rcases hmem with hmem | hmem
      · exact Valid_of_length h0 w w1 (by omega) (hh h0 hmem)
      · rw [hmem]; exact h7
    · intro q s hq
      have hsp := spanAt_of_map_append w1.Heap w.Heap sp h2 q
      rcases Nat.lt_trichotomy q w.Heap.length with hlt | heq | hgt
      · exact Or.inl ⟨q, by rw [← hsp.1 hlt]; exact hq⟩
      · exact Or.inr (hst s (by rw [← hsp.2.1 heq]; exact hq))
      · rw [hsp.2.2 hgt] at hq
        cases hq
  | Copy i =>
    obtain ⟨w1, h1, h2, h3, h4⟩ := copy_Sound (handleAt Handles i) w
      (handleAt_Valid Handles w hh i) hs
    obtain ⟨p1, p2⟩ := same_spans_pack w w1 (Handles ++ [handleAt Handles i])
      (startedSpans [ScopeOp.Copy i]) h2 (by
        intro h hmem
        rw [List.mem_append, List.mem_singleton] at hmem
        rcases hmem with hmem | hmem
        · exact hh h hmem
        · rw [hmem]; exact handleAt_Valid Handles w hh i)
    exact ⟨_, w1, by simp only [ScopeOp.step, h1], h4,
      PinnedValid_of_eq w w1 h3 (Nat.le_of_eq (length_of_map_span _ _ h2).symm) hpv, p1, p2⟩
  | Move i =>
    obtain ⟨p1, p2⟩ := same_spans_pack w w
      ((Handles.set i (FOtelScopedSpan.move (handleAt Handles i)).2) ++
        [(FOtelScopedSpan.move (handleAt Handles i)).1])
      (startedSpans [ScopeOp.Move i]) rfl (by
        intro h hmem
        rw [List.mem_append, List.mem_singleton] at hmem
        rcases hmem with hmem | hmem
        · rcases List.mem_or_eq_of_mem_set hmem with h2 | h2
          · exact hh h h2
          · rw [h2]; exact Valid_null w
        · rw [hmem]
          exact handleAt_Valid Handles w hh i)
    exact ⟨_, w, by simp only [ScopeOp.step], hs, hpv, p1, p2⟩
  | Assign i j =>
    obtain ⟨w1, h1, h2, h3, h4⟩ := assign_Sound (handleAt Handles i) (handleAt Handles j) w
      (handleAt_Valid Handles w hh j) hs
    obtain ⟨p1, p2⟩ := same_spans_pack w w1 (Handles.set i (handleAt Handles j))
      (startedSpans [ScopeOp.Assign i j]) h2 (by
        intro h hmem
        rcases List.mem_or_eq_of_mem_set hmem with h2 | h2
        · exact hh h h2
        · rw [h2]; exact handleAt_Valid Handles w hh j)
    exact ⟨_, w1, by simp only [ScopeOp.step, h1], h4,
      PinnedValid_of_eq w w1 h3 (Nat.le_of_eq (length_of_map_span _ _ h2).symm) hpv, p1, p2⟩
  | Release i =>
    obtain ⟨w1, h1, h2, h3, h4⟩ := dtor_Sound (handleAt Handles i) w
      (handleAt_Valid Handles w hh i) hs
    obtain ⟨p1, p2⟩ := same_spans_pack w w1 (Handles.set i FOtelScopedSpan.ctor)
      (startedSpans [ScopeOp.Release i]) h2 (by
        intro h hmem
        rcases List.mem_or_eq_of_mem_set hmem with h2 | h2
        · exact hh h h2
        · rw [h2]; exact Valid_null w)
    exact ⟨_, w1, by simp only [ScopeOp.step, h1], h4,
      PinnedValid_of_eq w w1 h3 (Nat.le_of_eq (length_of_map_span _ _ h2).symm) hpv, p1, p2⟩
  | Pin i =>
    obtain ⟨id, w1, h1, h2, h3, h4⟩ := Pin_Sound span_id (handleAt Handles i) w
      (handleAt_Valid Handles w hh i) hs hpv
    obtain ⟨p1, p2⟩ := same_spans_pack w w1 Handles (startedSpans [ScopeOp.Pin i]) h2 hh
    exact ⟨_, w1, by simp only [ScopeOp.step, h1], h3, h4, p1, p2⟩
  | Unpin SpanId =>
    obtain ⟨h, w1, h1, h2, h3, h4, h5⟩ := Unpin_Sound SpanId w hs hpv
    obtain ⟨p1, p2⟩ := same_spans_pack w w1 Handles (startedSpans [ScopeOp.Unpin SpanId]) h2 hh
    refine ⟨Handles ++ [h], w1, by simp only [ScopeOp.step, h1], h3, h4, ?_, p2⟩
    intro h0 hmem
    rw [List.mem_append, List.mem_singleton] at hmem
    rcases hmem with hmem | hmem
    · exact p1 h0 hmem
    · rw [hmem]; exact h5
  | Shutdown =>
    obtain ⟨_, e2, _, e4⟩ := ShutdownModule_spec w
    obtain ⟨p1, p2⟩ := same_spans_pack w (FOtelModule.ShutdownModule w) Handles
      (startedSpans [ScopeOp.Shutdown]) (by rw [e2]) hh
    exact ⟨_, _, by simp only [ScopeOp.step], Sound_of_shutdown w hs,
      PinnedValid_of_eq w _ e4 (by rw [e2]) hpv, p1, p2⟩

theorem runOps_Sound (span_id : Nat → Nat) (ops : List ScopeOp)
    (Handles : List FOtelScopedSpan) (w : World) (hs : w.Sound) (hpv : w.PinnedValid)
    (hh : ∀ h ∈ Handles, h.Valid w)
    (hfresh : ∀ s ∈ startedSpans ops, ∀ q, spanAt w.Heap q ≠ some s)
    (hnd : (startedSpans ops).Nodup) :
    ∃ Handles1 w1, runOps span_id ops Handles w = some (Handles1, w1) ∧ w1.Sound := by
  induction ops generalizing Handles w with
  | nil => exact ⟨Handles, w, rfl, hs⟩
  | cons op rest ih =>
    rw [startedSpans_cons] at hfresh hnd
    obtain ⟨Handles1, w1, h1, h2, h3, h4, h5⟩ := step_Sound span_id op Handles w hs hpv hh
      (fun s hmem => hfresh s (List.mem_append_left _ hmem))
    obtain ⟨Handles2, w2, g1, g2⟩ := ih Handles1 w1 h2 h3 h4 (by
      intro s hmem q hq
      rcases h5 q s hq with ⟨q2, hq2⟩ | hin
      · exact hfresh s (List.mem_append_right _ hmem) q2 hq2
      · exact (List.nodup_append.mp hnd).2.2 hin hmem) (List.Nodup.of_append_right hnd)
    exact ⟨Handles2, w2, by simp only [runOps, h1, g1], g2⟩

theorem count_End_eq (l : List SdkCall) (s : Nat) :
    l.count (SdkCall.End s) = (l.filterMap SdkCall.ended).count s := by
  induction l with
  | nil => rfl
  | cons c rest ih =>
    cases c with
    | End s2 =>
      by_cases h : s2 = s
      · subst h
        simp [List.filterMap_cons, SdkCall.ended, ih]
      · have h2 : ¬ (SdkCall.End s2 = SdkCall.End s) := fun e => h (by cases e; rfl)
        simp [List.filterMap_cons, SdkCall.ended, ih, List.count_cons, h, h2]
    | _ => simp [List.filterMap_cons, SdkCall.ended, ih, List.count_cons]

theorem Sound_exEmpty : exEmpty.Sound := by
  refine ⟨?_, ?_, ?_, ?_, ?_, ?_⟩
  · intro q hq
    simp [World.Entries, exEmpty, World.Get, FOtelModule.fresh] at hq
  · simp [World.Entries, exEmpty, World.Get, FOtelModule.fresh]
  · intro i j s hi
    simp [spanAt, exEmpty] at hi
  · simp [World.Ended, exEmpty]
  · intro q hq
    simp [World.Entries, exEmpty, World.Get, FOtelModule.fresh] at hq
  · intro s hs
    simp [World.Ended, exEmpty] at hs

/-- C24: from the state in which the module is not yet loaded, every sequence of
operations on handle variables (start of a scoped span, copy, move, assignment,
release, `Pin`, `Unpin`, `ShutdownModule`), in which the SDK returns a new span
object to each start, runs to its end, and in the calls made on the SDK no span has
more than one `End()` call. -/
theorem C24_every_span_is_ended_at_most_once (span_id : Nat → Nat) (ops : List ScopeOp)
    (hnew : (startedSpans ops).Nodup) :
    ∃ Handles w, runOps span_id ops [] exEmpty = some (Handles, w) ∧
      ∀ s, w.SdkLog.count (SdkCall.End s) ≤ 1 := by
  obtain ⟨Handles, w, h1, h2⟩ := runOps_Sound span_id ops [] exEmpty Sound_exEmpty
    (by intro kv hkv; simp [exEmpty, World.Get, FOtelModule.fresh] at hkv)
    (by intro h hmem; cases hmem)
    (by intro s _ q hq; simp [spanAt, exEmpty] at hq) hnew
  refine ⟨Handles, w, h1, ?_⟩
  intro s
  rw [count_End_eq]
  exact List.nodup_iff_count_le_one.mp h2.ended s

/-- C24 at a concrete program: `exProgram`, which starts the spans 100 and 101. -/
theorem C24_every_span_is_ended_at_most_once_witness :
    ∃ Handles w, runOps (fun s => s + 1000) exProgram [] exEmpty = some (Handles, w) ∧
      ∀ s, w.SdkLog.count (SdkCall.End s) ≤ 1 :=
  C24_every_span_is_ended_at_most_once (fun s => s + 1000) exProgram (by decide)

/-! ## What a pin holds open -/

theorem Unpin_live (SpanId : Nat) (v : World) (q sv : Nat) (implv : FOtelScopedSpanImpl)
    (hf : TMap.Find v.Get.PinnedSpans SpanId = some { Scope := some q })
    (hI : v.Heap[q]? = some implv) (hs : implv.Span.OtelSpan = some sv)
    (hrc : 1 ≤ implv.RefCount) :
    FOtelModule.Unpin SpanId v =
      some ({ Scope := some q }, v.setPinned (TMap.Remove v.Get.PinnedSpans SpanId)) := by
  have a1 : FOtelScopedSpan.assign FOtelScopedSpan.ctor { Scope := some q } v =
      some ({ Scope := some q }, v.setRefCount q implv (implv.RefCount + 1)) := by
    simp [FOtelScopedSpan.assign, hI, hs]
  have g2 := getElem?_setRefCount_self v q implv (implv.RefCount + 1) hI
  have d2 := dtor_shared { Scope := some q } _ q ⟨implv.Span, implv.RefCount + 1⟩ rfl g2
    (by simp only; omega)
  have e1 : implv.RefCount + 1 - 1 = implv.RefCount := by omega
  have hback : (v.setRefCount q implv (implv.RefCount + 1)).setRefCount q
      ⟨implv.Span, implv.RefCount + 1⟩ (implv.RefCount + 1 - 1) = v := by
    rw [setRefCount_setRefCount, e1]
    exact setRefCount_same v q implv hI
  rw [hback] at d2
  simp only [FOtelModule.Unpin, hf, a1, d2, FOtelScopedSpan.move]

theorem mem_ends_of_mem (Heap : List FOtelScopedSpanImpl) (l : List Nat) (p s : Nat)
    (hp : p ∈ l) (hs : spanAt Heap p = some s) :
    SdkCall.End s ∈ (l.reverse.filterMap (spanAt Heap)).map SdkCall.End := by
  apply List.mem_map_of_mem
  rw [List.mem_filterMap]
  exact ⟨p, List.mem_reverse.mpr hp, hs⟩

/-- C8 does not hold as stated, in two ways. In `exPinned` the handle of the entry at
position 1 is live (its span is 101, its count is 2: the caller's handle and the
registry's) and its id 1101 is already a key of the registry. `Pin` of it succeeds
and gives the very same state back: the new element replaces the stored one, whose
destructor takes the count down again. So the count is 2 after the call, not 3. The
state itself arises from `exThree` by a first `Pin` of the same handle. And in that
state, after the caller's handle on entry 1 is released, the release of the handle
on entry 0, which is below it on the stack, ends the spans 102, 101 and 100: the
pinned span 101 is ended while its id is still in the registry, and `Unpin` with
the release of the returned handle then ends nothing. -/
theorem C8_pin_again_and_outer_release_counterexample :
    FOtelModule.Pin (fun s => s + 1000) { Scope := some 1 } exThree = some (1101, exPinned) ∧
    FOtelScopedSpan.Inner { Scope := some 1 } exPinned = some ⟨7, some 101⟩ ∧
    exPinned.Heap[1]? = some ⟨⟨7, some 101⟩, 2⟩ ∧
    FOtelModule.Pin (fun s => s + 1000) { Scope := some 1 } exPinned = some (1101, exPinned) ∧
    ¬ (∃ id w1, FOtelModule.Pin (fun s => s + 1000) { Scope := some 1 } exPinned = some (id, w1) ∧
        w1.Heap[1]? = some ⟨⟨7, some 101⟩, 2 + 1⟩) ∧
    ((FOtelScopedSpan.dtor { Scope := some 1 } exPinned).bind
        (FOtelScopedSpan.dtor { Scope := some 0 })).map
      (fun w => (w.SdkLog.drop exPinned.SdkLog.length, FOtelModule.GetPinnedSpan 1101 w)) =
      some ([SdkCall.End 102, SdkCall.End 101, SdkCall.End 100], some { Scope := some 1 }) ∧
    ((((FOtelScopedSpan.dtor { Scope := some 1 } exPinned).bind
        (FOtelScopedSpan.dtor { Scope := some 0 })).bind (FOtelModule.Unpin 1101)).bind
        (fun r => r.1.dtor r.2)).map (fun w => w.SdkLog.drop exPinned.SdkLog.length) =
      some [SdkCall.End 102, SdkCall.End 101, SdkCall.End 100] := by
  have h2 : FOtelModule.Pin (fun s => s + 1000) { Scope := some 1 } exPinned =
      some (1101, exPinned) := by decide
  refine ⟨by decide, by decide, by decide, h2, ?_, by decide, by decide⟩
  rintro ⟨id, w1, hrun, hcount⟩
  rw [h2] at hrun
  have e : exPinned = w1 := congrArg Prod.snd (Option.some.inj hrun)
  rw [← e] at hcount
  exact absurd hcount (by decide)

/-- C8, amended: let `h` be a live handle (its entry `impl` at position `p` holds the SDK
span `s` and has a count of at least 1, the handle itself) of a loaded module, and
let the registry hold nothing under `span_id s`. Then `Pin(h)`, with `h` passed by
copy, succeeds, returns that id, stores a handle on the entry and raises the count
of the entry by exactly one, with no call on the SDK and no stack changed;
releasing `h` afterwards succeeds, makes no call on the SDK, changes no stack and
takes the count back to what it was; `Unpin` of the id then returns a handle on the
same entry and the state is exactly the one before `Pin`. If that handle is then the
only one (count 1) and the entry sits at index `k` of its tracer's stack, its
release ends the span `s` (with the spans of the entries above it). The pin does not
hold the span open against other releases: after `Pin`, the release of the last
handle of an entry `p0` that is below `p` on the same stack ends `s`, and so does
`ShutdownModule` when `p` is on a stack, both with the id still in the registry. And
in every state, `Unpin` of an id whose stored handle is on an entry with a span and
a count of at least 1 returns a handle on that entry, removes the id and changes
neither a count nor a stack and makes no call on the SDK. -/
theorem C8_pin_of_fresh_id_holds_span_open (span_id : Nat → Nat) (h : FOtelScopedSpan) (w : World)
    (M : FOtelModule) (p s : Nat) (impl : FOtelScopedSpanImpl) (hM : w.Module = some M)
    (hp : h.Scope = some p) (hI : w.Heap[p]? = some impl) (hs : impl.Span.OtelSpan = some s)
    (hrc : 1 ≤ impl.RefCount)
    (hfresh : FOtelModule.GetPinnedSpan (span_id s) w = none) :
    (∃ w1 w2, FOtelModule.Pin span_id h w = some (span_id s, w1) ∧
      w1.Heap[p]? = some { impl with RefCount := impl.RefCount + 1 } ∧
      w1.SdkLog = w.SdkLog ∧ w1.Get.TracerToScopeStack = w.Get.TracerToScopeStack ∧
      FOtelModule.GetPinnedSpan (span_id s) w1 = some { Scope := some p } ∧
      h.dtor w1 = some w2 ∧
      w2.SdkLog = w.SdkLog ∧ w2.Get.TracerToScopeStack = w.Get.TracerToScopeStack ∧
      w2.Heap[p]? = some impl ∧
      FOtelModule.Unpin (span_id s) w2 = some ({ Scope := some p }, w) ∧
      (impl.RefCount = 1 → ∀ Scopes k,
        TMap.Find M.TracerToScopeStack impl.Span.TracerName = some Scopes →
        Scopes[k]? = some p → p ∉ Scopes.take k → (∀ q ∈ Scopes.drop k, q < w.Heap.length) →
        ∃ w3, FOtelScopedSpan.dtor { Scope := some p } w = some w3 ∧
          w3.SdkLog = w.SdkLog ++
            ((Scopes.drop k).reverse.filterMap (spanAt w.Heap)).map SdkCall.End ∧
          SdkCall.End s ∈
            ((Scopes.drop k).reverse.filterMap (spanAt w.Heap)).map SdkCall.End) ∧
      (∀ p0 impl0 Scopes j, w1.Heap[p0]? = some impl0 → impl0.RefCount ≤ 1 →
        TMap.Find M.TracerToScopeStack impl0.Span.TracerName = some Scopes →
        Scopes[j]? = some p0 → p0 ∉ Scopes.take j → p ∈ Scopes.drop j →
        (∀ q ∈ Scopes.drop j, q < w.Heap.length) →
        ∃ w3 new, FOtelScopedSpan.dtor { Scope := some p0 } w1 = some w3 ∧
          w3.SdkLog = w1.SdkLog ++ new ∧ SdkCall.End s ∈ new ∧
          FOtelModule.GetPinnedSpan (span_id s) w3 = some { Scope := some p }) ∧
      (p ∈ w.Entries →
        ∃ new, (FOtelModule.ShutdownModule w1).SdkLog = w1.SdkLog ++ new ∧
          SdkCall.End s ∈ new ∧
          FOtelModule.GetPinnedSpan (span_id s) (FOtelModule.ShutdownModule w1) =
            some { Scope := some p })) ∧
    (∀ (v : World) (SpanId q sv : Nat) (implv : FOtelScopedSpanImpl),
      FOtelModule.GetPinnedSpan SpanId v = some { Scope := some q } →
      v.Heap[q]? = some implv → implv.Span.OtelSpan = some sv → 1 ≤ implv.RefCount →
      ∃ v1, FOtelModule.Unpin SpanId v = some ({ Scope := some q }, v1) ∧
        v1.Heap = v.Heap ∧ v1.SdkLog = v.SdkLog ∧
        v1.Get.TracerToScopeStack = v.Get.TracerToScopeStack ∧
        FOtelModule.GetPinnedSpan SpanId v1 = none) := by
  have hG : w.Get = M := by simp [World.Get, hM]
  have P1 := Pin_fresh span_id h w p s impl hp hI hs hrc hfresh
  obtain ⟨w1, w2, a1, a2, a3, a4, a5, a6, a7, a8, a9⟩ :=
    Pin_release_Unpin_fresh span_id h w M p s impl hM hp hI hs hrc hfresh
  have hw1 : w1 = (w.setRefCount p impl (impl.RefCount + 1)).setPinned
      (TMap.Add w.Get.PinnedSpans (span_id s) { Scope := some p }) := by
    rw [P1] at a1
    exact (congrArg Prod.snd (Option.some.inj a1)).symm
  have hpin1 : FOtelModule.GetPinnedSpan (span_id s) w1 = some { Scope := some p } := by
    rw [hw1]
    simp [FOtelModule.GetPinnedSpan, World.setPinned, World.Get, TMap.Find_Add_self]
  have hlen1 : w1.Heap.length = w.Heap.length := by
    rw [hw1]
    simp [World.setPinned, World.setRefCount]
  have hspan1 : spanAt w1.Heap p = some s := by
    simp [spanAt, a2, hs]
  have hM1 : w1.Module = some { M with
      PinnedSpans := TMap.Add M.PinnedSpans (span_id s) { Scope := some p } } := by
    rw [hw1]
    simp only [World.setPinned]
    have : (w.setRefCount p impl (impl.RefCount + 1)).Get = M := hG
    rw [this, hG]
  refine ⟨⟨w1, w2, a1, a2, a3, a4, hpin1, a5, a6, a7, by rw [a8]; exact hI, a9, ?_, ?_, ?_⟩, ?_⟩
  · intro hone Scopes k hS hk hfirst hv
    obtain ⟨w3, b1, b2, _⟩ := dtor_on_stack { Scope := some p } w M p impl Scopes k hM rfl hI
      (le_of_eq hone) hS hk hfirst hv
    refine ⟨w3, b1, b2, ?_⟩
    have hd : (Scopes.drop k)[0]? = some p := by
      rw [List.getElem?_drop]
      simpa using hk
    exact mem_ends_of_mem w.Heap _ p s (List.getElem?_mem hd) (by simp [spanAt, hI, hs])
  · intro p0 impl0 Scopes j hI0 hrc0 hS hj hfirst hpin hv
    obtain ⟨w3, b1, b2, _, _, _, _, b7⟩ := dtor_on_stack { Scope := some p0 } w1 _ p0 impl0
      Scopes j hM1 rfl hI0 hrc0 hS hj hfirst (by rw [hlen1]; exact hv)
    refine ⟨w3, _, b1, b2, mem_ends_of_mem w1.Heap _ p s hpin hspan1, ?_⟩
    unfold FOtelModule.GetPinnedSpan at hpin1 ⊢
    rw [b7]
    exact hpin1
  · intro hin
    obtain ⟨e1, _, _, e4⟩ := ShutdownModule_spec w1
    unfold World.Entries at hin
    rw [List.mem_flatMap] at hin
    obtain ⟨Pair, hP, hq⟩ := hin
    refine ⟨_, e1, mem_flatMap_ends _ _ Pair (by rw [a4]; exact hP) p s hq hspan1, ?_⟩
    unfold FOtelModule.GetPinnedSpan at hpin1 ⊢
    rw [e4]
    exact hpin1
  · intro v SpanId q sv implv hf hIv hsv hrcv
    refine ⟨_, Unpin_live SpanId v q sv implv hf hIv hsv hrcv, rfl, rfl, rfl, ?_⟩
    simp [FOtelModule.GetPinnedSpan, World.setPinned, World.Get, TMap.Find_Remove_self]

/-- C8 (amended) at a concrete state: the handle of the entry at position 1 of
`exThree`, whose id 1101 is not in the registry; the entry at position 0 is below it
on the stack of tracer 7. -/
theorem C8_pin_of_fresh_id_holds_span_open_witness :
    ∃ w1 w2, FOtelModule.Pin (fun s => s + 1000) { Scope := some 1 } exThree = some (1101, w1) ∧
      w1.Heap[1]? = some ⟨⟨7, some 101⟩, 2⟩ ∧
      FOtelModule.GetPinnedSpan 1101 w1 = some { Scope := some 1 } ∧
      FOtelScopedSpan.dtor { Scope := some 1 } w1 = some w2 ∧
      w2.SdkLog = exThree.SdkLog ∧
      FOtelModule.Unpin 1101 w2 = some ({ Scope := some 1 }, exThree) ∧
      (∃ w3, FOtelScopedSpan.dtor { Scope := some 1 } exThree = some w3 ∧
        SdkCall.End 101 ∈ w3.SdkLog) ∧
      (∃ w3 new, FOtelScopedSpan.dtor { Scope := some 0 } w1 = some w3 ∧
        w3.SdkLog = w1.SdkLog ++ new ∧ SdkCall.End 101 ∈ new ∧
        FOtelModule.GetPinnedSpan 1101 w3 = some { Scope := some 1 }) ∧
      (∃ new, (FOtelModule.ShutdownModule w1).SdkLog = w1.SdkLog ++ new ∧
        SdkCall.End 101 ∈ new ∧
        FOtelModule.GetPinnedSpan 1101 (FOtelModule.ShutdownModule w1) =
          some { Scope := some 1 }) := by
  obtain ⟨⟨w1, w2, a1, a2, _, _, a5, a6, a7, _, _, a10, a11, a12, a13⟩, _⟩ :=
    C8_pin_of_fresh_id_holds_span_open (fun s => s + 1000) { Scope := some 1 } exThree
      { TracerToScopeStack := [(7, [0, 1, 2])], PinnedSpans := [] } 1 101 ⟨⟨7, some 101⟩, 1⟩
      rfl rfl rfl rfl (by decide) rfl
  have hw1 : w1 = exPinned := by
    have h0 : FOtelModule.Pin (fun s => s + 1000) { Scope := some 1 } exThree =
        some (1101, exPinned) := by decide
    rw [h0] at a1
    exact (congrArg Prod.snd (Option.some.inj a1)).symm
  refine ⟨w1, w2, a1, a2, a5, a6, a7, a10, ?_, ?_, ?_⟩
  · obtain ⟨w3, b1, b2, b3⟩ := a11 rfl [0, 1, 2] 1 (by decide) (by decide) (by decide)
      (by decide)
    exact ⟨w3, b1, by rw [b2]; exact List.mem_append_right _ b3⟩
  · exact a12 0 ⟨⟨7, some 100⟩, 1⟩ [0, 1, 2] 0 (by rw [hw1]; decide) (by decide) (by decide)
      (by decide) (by decide) (by decide) (by decide)
  · exact a13 (by decide)

end Otel
